import Mathlib

/-!
Verification of the constraint interaction grouping core
(`src/dynamics/solver/interaction_groups.rs`).

The embedding models `u128` bit masks as `Nat` (all masks ever built have
bits below 128 only), `Vec<usize>` as `List Nat`, and the `VecMap` bucket
store of the SIMD packer as a dense 128-entry list, which the specification
explicitly allows ("Implementations may use a 128-slot dense array
instead").  Rust panics (`unreachable!()`, out-of-bounds indexing, failed
`assert!`) are modelled by returning `none`.
-/

namespace InteractionGrouping

/-- Bitwise complement on 128-bit words: `!m` for a `u128` value `m`.
For `m < 2^128` the xor with the all-ones word is exactly the complement. -/
def not128 (m : Nat) : Nat := (2 ^ 128 - 1) ^^^ m

/-- Search for the lowest set bit of `x`, starting at bit `k`, with `fuel`
remaining positions to examine; returns 128 when no set bit is found.
This mirrors `u128::trailing_zeros` applied to values below `2^128`. -/
def ctzSearch (x : Nat) : Nat → Nat → Nat
  | _, 0 => 128
  | k, fuel + 1 => if x.testBit k then k else ctzSearch x (k + 1) fuel

/-- `u128::trailing_zeros`: the least `k < 128` with bit `k` of `x` set,
or 128 when `x` has no set bit below 128 (in particular when `x = 0`). -/
def ctz128 (x : Nat) : Nat := ctzSearch x 0 128

/-- `Vec::resize(n, 0)`: truncate to `n` elements or pad with zeros. -/
def resizeList (l : List Nat) (n : Nat) : List Nat :=
  l.take n ++ List.replicate (n - l.length) 0

/-- Option-valued left fold over a list of interaction indices: the loop
body may abort (modelling a Rust panic), in which case the whole loop
aborts. -/
def foldSteps {σ : Type} (f : σ → Nat → Option σ) : σ → List Nat → Option σ
  | st, [] => some st
  | st, i :: rest =>
    match f st i with
    | none => none
    | some st' => foldSteps f st' rest

/-! ## Data model

The body store and the interaction containers are external collaborators
of the grouping core (they live outside this file's source).  Modelled
from the spec: a body exposes a boolean dynamic flag (`static?` being its
negation, §3 of the specification) and a dense island offset
`active_set_offset`; interactions resolve, through the `PairInteraction`
abstraction, to a pair of body handles plus, for contact manifolds, a
`num_active_contacts` count and, for joints, a subtype tag `type_id` and
a `supports_simd_constraints` flag. -/

/-- Modelled from the spec: a rigid body as seen by the grouping core
(missing from the extracted source: the `RigidBody` type of the body
store).  Per §3 of the specification it exposes `dynamic?` (with
`static?` its negation) and a dense island offset. -/
structure RBody where
  isDynamic : Bool
  activeSetOffset : Nat
deriving DecidableEq

/-- A pair of body handles, as returned by `PairInteraction::body_pair`. -/
structure BodyPair where
  body1 : Nat
  body2 : Nat
deriving DecidableEq

/-- Modelled from the spec: the data the SIMD joint path reads from a
`JointGraphEdge` (missing from the extracted source: the joint type
itself): its two body handles, the `supports_simd_constraints` flag and
the joint subtype `params.type_id()`. -/
structure JointData where
  body1 : Nat
  body2 : Nat
  supportsSimd : Bool
  typeId : Nat
deriving DecidableEq

/-- Modelled from the spec: the data the SIMD contact path reads from a
`ContactManifold` (missing from the extracted source: the manifold type
itself): the stored body pair and `num_active_contacts`. -/
structure ManifoldData where
  body1 : Nat
  body2 : Nat
  numActiveContacts : Nat
deriving DecidableEq

/-- Membership of a body handle in an interaction's body pair. -/
def memPair (b : Nat) (p : BodyPair) : Prop := b = p.body1 ∨ b = p.body2

instance (b : Nat) (p : BodyPair) : Decidable (memPair b p) := by
  unfold memPair
  infer_instance

/-- Pair view of a joint edge (`PairInteraction for JointGraphEdge`). -/
def JointData.pair (j : JointData) : BodyPair := { body1 := j.body1, body2 := j.body2 }

/-- Pair view of a contact manifold (`PairInteraction for &mut ContactManifold`). -/
def ManifoldData.pair (m : ManifoldData) : BodyPair := { body1 := m.body1, body2 := m.body2 }

/-- Both endpoint bodies of the pair are static. -/
def bothStatic (bodies : Nat → RBody) (p : BodyPair) : Bool :=
  !(bodies p.body1).isDynamic && !(bodies p.body2).isDynamic

/-- The island offsets of the dynamic participants of a pair (at most
two entries; both entries coincide when the two handles resolve to the
same offset). -/
def dynOffsets (bodies : Nat → RBody) (p : BodyPair) : List Nat :=
  (if (bodies p.body1).isDynamic then [(bodies p.body1).activeSetOffset] else []) ++
    (if (bodies p.body2).isDynamic then [(bodies p.body2).activeSetOffset] else [])

/-! ## Parallel graph coloring (`ParallelInteractionGroups`) -/

/-- The workspace state of the first (coloring) pass of
`ParallelInteractionGroups::group_interactions`: per-island-body color
masks `bodies_color`, the `color_len` histogram (`[0; 128]`), and the
colors assigned so far (the `interaction_colors` workspace, in input
order). -/
structure CState where
  bcolors : List Nat
  colorLen : List Nat
  colors : List Nat
deriving DecidableEq

/-- One iteration of the coloring loop (lines 75–107 of the source).
Returns `none` exactly where Rust panics: the `unreachable!()` on a
static–static pair, an out-of-range `active_set_offset` into
`bodies_color`, or `color_len[color]` with `color = 128` (the assigned
color is `(!mask).trailing_zeros()`, which is 128 when the mask is
all-ones, and `color_len` has length 128). -/
def colorStep (bodies : Nat → RBody) (ints : Nat → BodyPair) (st : CState) (idx : Nat) :
    Option CState :=
  let bp := ints idx
  let rb1 := bodies bp.body1
  let rb2 := bodies bp.body2
  match !rb1.isDynamic, !rb2.isDynamic with
  | false, false =>
    if rb1.activeSetOffset < st.bcolors.length then
      if rb2.activeSetOffset < st.bcolors.length then
        let colorMask := st.bcolors.getD rb1.activeSetOffset 0 |||
          st.bcolors.getD rb2.activeSetOffset 0
        let c := ctz128 (not128 colorMask)
        if c < st.colorLen.length then
          let b1 := st.bcolors.set rb1.activeSetOffset
            (st.bcolors.getD rb1.activeSetOffset 0 ||| 2 ^ c)
          let b2 := b1.set rb2.activeSetOffset (b1.getD rb2.activeSetOffset 0 ||| 2 ^ c)
          some { bcolors := b2,
                 colorLen := st.colorLen.set c (st.colorLen.getD c 0 + 1),
                 colors := st.colors ++ [c] }
        else none
      else none
    else none
  | true, false =>
    if rb2.activeSetOffset < st.bcolors.length then
      let colorMask := st.bcolors.getD rb2.activeSetOffset 0
      let c := ctz128 (not128 colorMask)
      if c < st.colorLen.length then
        some { bcolors := st.bcolors.set rb2.activeSetOffset
                 (st.bcolors.getD rb2.activeSetOffset 0 ||| 2 ^ c),
               colorLen := st.colorLen.set c (st.colorLen.getD c 0 + 1),
               colors := st.colors ++ [c] }
      else none
    else none
  | false, true =>
    if rb1.activeSetOffset < st.bcolors.length then
      let colorMask := st.bcolors.getD rb1.activeSetOffset 0
      let c := ctz128 (not128 colorMask)
      if c < st.colorLen.length then
        some { bcolors := st.bcolors.set rb1.activeSetOffset
                 (st.bcolors.getD rb1.activeSetOffset 0 ||| 2 ^ c),
               colorLen := st.colorLen.set c (st.colorLen.getD c 0 + 1),
               colors := st.colors ++ [c] }
      else none
    else none
  | true, true => none

/-- The full coloring pass over the interaction indices. -/
def colorPass (bodies : Nat → RBody) (ints : Nat → BodyPair) (st : CState)
    (idxs : List Nat) : Option CState :=
  foldSteps (colorStep bodies ints) st idxs

/-- The offset scan (lines 109–120 of the source): walk `color_len` from
index 0, stopping at the first empty color; accumulate the `groups`
offset table and the per-color running cursors `sort_offsets`. -/
def scanLoop (colorLen : List Nat) : Nat → Nat → List Nat → List Nat → Nat →
    List Nat × List Nat × Nat
  | 0, _, groups, offs, last => (groups, offs, last)
  | fuel + 1, i, groups, offs, last =>
    if colorLen.getD i 0 = 0 then (groups, offs, last)
    else scanLoop colorLen fuel (i + 1) (groups ++ [last]) (offs.set i last)
      (last + colorLen.getD i 0)

/-- The scatter pass (lines 125–131 of the source): place each interaction
index at its color's running cursor in `sorted_interactions`.  Returns
`none` exactly where Rust's bounds-checked writes would panic. -/
def scatterLoop : List (Nat × Nat) → List Nat → List Nat → Option (List Nat × List Nat)
  | [], sorted, offs => some (sorted, offs)
  | (idx, c) :: rest, sorted, offs =>
    if c < offs.length then
      let pos := offs.getD c 0
      if pos < sorted.length then
        scatterLoop rest (sorted.set pos idx) (offs.set c (pos + 1))
      else none
    else none

/-- The observable outputs of `ParallelInteractionGroups::group_interactions`
(plus the assigned colors, kept for stating the coloring invariants). -/
structure PGroups where
  sortedInteractions : List Nat
  groups : List Nat
  colors : List Nat
deriving DecidableEq

/-- `ParallelInteractionGroups::group_interactions` (lines 54–134).
`prev` is the grouper's state from any earlier call; the function clears
every workspace and output vector up front (lines 62–66), so `prev` is
never consulted.  `numIslandBodies` stands for
`bodies.active_island(island_id).len()`. -/
def groupInteractions (bodies : Nat → RBody) (ints : Nat → BodyPair)
    (numIslandBodies : Nat) (_prev : PGroups) (idxs : List Nat) : Option PGroups :=
  let st0 : CState :=
    { bcolors := List.replicate numIslandBodies 0,
      colorLen := List.replicate 128 0,
      colors := [] }
  match colorPass bodies ints st0 idxs with
  | none => none
  | some st =>
    let scanned := scanLoop st.colorLen 128 0 [] (List.replicate 128 0) 0
    match scatterLoop (idxs.zip st.colors) (List.replicate idxs.length 0) scanned.2.1 with
    | none => none
    | some (sorted, _) =>
      some { sortedInteractions := sorted,
             groups := scanned.1 ++ [sorted.length],
             colors := st.colors }

/-! ## SIMD lane packer (`InteractionGroups`) -/

/-- The persistent state of the SIMD packer struct `InteractionGroups`:
the sparse bucket map (modelled densely with 128 slots, each a pair of a
`SIMD_WIDTH`-long lane array and a fill count), the `body_masks`
workspace, and the two output vectors. -/
structure InteractionGroups where
  buckets : List (List Nat × Nat)
  bodyMasks : List Nat
  grouped : List Nat
  nongrouped : List Nat
deriving DecidableEq

/-- `InteractionGroups::new()`: empty workspaces.  The SIMD lane width `W`
fixes the shape of the dense bucket slots (an empty `VecMap` entry reads
as `([0; SIMD_WIDTH], 0)` on first access). -/
def InteractionGroups.new (W : Nat) : InteractionGroups :=
  { buckets := List.replicate 128 (List.replicate W 0, 0),
    bodyMasks := [],
    grouped := [],
    nongrouped := [] }

/-- `InteractionGroups::clear()`. -/
def InteractionGroups.clear (W : Nat) (_g : InteractionGroups) : InteractionGroups :=
  InteractionGroups.new W

/-- `InteractionGroups::clear_groups()`: reset the output arrays only. -/
def InteractionGroups.clearGroups (g : InteractionGroups) : InteractionGroups :=
  { g with grouped := [], nongrouped := [] }

/-- The contents of all non-completed bucket lanes, in increasing bucket
order: `buckets.values().flat_map(|e| e.0.iter().take(e.1))`. -/
def bucketPending (buckets : List (List Nat × Nat)) : List Nat :=
  buckets.flatMap (fun b => b.1.take b.2)

/-- Target-bucket selection, shared verbatim by `group_joints` and
`group_manifolds` (lines 235–243 and 384–392 of the source): compute the
conflict-free targets, prefer a conflict-free occupied bucket, otherwise
take the lowest conflict-free bucket; 128 means "no bucket". -/
def selectTarget (conflicts occupied : Nat) : Nat :=
  let freeTargets := not128 (conflicts &&& occupied)
  let freeOccupied := freeTargets &&& occupied
  if freeOccupied ≠ 0 then ctz128 freeOccupied else ctz128 freeTargets

/-- Insertion of interaction `i` into the bucket at `target`, shared
verbatim by `group_joints` and `group_manifolds` (lines 253–281 and
402–419 of the source).  Returns the updated bucket array, occupied
mask and grouped output, plus whether the bucket was completed (the
branch on which the joint path additionally updates
`joint_type_conflicts`). -/
def placeCore (W i target : Nat) (buckets : List (List Nat × Nat)) (occupied : Nat)
    (newGrouped : List Nat) : List (List Nat × Nat) × Nat × List Nat × Bool :=
  let bit := 2 ^ target
  let bucket := buckets.getD target (List.replicate W 0, 0)
  if bucket.2 = W - 1 then
    (buckets.set target (bucket.1.set (W - 1) i, 0),
     occupied &&& not128 bit,
     newGrouped ++ bucket.1.set (W - 1) i,
     true)
  else
    (buckets.set target (bucket.1.set bucket.2 i, bucket.2 + 1),
     occupied ||| bit,
     newGrouped,
     false)

/-- The `body_masks` update after a placement (lines 285–291 and 423–429
of the source): static bodies do not transmit forces, so only dynamic
participants are marked. -/
def markMasks (bit i1 i2 : Nat) (isStatic1 isStatic2 : Bool) (masks : List Nat) :
    List Nat :=
  let bm1 := if !isStatic1 then masks.set i1 (masks.getD i1 0 ||| bit) else masks
  if !isStatic2 then bm1.set i2 (bm1.getD i2 0 ||| bit) else bm1

/-- Loop state of `InteractionGroups::group_joints`: the struct fields
plus the per-call locals `occupied_mask` and `joint_type_conflicts`, with
the output growth of this call kept as the suffixes `newGrouped` /
`newNongrouped` (the Rust code pushes directly onto the output vectors;
we append the accumulated suffixes at the end of the call). -/
structure JLoopState where
  buckets : List (List Nat × Nat)
  bodyMasks : List Nat
  occupied : Nat
  jtc : List Nat
  newGrouped : List Nat
  newNongrouped : List Nat
deriving DecidableEq

/-- One iteration of the `group_joints` loop (lines 213–292 of the
source).  `none` models the panics of out-of-range indexing into
`body_masks` or `joint_type_conflicts`. -/
def groupJointsStep (W : Nat) (bodies : Nat → RBody) (ints : Nat → JointData)
    (st : JLoopState) (i : Nat) : Option JLoopState :=
  let j := ints i
  let body1 := bodies j.body1
  let body2 := bodies j.body2
  let isStatic1 := !body1.isDynamic
  let isStatic2 := !body2.isDynamic
  if isStatic1 && isStatic2 then some st
  else if !j.supportsSimd then some { st with newNongrouped := st.newNongrouped ++ [i] }
  else
    let ijoint := j.typeId
    let i1 := body1.activeSetOffset
    let i2 := body2.activeSetOffset
    if i1 < st.bodyMasks.length then
      if i2 < st.bodyMasks.length then
        if ijoint < st.jtc.length then
          let conflicts := st.bodyMasks.getD i1 0 ||| st.bodyMasks.getD i2 0 |||
            st.jtc.getD ijoint 0
          let target := selectTarget conflicts st.occupied
          if target = 128 then some { st with newNongrouped := st.newNongrouped ++ [i] }
          else
            let bit := 2 ^ target
            let placed := placeCore W i target st.buckets st.occupied st.newGrouped
            let jtc' :=
              if placed.2.2.2 then st.jtc.map (fun m => m &&& not128 bit)
              else st.jtc.mapIdx (fun k m => if k = ijoint then m else m ||| bit)
            some { st with
                   buckets := placed.1,
                   occupied := placed.2.1,
                   newGrouped := placed.2.2.1,
                   jtc := jtc',
                   bodyMasks := markMasks bit i1 i2 isStatic1 isStatic2 st.bodyMasks }
        else none
      else none
    else none

/-- `InteractionGroups::group_joints` (SIMD build, lines 182–312).
`T` is `NUM_JOINT_TYPES` (10 in 3D, 5 in 2D), `numIslandBodies` stands
for `bodies.active_island(island_id).len()`.  After the loop the pending
bucket contents are flushed to `nongrouped_interactions`, the workspaces
are cleared, and the final `assert!` on the grouped length is checked
(`none` models its panic). -/
def InteractionGroups.groupJoints (W T : Nat) (bodies : Nat → RBody)
    (ints : Nat → JointData) (numIslandBodies : Nat) (g : InteractionGroups)
    (idxs : List Nat) : Option InteractionGroups :=
  let st0 : JLoopState :=
    { buckets := g.buckets,
      bodyMasks := resizeList g.bodyMasks numIslandBodies,
      occupied := 0,
      jtc := List.replicate T 0,
      newGrouped := [],
      newNongrouped := [] }
  match foldSteps (groupJointsStep W bodies ints) st0 idxs with
  | none => none
  | some st =>
    if (g.grouped.length + st.newGrouped.length) % W = 0 then
      some { buckets := List.replicate 128 (List.replicate W 0, 0),
             bodyMasks := st.bodyMasks.map (fun _ => 0),
             grouped := g.grouped ++ st.newGrouped,
             nongrouped := g.nongrouped ++ st.newNongrouped ++ bucketPending st.buckets }
    else none

/-- Loop state of `InteractionGroups::group_manifolds`: as for joints but
without the joint-type conflict table. -/
structure MLoopState where
  buckets : List (List Nat × Nat)
  bodyMasks : List Nat
  occupied : Nat
  newGrouped : List Nat
  newNongrouped : List Nat
deriving DecidableEq

/-- One iteration of the inner `group_manifolds` loop for stratum `k`
(lines 362–430 of the source): manifolds whose `num_active_contacts`
differs from `k` are skipped in this pass. -/
def groupManifoldsStep (W : Nat) (bodies : Nat → RBody) (ints : Nat → ManifoldData)
    (k : Nat) (st : MLoopState) (i : Nat) : Option MLoopState :=
  let m := ints i
  if m.numActiveContacts ≠ k then some st
  else
    let body1 := bodies m.body1
    let body2 := bodies m.body2
    let isStatic1 := !body1.isDynamic
    let isStatic2 := !body2.isDynamic
    if isStatic1 && isStatic2 then some st
    else
      let i1 := body1.activeSetOffset
      let i2 := body2.activeSetOffset
      if i1 < st.bodyMasks.length then
        if i2 < st.bodyMasks.length then
          let conflicts := st.bodyMasks.getD i1 0 ||| st.bodyMasks.getD i2 0
          let target := selectTarget conflicts st.occupied
          if target = 128 then some { st with newNongrouped := st.newNongrouped ++ [i] }
          else
            let bit := 2 ^ target
            let placed := placeCore W i target st.buckets st.occupied st.newGrouped
            some { st with
                   buckets := placed.1,
                   occupied := placed.2.1,
                   newGrouped := placed.2.2.1,
                   bodyMasks := markMasks bit i1 i2 isStatic1 isStatic2 st.bodyMasks }
        else none
      else none

/-- One full stratum pass of `group_manifolds` (one iteration of the
outer `k` loop, lines 361–440): run the inner loop over all indices,
then flush the pending bucket contents to `nongrouped_interactions` and
clear the bucket map, the body masks and the occupied mask. -/
def groupManifoldsPass (W : Nat) (bodies : Nat → RBody) (ints : Nat → ManifoldData)
    (idxs : List Nat) (st : MLoopState) (k : Nat) : Option MLoopState :=
  match foldSteps (groupManifoldsStep W bodies ints k) st idxs with
  | none => none
  | some st' =>
    some { buckets := List.replicate 128 (List.replicate W 0, 0),
           bodyMasks := st'.bodyMasks.map (fun _ => 0),
           occupied := 0,
           newGrouped := st'.newGrouped,
           newNongrouped := st'.newNongrouped ++ bucketPending st'.buckets }

/-- `InteractionGroups::group_manifolds` (SIMD build, lines 332–446).
The outer loop runs one stratum pass for each contact count
`k ∈ [1, max_interaction_points]`, where `max_interaction_points` is the
maximum observed `num_active_contacts` (or 1 for an empty index list). -/
def InteractionGroups.groupManifolds (W : Nat) (bodies : Nat → RBody)
    (ints : Nat → ManifoldData) (numIslandBodies : Nat) (g : InteractionGroups)
    (idxs : List Nat) : Option InteractionGroups :=
  let st0 : MLoopState :=
    { buckets := g.buckets,
      bodyMasks := resizeList g.bodyMasks numIslandBodies,
      occupied := 0,
      newGrouped := [],
      newNongrouped := [] }
  let maxK := ((idxs.map (fun i => (ints i).numActiveContacts)).max?).getD 1
  match foldSteps (groupManifoldsPass W bodies ints idxs) st0 (List.range' 1 maxK) with
  | none => none
  | some st =>
    if (g.grouped.length + st.newGrouped.length) % W = 0 then
      some { buckets := st.buckets,
             bodyMasks := st.bodyMasks,
             grouped := g.grouped ++ st.newGrouped,
             nongrouped := g.nongrouped ++ st.newNongrouped }
    else none

/-- The maintained shape of the packer's workspaces at the start of a
call: every bucket slot is empty with `SIMD_WIDTH`-long lanes, and all
body masks are zero.  This holds for a fresh (`new`/`clear`ed) instance
and is restored by every completed call. -/
def InteractionGroups.freshWorkspaces (W : Nat) (g : InteractionGroups) : Prop :=
  g.buckets = List.replicate 128 (List.replicate W 0, 0) ∧ ∀ x ∈ g.bodyMasks, x = 0

/-- The forbidden color mask the coloring loop computes for a pair in a
given workspace state: the union of the `bodies_color` masks of the
pair's dynamic participants (one or two of them; a static participant
contributes nothing). -/
def forbiddenMask (bodies : Nat → RBody) (st : CState) (p : BodyPair) : Nat :=
  ((dynOffsets bodies p).map (fun o => st.bcolors.getD o 0)).foldr (fun m acc => m ||| acc) 0

/-- The start offset of color `c` in the scattered output: the total
count of all smaller colors. -/
def colorStart (colors : List Nat) (c : Nat) : Nat :=
  ∑ t ∈ Finset.range c, colors.count t

/-- The loop invariant of the coloring pass, relating the workspace state
to the list of already-processed interaction indices (in order).  It
collects every fact the claims about `group_interactions` rest on:
assigned colors are in `[0, 128)`; each dynamic participant's mask has
its interaction's color bit set; every set mask bit comes from some
assigned color; `color_len` histograms the assigned colors; the set of
assigned colors is downward closed (density); and two interactions with
the same color have disjoint dynamic offsets. -/
structure ColorInv (bodies : Nat → RBody) (ints : Nat → BodyPair)
    (processed : List Nat) (st : CState) : Prop where
  len_colors : st.colors.length = processed.length
  colors_lt : ∀ p, p < processed.length → st.colors.getD p 0 < 128
  len_colorLen : st.colorLen.length = 128
  marked : ∀ p, p < processed.length →
    ∀ o ∈ dynOffsets bodies (ints (processed.getD p 0)),
      o < st.bcolors.length ∧ (st.bcolors.getD o 0).testBit (st.colors.getD p 0) = true
  mask_origin : ∀ o c, (st.bcolors.getD o 0).testBit c = true → c ∈ st.colors
  counts : ∀ c, c < 128 → st.colorLen.getD c 0 = st.colors.count c
  dense : ∀ c ∈ st.colors, ∀ c', c' < c → c' ∈ st.colors
  disjoint : ∀ p q, p < processed.length → q < processed.length → p ≠ q →
    st.colors.getD p 0 = st.colors.getD q 0 →
    ∀ o ∈ dynOffsets bodies (ints (processed.getD p 0)),
      o ∉ dynOffsets bodies (ints (processed.getD q 0))

/-- The (chronological) contents of the bucket at slot `c`: the first
`fill` lanes. -/
def entriesOf (W : Nat) (buckets : List (List Nat × Nat)) (c : Nat) : List Nat :=
  (buckets.getD c (List.replicate W 0, 0)).1.take (buckets.getD c (List.replicate W 0, 0)).2

/-- Pairwise disjointness of dynamic-body offsets across a list of
interaction indices. -/
def PairwiseDisjoint (bodies : Nat → RBody) (pair : Nat → BodyPair) (l : List Nat) : Prop :=
  List.Pairwise
    (fun e1 e2 => ∀ o ∈ dynOffsets bodies (pair e1), o ∉ dynOffsets bodies (pair e2)) l

/-- The workspace part of the SIMD packer's loop invariant, common to
`group_joints` and `group_manifolds`: well-formed buckets, the occupied
mask tracking non-empty buckets, and every bucket's entries being
pairwise disjoint and marked in `body_masks`. -/
structure PackInv (W : Nat) (bodies : Nat → RBody) (pair : Nat → BodyPair) (L : Nat)
    (buckets : List (List Nat × Nat)) (bodyMasks : List Nat) (occupied : Nat) : Prop where
  buckets_len : buckets.length = 128
  lanes_len : ∀ c, c < 128 → (buckets.getD c (List.replicate W 0, 0)).1.length = W
  fill_lt : ∀ c, c < 128 → (buckets.getD c (List.replicate W 0, 0)).2 < W
  occ_iff : ∀ c, c < 128 →
    (occupied.testBit c = true ↔ (buckets.getD c (List.replicate W 0, 0)).2 ≠ 0)
  occ_lt : occupied < 2 ^ 128
  masks_len : bodyMasks.length = L
  marked : ∀ c, c < 128 → ∀ e ∈ entriesOf W buckets c,
    ∀ o ∈ dynOffsets bodies (pair e), (bodyMasks.getD o 0).testBit c = true
  disj : ∀ c, c < 128 → PairwiseDisjoint bodies pair (entriesOf W buckets c)

/-- Block structure of the `grouped_interactions` stream produced by
`group_joints`: a flat concatenation of `W`-long blocks, each pairwise
disjoint, of a single joint subtype, and SIMD-capable. -/
def GoodBlocksJ (W : Nat) (bodies : Nat → RBody) (ints : Nat → JointData)
    (g : List Nat) : Prop :=
  ∃ bl : List (List Nat), g = bl.flatten ∧ ∀ blk ∈ bl, blk.length = W ∧
    PairwiseDisjoint bodies (fun i => (ints i).pair) blk ∧
    (∀ e1 ∈ blk, ∀ e2 ∈ blk, (ints e1).typeId = (ints e2).typeId) ∧
    (∀ e ∈ blk, (ints e).supportsSimd = true)

/-- Block structure of the `grouped_interactions` stream produced by
`group_manifolds`: a flat concatenation of `W`-long blocks, each pairwise
disjoint and of a single active-contact count. -/
def GoodBlocksM (W : Nat) (bodies : Nat → RBody) (ints : Nat → ManifoldData)
    (g : List Nat) : Prop :=
  ∃ bl : List (List Nat), g = bl.flatten ∧ ∀ blk ∈ bl, blk.length = W ∧
    PairwiseDisjoint bodies (fun i => (ints i).pair) blk ∧
    ∃ kb, ∀ e ∈ blk, (ints e).numActiveContacts = kb

/-- The full loop invariant of `group_joints`, relating the loop state to
the processed prefix of the index list. -/
structure JInv (W T : Nat) (bodies : Nat → RBody) (ints : Nat → JointData) (L : Nat)
    (processed : List Nat) (st : JLoopState) : Prop where
  pack : PackInv W bodies (fun i => (ints i).pair) L st.buckets st.bodyMasks st.occupied
  jtc_len : st.jtc.length = T
  type_uniform : ∀ c, c < 128 → ∀ e1 ∈ entriesOf W st.buckets c,
    ∀ e2 ∈ entriesOf W st.buckets c, (ints e1).typeId = (ints e2).typeId
  type_conflicts : ∀ c, c < 128 → ∀ e ∈ entriesOf W st.buckets c,
    ∀ t, t < T → t ≠ (ints e).typeId → (st.jtc.getD t 0).testBit c = true
  entries_simd : ∀ c, c < 128 → ∀ e ∈ entriesOf W st.buckets c,
    (ints e).supportsSimd = true
  blocks : GoodBlocksJ W bodies ints st.newGrouped
  ms : (↑st.newGrouped : Multiset Nat) + ↑st.newNongrouped + ↑(bucketPending st.buckets) =
    ↑(processed.filter (fun i => !(bothStatic bodies (ints i).pair)))
  ng_mem : ∀ i ∈ processed, bothStatic bodies (ints i).pair = false →
    (ints i).supportsSimd = false → i ∈ st.newNongrouped

/-- The full loop invariant of one stratum pass of `group_manifolds`:
`g0` is the loop state at the start of the pass, `k` the stratum. -/
structure MInv (W : Nat) (bodies : Nat → RBody) (ints : Nat → ManifoldData) (L k : Nat)
    (g0 : MLoopState) (processed : List Nat) (st : MLoopState) : Prop where
  pack : PackInv W bodies (fun i => (ints i).pair) L st.buckets st.bodyMasks st.occupied
  entries_count : ∀ c, c < 128 → ∀ e ∈ entriesOf W st.buckets c,
    (ints e).numActiveContacts = k
  grouped_grow : ∃ dG, st.newGrouped = g0.newGrouped ++ dG ∧
    GoodBlocksM W bodies ints dG
  ng_grow : ∃ dN, st.newNongrouped = g0.newNongrouped ++ dN ∧
    (↑(st.newGrouped.drop g0.newGrouped.length) : Multiset Nat) + ↑dN +
      ↑(bucketPending st.buckets) =
      ↑(processed.filter
        (fun i => !(bothStatic bodies (ints i).pair) && ((ints i).numActiveContacts == k)))

/-! ## Concrete instances (the specification's scenarios and small probes) -/

/-- A body store in which every body is dynamic, with handle = island
offset (the specification's scenarios S1–S5 use such stores). -/
def bodiesAllDyn : Nat → RBody := fun b => { isDynamic := true, activeSetOffset := b }

/-- A body store in which every body is static. -/
def bodiesAllStatic : Nat → RBody :=
  fun b => { isDynamic := false, activeSetOffset := b }

/-- A hub store: body 0 is static, every other handle is dynamic at
island offset 0 (so one island body accumulates unbounded degree). -/
def bodiesHub : Nat → RBody :=
  fun b => if b = 0 then { isDynamic := false, activeSetOffset := 0 }
           else { isDynamic := true, activeSetOffset := 0 }

/-- The S1 chain: interaction `i` links bodies `i` and `i + 1`. -/
def intsChain : Nat → BodyPair := fun i => { body1 := i, body2 := i + 1 }

/-- Every interaction pairs body 0 with body 1. -/
def intsSame : Nat → BodyPair := fun _ => { body1 := 0, body2 := 1 }

/-- The expected S1 output of the parallel grouper. -/
def outS1 : PGroups :=
  { sortedInteractions := [0, 2, 1, 3], groups := [0, 2, 4], colors := [0, 1, 0, 1] }

/-- The coloring state `bodiesHub`/`intsSame` reaches after 128
interactions: the single island body's mask is all-ones. -/
def cstC4 : CState :=
  { bcolors := [2 ^ 128 - 1], colorLen := List.replicate 128 1,
    colors := List.range 128 }

/-- A SIMD-incapable joint on the bodies 0 and 1. -/
def jointNoSimd : Nat → JointData :=
  fun _ => { body1 := 0, body2 := 1, supportsSimd := false, typeId := 0 }

/-- SIMD-capable joints of one subtype on pairwise-disjoint body pairs. -/
def jointsDisjoint : Nat → JointData :=
  fun i => { body1 := 2 * i, body2 := 2 * i + 1, supportsSimd := true, typeId := 0 }

/-- A contact manifold with zero active contacts on the bodies 0 and 1. -/
def manifoldZero : Nat → ManifoldData :=
  fun _ => { body1 := 0, body2 := 1, numActiveContacts := 0 }

/-- One-contact manifolds on pairwise-disjoint body pairs. -/
def manifoldsDisjoint : Nat → ManifoldData :=
  fun i => { body1 := 2 * i, body2 := 2 * i + 1, numActiveContacts := 1 }

/-- The packer output for one packable interaction at lane width 1 from a
fresh instance over two island bodies. -/
def outPacked1 : InteractionGroups :=
  { buckets := List.replicate 128 (List.replicate 1 0, 0),
    bodyMasks := [0, 0], grouped := [0], nongrouped := [] }

/-- A packer instance with fresh workspaces but output arrays left over
from earlier calls. -/
def c6g2 : InteractionGroups :=
  { buckets := List.replicate 128 (List.replicate 1 0, 0),
    bodyMasks := [], grouped := [5], nongrouped := [6] }

/-- The result of running the width-1 joint packing on `c6g2`: the old
output contents survive as prefixes. -/
def c6g2out : InteractionGroups :=
  { buckets := List.replicate 128 (List.replicate 1 0, 0),
    bodyMasks := [0, 0], grouped := [5, 0], nongrouped := [6] }

/-- The `group_joints` output for one SIMD-incapable joint at width 4
from a fresh instance. -/
def c7out : InteractionGroups :=
  { buckets := List.replicate 128 (List.replicate 4 0, 0),
    bodyMasks := [0, 0], grouped := [], nongrouped := [0] }

/-- The `group_manifolds` output for one zero-contact manifold at width 4
from a fresh instance: both output arrays stay empty. -/
def c9out : InteractionGroups :=
  { buckets := List.replicate 128 (List.replicate 4 0, 0),
    bodyMasks := [0, 0], grouped := [], nongrouped := [] }

/-! ## General lemmas -/

theorem ctzSearch_characterization (x : Nat) :
    ∀ fuel k, (ctzSearch x k fuel = 128 ∧ ∀ j, k ≤ j → j < k + fuel → x.testBit j = false) ∨
      (x.testBit (ctzSearch x k fuel) = true ∧ k ≤ ctzSearch x k fuel ∧
        ctzSearch x k fuel < k + fuel ∧
        ∀ j, k ≤ j → j < ctzSearch x k fuel → x.testBit j = false) := by
  intro fuel
  induction fuel with
  | zero =>
    intro k
    left
    refine ⟨rfl, fun j hkj hj => ?_⟩
    omega
  | succ n ih =>
    intro k
    by_cases hbit : x.testBit k
    · right
      have hstep : ctzSearch x k (n + 1) = k := by simp [ctzSearch, hbit]
      rw [hstep]
      refine ⟨hbit, Nat.le_refl k, by omega, fun j hkj hj => ?_⟩
      omega
    · have hstep : ctzSearch x k (n + 1) = ctzSearch x (k + 1) n := by
        simp [ctzSearch, hbit]
      rcases ih (k + 1) with ⟨heq, hnone⟩ | ⟨hfound, hle, hlt, hmin⟩
      · left
        refine ⟨hstep.trans heq, fun j hkj hj => ?_⟩
        rcases Nat.eq_or_lt_of_le hkj with rfl | hklt
        · simpa using hbit
        · exact hnone j hklt (by omega)
      · right
        rw [hstep]
        refine ⟨hfound, by omega, by omega, fun j hkj hj => ?_⟩
        rcases Nat.eq_or_lt_of_le hkj with rfl | hklt
        · simpa using hbit
        · exact hmin j hklt hj

theorem ctz128_le (x : Nat) : ctz128 x ≤ 128 := by
  rcases ctzSearch_characterization x 128 0 with ⟨heq, _⟩ | ⟨_, _, hlt, _⟩
  · exact Nat.le_of_eq heq
  · exact Nat.le_of_lt (by simpa using hlt)

theorem ctz128_testBit (x : Nat) (h : ctz128 x < 128) : x.testBit (ctz128 x) = true := by
  rcases ctzSearch_characterization x 128 0 with ⟨heq, _⟩ | ⟨hfound, _⟩
  · rw [ctz128] at h
    omega
  · exact hfound

theorem ctz128_minimal (x : Nat) (j : Nat) (hj : j < ctz128 x) : x.testBit j = false := by
  rcases ctzSearch_characterization x 128 0 with ⟨heq, hnone⟩ | ⟨_, _, _, hmin⟩
  · rw [ctz128] at hj
    exact hnone j (Nat.zero_le j) (by omega)
  · exact hmin j (Nat.zero_le j) hj

theorem ctz128_eq_128 (x : Nat) (h : ctz128 x = 128) :
    ∀ j, j < 128 → x.testBit j = false := by
  intro j hj
  exact ctz128_minimal x j (by omega)

theorem ctz128_lt_of_testBit (x : Nat) (j : Nat) (hj : j < 128) (hbit : x.testBit j = true) :
    ctz128 x < 128 := by
  rcases Nat.lt_or_ge (ctz128 x) 128 with h | h
  · exact h
  · have h128 : ctz128 x = 128 := Nat.le_antisymm (ctz128_le x) h
    have := ctz128_eq_128 x h128 j hj
    rw [hbit] at this
    cases this

theorem testBit_not128 (m k : Nat) (hk : k < 128) :
    (not128 m).testBit k = !m.testBit k := by
  rw [not128, Nat.testBit_xor, Nat.testBit_two_pow_sub_one]
  simp [hk]

theorem testBit_not128_of_ge (m k : Nat) (hk : 128 ≤ k) (hm : m < 2 ^ 128) :
    (not128 m).testBit k = false := by
  rw [not128, Nat.testBit_xor, Nat.testBit_two_pow_sub_one]
  have h1 : Nat.testBit m k = false := Nat.testBit_eq_false_of_lt (lt_of_lt_of_le hm (Nat.pow_le_pow_right (by omega) hk))
  simp [h1, Nat.not_lt.mpr hk]

theorem not128_lt (m : Nat) : not128 m < 2 ^ 128 ∨ ¬ m < 2 ^ 128 := by
  by_cases hm : m < 2 ^ 128
  · left
    have : ∀ k, 128 ≤ k → (not128 m).testBit k = false := fun k hk => testBit_not128_of_ge m k hk hm
    exact Nat.lt_pow_two_of_testBit _ (fun i hi => this i hi)
  · right
    exact hm

theorem lor_lt_128 {a b : Nat} (ha : a < 2 ^ 128) (hb : b < 2 ^ 128) : a ||| b < 2 ^ 128 :=
  Nat.or_lt_two_pow ha hb

theorem land_lt_128_left {a : Nat} (b : Nat) (ha : a < 2 ^ 128) : a &&& b < 2 ^ 128 :=
  Nat.lt_of_le_of_lt Nat.and_le_left ha

theorem two_pow_lt_128 {c : Nat} (hc : c < 128) : 2 ^ c < 2 ^ 128 :=
  Nat.pow_lt_pow_right (by omega) hc

theorem resizeList_length (l : List Nat) (n : Nat) : (resizeList l n).length = n := by
  simp only [resizeList, List.length_append, List.length_take, List.length_replicate]
  omega

theorem resizeList_of_all_zero (l : List Nat) (n : Nat) (h : ∀ x ∈ l, x = 0) :
    resizeList l n = List.replicate n 0 := by
  have htake : l.take n = List.replicate (l.take n).length 0 :=
    List.eq_replicate_of_mem (fun x hx => h x (List.mem_of_mem_take hx))
  rw [resizeList, htake, List.length_take, ← List.replicate_add]
  congr 1
  omega

theorem foldSteps_append {σ : Type} (f : σ → Nat → Option σ) (l₁ l₂ : List Nat) (st : σ) :
    foldSteps f st (l₁ ++ l₂) =
      match foldSteps f st l₁ with
      | none => none
      | some st' => foldSteps f st' l₂ := by
  induction l₁ generalizing st with
  | nil => simp [foldSteps]
  | cons i rest ih =>
    simp only [List.cons_append, foldSteps]
    cases f st i with
    | none => rfl
    | some st' => exact ih st'

theorem mem_dynOffsets (bodies : Nat → RBody) (p : BodyPair) (b : Nat)
    (hb : (bodies b).isDynamic = true) (hm : memPair b p) :
    (bodies b).activeSetOffset ∈ dynOffsets bodies p := by
  rcases hm with rfl | rfl
  · simp [dynOffsets, hb]
  · simp [dynOffsets, hb]

theorem dynOffsets_ne_nil (bodies : Nat → RBody) (p : BodyPair)
    (h : bothStatic bodies p = false) : dynOffsets bodies p ≠ [] := by
  unfold bothStatic at h
  unfold dynOffsets
  cases h1 : (bodies p.body1).isDynamic <;> cases h2 : (bodies p.body2).isDynamic <;>
    simp_all

theorem getD_set_self {α : Type} (l : List α) (i : Nat) (v d : α) (h : i < l.length) :
    (l.set i v).getD i d = v := by
  rw [List.getD_eq_getElem _ _ (by simpa using h)]
  exact List.getElem_set_self _

theorem getD_set_ne {α : Type} (l : List α) (i j : Nat) (v d : α) (h : i ≠ j) :
    (l.set i v).getD j d = l.getD j d := by
  by_cases hj : j < l.length
  · rw [List.getD_eq_getElem _ _ (by simpa using hj), List.getD_eq_getElem _ _ hj]
    exact List.getElem_set_ne h _
  · rw [List.getD_eq_default _ _ (by simpa using Nat.le_of_not_lt hj),
      List.getD_eq_default _ _ (Nat.le_of_not_lt hj)]

theorem getD_replicate_zero (n i : Nat) : (List.replicate n (0 : Nat)).getD i 0 = 0 := by
  by_cases h : i < n
  · rw [List.getD_eq_getElem _ _ (by simpa using h)]
    simp
  · rw [List.getD_eq_default _ _ (by simpa using Nat.le_of_not_lt h)]

theorem getD_set_general {α : Type} (l : List α) (i j : Nat) (v d : α) (hi : i < l.length) :
    (l.set i v).getD j d = if i = j then v else l.getD j d := by
  by_cases h : i = j
  · subst h
    rw [if_pos rfl]
    exact getD_set_self _ _ _ _ hi
  · rw [if_neg h]
    exact getD_set_ne _ _ _ _ _ h

/-- `getD` of a replicated list. -/
theorem getD_replicate {α : Type} (x d : α) (n i : Nat) :
    (List.replicate n x).getD i d = if i < n then x else d := by
  by_cases h : i < n
  · rw [List.getD_eq_getElem _ _ (by simpa using h), if_pos h]
    simp
  · rw [List.getD_eq_default _ _ (by simpa using Nat.le_of_not_lt h), if_neg h]

/-- A bounds-checked `List.set` decomposes as take/element/drop. -/
theorem set_decompose {α : Type} (l : List α) (i : Nat) (v : α) (h : i < l.length) :
    l.set i v = l.take i ++ v :: l.drop (i + 1) := by
  rw [List.set_eq_take_append_cons_drop]
  simp [h]

theorem list_decompose {α : Type} (l : List α) (i : Nat) (h : i < l.length) :
    l = l.take i ++ l[i] :: l.drop (i + 1) := by
  conv_lhs => rw [← List.take_append_drop i l]
  congr 1
  exact List.drop_eq_getElem_cons h

/-- A write exchanged for the value it overwrites is a permutation. -/
theorem set_append_perm (l : List Nat) (i v : Nat) (h : i < l.length) :
    List.Perm (l.set i v ++ [l[i]]) (l ++ [v]) := by
  rw [set_decompose l i v h]
  conv_rhs => rw [list_decompose l i h]
  rw [List.append_assoc, List.append_assoc]
  refine List.Perm.append_left _ ?_
  have p1 : List.Perm (v :: (l.drop (i + 1) ++ [l[i]])) (v :: l[i] :: l.drop (i + 1)) :=
    List.Perm.cons _ (List.perm_append_singleton _ _)
  have p2 : List.Perm (v :: l[i] :: l.drop (i + 1)) (l[i] :: v :: l.drop (i + 1)) :=
    List.Perm.swap _ _ _
  have p3 : List.Perm (l[i] :: v :: l.drop (i + 1)) (l[i] :: (l.drop (i + 1) ++ [v])) :=
    List.Perm.cons _ (List.perm_append_singleton _ _).symm
  exact (p1.trans p2).trans p3

/-- Multiset effect of an in-bounds write. -/
theorem coe_set_add (l : List Nat) (i v : Nat) (h : i < l.length) :
    (↑(l.set i v) : Multiset Nat) + {l[i]} = ↑l + {v} := by
  have h1 : ({l[i]} : Multiset Nat) = ↑[l[i]] := rfl
  have h2 : ({v} : Multiset Nat) = ↑[v] := rfl
  rw [h1, h2, Multiset.coe_add, Multiset.coe_add, Multiset.coe_eq_coe]
  exact set_append_perm l i v h

/-- Writing at position `i` does not change the first `i` elements. -/
theorem take_set_of_le {α : Type} (l : List α) (i j : Nat) (v : α) (h : j ≤ i) :
    (l.set i v).take j = l.take j := by
  apply List.ext_getElem
  · simp
  · intro n h1 h2
    simp only [List.length_take, List.length_set, Nat.lt_min] at h1
    rw [List.getElem_take, List.getElem_take, List.getElem_set_ne (by omega)]

/-- Taking one element past a freshly written position appends it. -/
theorem take_succ_set {α : Type} (l : List α) (f : Nat) (v : α) (h : f < l.length) :
    (l.set f v).take (f + 1) = l.take f ++ [v] := by
  rw [set_decompose l f v h]
  rw [List.take_append_eq_append_take]
  have h1 : (l.take f).length = f := by simp [Nat.le_of_lt h]
  rw [h1]
  simp

/-- `max?` bounds every member. -/
theorem le_of_max?_eq (l : List Nat) : ∀ m, l.max? = some m → ∀ x ∈ l, x ≤ m := by
  induction l with
  | nil => intro m h; simp at h
  | cons a l ih =>
    intro m h x hx
    rw [List.max?_cons] at h
    cases hmax : l.max? with
    | none =>
      rw [hmax] at h
      simp only [Option.elim_none, Option.some.injEq] at h
      have hl : l = [] := List.max?_eq_none_iff.mp hmax
      subst hl
      rcases List.mem_singleton.mp hx with rfl
      omega
    | some m' =>
      rw [hmax] at h
      simp only [Option.elim_some, Option.some.injEq] at h
      rcases List.mem_cons.mp hx with rfl | hx
      · subst h
        exact Nat.le_max_left _ _
      · have := ih m' hmax x hx
        subst h
        exact Nat.le_trans this (Nat.le_max_right _ _)

/-! ## Coloring pass: step characterization -/

/-- Everything one iteration of the coloring loop does, stated uniformly
over the three reachable match arms: some color `c < 128` is assigned,
it is the least color free on every dynamic participant, the histogram
and color list are extended, and exactly the dynamic participants' masks
gain bit `c`. -/
theorem colorStep_some (bodies : Nat → RBody) (ints : Nat → BodyPair) (st st' : CState)
    (idx : Nat) (hcl : st.colorLen.length = 128)
    (h : colorStep bodies ints st idx = some st') :
    ∃ c, c < 128 ∧
      bothStatic bodies (ints idx) = false ∧
      (∀ o ∈ dynOffsets bodies (ints idx), o < st.bcolors.length) ∧
      (∀ o ∈ dynOffsets bodies (ints idx), (st.bcolors.getD o 0).testBit c = false) ∧
      (∀ c', c' < c →
        ∃ o ∈ dynOffsets bodies (ints idx), (st.bcolors.getD o 0).testBit c' = true) ∧
      st'.colors = st.colors ++ [c] ∧
      st'.colorLen = st.colorLen.set c (st.colorLen.getD c 0 + 1) ∧
      st'.bcolors.length = st.bcolors.length ∧
      (∀ o, o ∈ dynOffsets bodies (ints idx) →
        st'.bcolors.getD o 0 = st.bcolors.getD o 0 ||| 2 ^ c) ∧
      (∀ o, o ∉ dynOffsets bodies (ints idx) →
        st'.bcolors.getD o 0 = st.bcolors.getD o 0) := by
  unfold colorStep at h
  cases h1 : (bodies (ints idx).body1).isDynamic <;>
    cases h2 : (bodies (ints idx).body2).isDynamic <;>
    simp only [h1, h2, Bool.not_true, Bool.not_false] at h
  · -- both static: unreachable!()
    cases h
  · -- body1 static, body2 dynamic
    split_ifs at h with hb2 hc
    rcases Option.some.inj h with rfl
    refine ⟨_, hcl ▸ hc, ?_, ?_, ?_, ?_, rfl, rfl, ?_, ?_, ?_⟩
    · simp [bothStatic, h2]
    · intro o ho
      simp [dynOffsets, h1, h2] at ho
      exact ho ▸ hb2
    · intro o ho
      simp [dynOffsets, h1, h2] at ho
      subst ho
      have hbit := ctz128_testBit _ (hcl ▸ hc)
      rw [testBit_not128 _ _ (hcl ▸ hc)] at hbit
      simpa using hbit
    · intro c' hc'
      have hbit := ctz128_minimal (not128 (st.bcolors.getD (bodies (ints idx).body2).activeSetOffset 0)) c' hc'
      rw [testBit_not128 _ _ (by omega : c' < 128)] at hbit
      refine ⟨(bodies (ints idx).body2).activeSetOffset, ?_, ?_⟩
      · simp [dynOffsets, h1, h2]
      · rw [Bool.not_eq_false'] at hbit
        exact hbit
    · simp
    · intro o ho
      simp [dynOffsets, h1, h2] at ho
      subst ho
      exact getD_set_self _ _ _ _ hb2
    · intro o ho
      simp [dynOffsets, h1, h2] at ho
      exact getD_set_ne _ _ _ _ _ (fun hh => ho hh.symm)
  · -- body1 dynamic, body2 static
    split_ifs at h with hb1 hc
    rcases Option.some.inj h with rfl
    refine ⟨_, hcl ▸ hc, ?_, ?_, ?_, ?_, rfl, rfl, ?_, ?_, ?_⟩
    · simp [bothStatic, h1]
    · intro o ho
      simp [dynOffsets, h1, h2] at ho
      exact ho ▸ hb1
    · intro o ho
      simp [dynOffsets, h1, h2] at ho
      subst ho
      have hbit := ctz128_testBit _ (hcl ▸ hc)
      rw [testBit_not128 _ _ (hcl ▸ hc)] at hbit
      simpa using hbit
    · intro c' hc'
      have hbit := ctz128_minimal (not128 (st.bcolors.getD (bodies (ints idx).body1).activeSetOffset 0)) c' hc'
      rw [testBit_not128 _ _ (by omega : c' < 128)] at hbit
      refine ⟨(bodies (ints idx).body1).activeSetOffset, ?_, ?_⟩
      · simp [dynOffsets, h1, h2]
      · rw [Bool.not_eq_false'] at hbit
        exact hbit
    · simp
    · intro o ho
      simp [dynOffsets, h1, h2] at ho
      subst ho
      exact getD_set_self _ _ _ _ hb1
    · intro o ho
      simp [dynOffsets, h1, h2] at ho
      exact getD_set_ne _ _ _ _ _ (fun hh => ho hh.symm)
  · -- both dynamic
    split_ifs at h with hb1 hb2 hc
    rcases Option.some.inj h with rfl
    have hdyn : dynOffsets bodies (ints idx) =
        [(bodies (ints idx).body1).activeSetOffset, (bodies (ints idx).body2).activeSetOffset] := by
      simp [dynOffsets, h1, h2]
    have hor : ((st.bcolors.getD (bodies (ints idx).body1).activeSetOffset 0 |||
        st.bcolors.getD (bodies (ints idx).body2).activeSetOffset 0)).testBit
          (ctz128 (not128 (st.bcolors.getD (bodies (ints idx).body1).activeSetOffset 0 |||
            st.bcolors.getD (bodies (ints idx).body2).activeSetOffset 0))) = false := by
      have hbit := ctz128_testBit _ (hcl ▸ hc)
      rw [testBit_not128 _ _ (hcl ▸ hc)] at hbit
      simpa using hbit
    refine ⟨_, hcl ▸ hc, ?_, ?_, ?_, ?_, rfl, rfl, ?_, ?_, ?_⟩
    · simp [bothStatic, h1]
    · intro o ho
      rw [hdyn] at ho
      rcases List.mem_pair.mp ho with rfl | rfl
      · exact hb1
      · exact hb2
    · intro o ho
      rw [hdyn] at ho
      rw [Nat.testBit_or] at hor
      rcases List.mem_pair.mp ho with rfl | rfl
      · exact Bool.or_eq_false_iff.mp hor |>.1
      · exact Bool.or_eq_false_iff.mp hor |>.2
    · intro c' hc'
      have hbit := ctz128_minimal (not128 (st.bcolors.getD (bodies (ints idx).body1).activeSetOffset 0 |||
        st.bcolors.getD (bodies (ints idx).body2).activeSetOffset 0)) c' hc'
      rw [testBit_not128 _ _ (by omega : c' < 128)] at hbit
      rw [Bool.not_eq_false'] at hbit
      rw [Nat.testBit_or] at hbit
      rcases Bool.or_eq_true_iff.mp hbit with hb | hb
      · exact ⟨_, by rw [hdyn]; exact List.mem_cons_self _ _, hb⟩
      · exact ⟨_, by rw [hdyn]; exact List.mem_cons_of_mem _ (List.mem_singleton.mpr rfl), hb⟩
    · simp
    · intro o ho
      rw [hdyn] at ho
      by_cases h12 : (bodies (ints idx).body1).activeSetOffset =
          (bodies (ints idx).body2).activeSetOffset
      · rcases List.mem_pair.mp ho with rfl | hh
        · show ((st.bcolors.set _ _).set _ _).getD _ 0 = _
          rw [← h12, getD_set_self _ _ _ _ (by simpa using hb1),
            getD_set_self _ _ _ _ hb1, Nat.or_assoc, Nat.or_self]
        · subst hh
          show ((st.bcolors.set _ _).set _ _).getD _ 0 = _
          rw [getD_set_self _ _ _ _ (by simpa using hb2), ← h12,
            getD_set_self _ _ _ _ hb1, h12, Nat.or_assoc, Nat.or_self]
      · rcases List.mem_pair.mp ho with rfl | hh
        · show ((st.bcolors.set _ _).set _ _).getD _ 0 = _
          rw [getD_set_ne _ _ _ _ _ (fun hh => h12 hh.symm),
            getD_set_self _ _ _ _ hb1]
        · subst hh
          show ((st.bcolors.set _ _).set _ _).getD _ 0 = _
          rw [getD_set_self _ _ _ _ (by simpa using hb2),
            getD_set_ne _ _ _ _ _ h12]
    · intro o ho
      rw [hdyn] at ho
      have hne1 : (bodies (ints idx).body1).activeSetOffset ≠ o := fun hh => ho (hh ▸ List.mem_cons_self _ _)
      have hne2 : (bodies (ints idx).body2).activeSetOffset ≠ o := fun hh =>
        ho (hh ▸ List.mem_cons_of_mem _ (List.mem_singleton.mpr rfl))
      rw [getD_set_ne _ _ _ _ _ hne2, getD_set_ne _ _ _ _ _ hne1]

/-- One coloring iteration preserves the loop invariant. -/
theorem ColorInv_step (bodies : Nat → RBody) (ints : Nat → BodyPair)
    (processed : List Nat) (st st' : CState) (idx : Nat)
    (hinv : ColorInv bodies ints processed st)
    (h : colorStep bodies ints st idx = some st') :
    ColorInv bodies ints (processed ++ [idx]) st' := by
  obtain ⟨c, hc, _hbs, hbounds, hfree, hmin, hcolors, hclen, hblen, hin, hout⟩ :=
    colorStep_some bodies ints st st' idx hinv.len_colorLen h
  have hlen := hinv.len_colors
  have hgetDc : ∀ p, p < processed.length → st'.colors.getD p 0 = st.colors.getD p 0 := by
    intro p hp
    rw [hcolors]
    exact List.getD_append _ _ _ _ (by omega)
  have hlast : st'.colors.getD processed.length 0 = c := by
    rw [hcolors, ← hlen, List.getD_append_right _ _ _ _ (Nat.le_refl _)]
    simp
  have hgetDp : ∀ p, p < processed.length →
      (processed ++ [idx]).getD p 0 = processed.getD p 0 := by
    intro p hp
    exact List.getD_append _ _ _ _ hp
  have hlastp : (processed ++ [idx]).getD processed.length 0 = idx := by
    rw [List.getD_append_right _ _ _ _ (Nat.le_refl _)]
    simp
  have hmask_mono : ∀ o c'', (st.bcolors.getD o 0).testBit c'' = true →
      (st'.bcolors.getD o 0).testBit c'' = true := by
    intro o c'' hb
    by_cases ho : o ∈ dynOffsets bodies (ints idx)
    · rw [hin o ho, Nat.testBit_or, hb]
      rfl
    · rw [hout o ho]
      exact hb
  constructor
  · rw [hcolors]
    simp [hlen]
  · intro p hp
    simp only [List.length_append, List.length_singleton] at hp
    rcases Nat.lt_or_ge p processed.length with hlt | hge
    · rw [hgetDc p hlt]
      exact hinv.colors_lt p hlt
    · have hpe : p = processed.length := by omega
      rw [hpe, hlast]
      exact hc
  · rw [hclen]
    simp [hinv.len_colorLen]
  · intro p hp o ho
    simp only [List.length_append, List.length_singleton] at hp
    rcases Nat.lt_or_ge p processed.length with hlt | hge
    · rw [hgetDp p hlt] at ho
      obtain ⟨hb, hbit⟩ := hinv.marked p hlt o ho
      refine ⟨by omega, ?_⟩
      rw [hgetDc p hlt]
      exact hmask_mono o _ hbit
    · have hpe : p = processed.length := by omega
      subst hpe
      rw [hlastp] at ho
      refine ⟨by rw [hblen]; exact hbounds o ho, ?_⟩
      rw [hlast, hin o ho, Nat.testBit_or]
      simp [Nat.testBit_two_pow]
  · intro o c'' hbit
    rw [hcolors]
    by_cases ho : o ∈ dynOffsets bodies (ints idx)
    · rw [hin o ho, Nat.testBit_or] at hbit
      rcases Bool.or_eq_true_iff.mp hbit with hb | hb
      · exact List.mem_append_left _ (hinv.mask_origin o c'' hb)
      · rw [Nat.testBit_two_pow] at hb
        have : c = c'' := by simpa using hb
        subst this
        exact List.mem_append_right _ (List.mem_singleton.mpr rfl)
    · rw [hout o ho] at hbit
      exact List.mem_append_left _ (hinv.mask_origin o c'' hbit)
  · intro c'' hc''
    rw [hclen, hcolors, getD_set_general _ _ _ _ _ (by rw [hinv.len_colorLen]; exact hc),
      List.count_append]
    by_cases hcc : c = c''
    · subst hcc
      rw [if_pos rfl, hinv.counts c hc'']
      simp
    · rw [if_neg hcc, hinv.counts c'' hc'']
      have : List.count c'' [c] = 0 := by
        simp [List.count_singleton]
        exact fun hh => hcc hh
      omega
  · intro c'' hc'' c' hc'
    rw [hcolors] at hc'' ⊢
    rcases List.mem_append.mp hc'' with hml | hmr
    · exact List.mem_append_left _ (hinv.dense c'' hml c' hc')
    · have hce : c'' = c := List.mem_singleton.mp hmr
      subst hce
      obtain ⟨o, hod, hob⟩ := hmin c' hc'
      exact List.mem_append_left _ (hinv.mask_origin o c' hob)
  · intro p q hp hq hpq hcol o hop
    simp only [List.length_append, List.length_singleton] at hp hq
    rcases Nat.lt_or_ge p processed.length with hplt | hpge <;>
      rcases Nat.lt_or_ge q processed.length with hqlt | hqge
    · -- both old
      rw [hgetDc p hplt, hgetDc q hqlt] at hcol
      rw [hgetDp p hplt] at hop
      rw [hgetDp q hqlt]
      exact hinv.disjoint p q hplt hqlt hpq hcol o hop
    · -- p old, q is the new interaction
      have hqe : q = processed.length := by omega
      subst hqe
      rw [hgetDc p hplt, hlast] at hcol
      rw [hgetDp p hplt] at hop
      rw [hlastp]
      intro hoq
      have hbit := (hinv.marked p hplt o hop).2
      rw [hcol] at hbit
      have := hfree o hoq
      rw [this] at hbit
      cases hbit
    · -- p new, q old
      have hpe : p = processed.length := by omega
      subst hpe
      rw [hlast, hgetDc q hqlt] at hcol
      rw [hlastp] at hop
      rw [hgetDp q hqlt]
      intro hoq
      have hbit := (hinv.marked q hqlt o hoq).2
      rw [← hcol] at hbit
      have := hfree o hop
      rw [this] at hbit
      cases hbit
    · omega

/-- The coloring pass preserves the invariant across any index list. -/
theorem colorPass_inv (bodies : Nat → RBody) (ints : Nat → BodyPair) :
    ∀ (idxs processed : List Nat) (st st' : CState),
    ColorInv bodies ints processed st →
    colorPass bodies ints st idxs = some st' →
    ColorInv bodies ints (processed ++ idxs) st' := by
  intro idxs
  induction idxs with
  | nil =>
    intro processed st st' hinv h
    simp only [colorPass, foldSteps] at h
    rcases Option.some.inj h with rfl
    simpa using hinv
  | cons i rest ih =>
    intro processed st st' hinv h
    rw [colorPass] at h
    unfold foldSteps at h
    cases hstep : colorStep bodies ints st i with
    | none =>
      rw [hstep] at h
      cases h
    | some stm =>
      rw [hstep] at h
      have hmid := ColorInv_step bodies ints processed st stm i hinv hstep
      have := ih (processed ++ [i]) stm st' hmid h
      simpa using this

/-- The invariant holds for the freshly cleared workspaces. -/
theorem ColorInv_init (bodies : Nat → RBody) (ints : Nat → BodyPair) (nib : Nat) :
    ColorInv bodies ints []
      ⟨List.replicate nib 0, List.replicate 128 0, []⟩ := by
  constructor
  · rfl
  · intro p hp
    simp at hp
  · simp
  · intro p hp
    simp at hp
  · intro o c hbit
    rw [show (CState.mk (List.replicate nib 0) (List.replicate 128 0) []).bcolors =
      List.replicate nib 0 from rfl, getD_replicate_zero] at hbit
    rw [Nat.zero_testBit] at hbit
    cases hbit
  · intro c hc
    rw [show (CState.mk (List.replicate nib 0) (List.replicate 128 0) []).colorLen =
      List.replicate 128 0 from rfl, getD_replicate_zero]
    rfl
  · intro c hc
    simp at hc
  · intro p q hp hq
    simp at hp

/-- Unfolding of a successful `group_interactions` call into its two
passes. -/
theorem groupInteractions_spec (bodies : Nat → RBody) (ints : Nat → BodyPair)
    (nib : Nat) (prev : PGroups) (idxs : List Nat) (out : PGroups)
    (h : groupInteractions bodies ints nib prev idxs = some out) :
    ∃ st sorted offs,
      colorPass bodies ints ⟨List.replicate nib 0, List.replicate 128 0, []⟩ idxs =
        some st ∧
      scatterLoop (idxs.zip st.colors) (List.replicate idxs.length 0)
        (scanLoop st.colorLen 128 0 [] (List.replicate 128 0) 0).2.1 =
        some (sorted, offs) ∧
      out = ⟨sorted, (scanLoop st.colorLen 128 0 [] (List.replicate 128 0) 0).1 ++
        [sorted.length], st.colors⟩ := by
  simp only [groupInteractions] at h
  cases hpass : colorPass bodies ints
      ⟨List.replicate nib 0, List.replicate 128 0, []⟩ idxs with
  | none =>
    rw [hpass] at h
    exact Option.noConfusion h
  | some st =>
    rw [hpass] at h
    replace h : (match scatterLoop (idxs.zip st.colors) (List.replicate idxs.length 0)
        (scanLoop st.colorLen 128 0 [] (List.replicate 128 0) 0).2.1 with
      | none => none
      | some (sorted, _) => some (PGroups.mk sorted
          ((scanLoop st.colorLen 128 0 [] (List.replicate 128 0) 0).1 ++ [sorted.length])
          st.colors)) = some out := h
    cases hscat : scatterLoop (idxs.zip st.colors) (List.replicate idxs.length 0)
        (scanLoop st.colorLen 128 0 [] (List.replicate 128 0) 0).2.1 with
    | none =>
      rw [hscat] at h
      exact Option.noConfusion h
    | some pr =>
      rcases pr with ⟨sorted, offs⟩
      rw [hscat] at h
      rcases Option.some.inj h with rfl
      exact ⟨st, sorted, offs, rfl, hscat, rfl⟩

/-- A static–static pair makes the coloring iteration hit the
`unreachable!()` arm. -/
theorem colorStep_bothStatic (bodies : Nat → RBody) (ints : Nat → BodyPair)
    (st : CState) (idx : Nat) (hss : bothStatic bodies (ints idx) = true) :
    colorStep bodies ints st idx = none := by
  unfold bothStatic at hss
  rw [Bool.and_eq_true] at hss
  obtain ⟨h1, h2⟩ := hss
  rw [Bool.not_eq_true'] at h1 h2
  simp only [colorStep, h1, h2, Bool.not_true, Bool.not_false]

/-- The coloring pass aborts whenever the index list contains a
static–static pair. -/
theorem colorPass_none_of_bothStatic (bodies : Nat → RBody) (ints : Nat → BodyPair) :
    ∀ (idxs : List Nat) (st : CState),
      (∃ i ∈ idxs, bothStatic bodies (ints i) = true) →
      colorPass bodies ints st idxs = none := by
  intro idxs
  induction idxs with
  | nil =>
    intro st h
    simp at h
  | cons i rest ih =>
    intro st h
    rw [colorPass]
    unfold foldSteps
    by_cases hi : bothStatic bodies (ints i) = true
    · rw [colorStep_bothStatic bodies ints st i hi]
    · cases hstep : colorStep bodies ints st i with
      | none => rfl
      | some stm =>
        obtain ⟨j, hj, hjs⟩ := h
        rcases List.mem_cons.mp hj with rfl | hjr
        · exact absurd hjs hi
        · exact ih stm ⟨j, hjr, hjs⟩

/-- C10: whenever the parallel grouper's `group_interactions` encounters
an interaction whose two bodies are both static, it panics via
`unreachable!()` (modelled as `none`) — in release builds as well as
debug builds, since `unreachable!()` always panics — rather than dropping
the interaction or returning partial outputs. -/
theorem claim_C10 (bodies : Nat → RBody) (ints : Nat → BodyPair) (nib : Nat)
    (prev : PGroups) (idxs : List Nat)
    (hss : ∃ i ∈ idxs, bothStatic bodies (ints i) = true) :
    groupInteractions bodies ints nib prev idxs = none := by
  have hpass := colorPass_none_of_bothStatic bodies ints idxs
    ⟨List.replicate nib 0, List.replicate 128 0, []⟩ hss
  simp only [groupInteractions]
  rw [hpass]

/-- C1: for every call of the parallel grouper's `group_interactions` on
an input containing no static–static pair, any two interactions (input
positions) that are assigned the same color have disjoint sets of dynamic
bodies. -/
theorem claim_C1 (bodies : Nat → RBody) (ints : Nat → BodyPair) (nib : Nat)
    (prev : PGroups) (idxs : List Nat) (out : PGroups)
    (_hns : ∀ i ∈ idxs, bothStatic bodies (ints i) = false)
    (h : groupInteractions bodies ints nib prev idxs = some out) :
    ∀ p q, p < idxs.length → q < idxs.length → p ≠ q →
      out.colors.getD p 0 = out.colors.getD q 0 →
      ∀ b, (bodies b).isDynamic = true →
        memPair b (ints (idxs.getD p 0)) → ¬ memPair b (ints (idxs.getD q 0)) := by
  obtain ⟨st, sorted, offs, hpass, _hscat, hout⟩ :=
    groupInteractions_spec bodies ints nib prev idxs out h
  have hinv : ColorInv bodies ints idxs st := by
    have := colorPass_inv bodies ints idxs [] _ st (ColorInv_init bodies ints nib) hpass
    simpa using this
  intro p q hp hq hpq hcol b hb hbp hbq
  have hcol' : st.colors.getD p 0 = st.colors.getD q 0 := by
    have : out.colors = st.colors := by rw [hout]
    rw [← this]
    exact hcol
  have hop := mem_dynOffsets bodies (ints (idxs.getD p 0)) b hb hbp
  have hoq := mem_dynOffsets bodies (ints (idxs.getD q 0)) b hb hbq
  exact hinv.disjoint p q hp hq hpq hcol' _ hop hoq

/-- The forbidden color mask of an interaction in a given workspace
state: the union of the color masks of its dynamic participants. -/
theorem forbiddenMask_spec (bodies : Nat → RBody) (st : CState) (p : BodyPair) (j : Nat) :
    (forbiddenMask bodies st p).testBit j =
      ((dynOffsets bodies p).map (fun o => st.bcolors.getD o 0)).foldr
        (fun m acc => m.testBit j || acc) false := by
  rw [forbiddenMask]
  induction (dynOffsets bodies p).map (fun o => st.bcolors.getD o 0) with
  | nil => simp
  | cons m rest ih =>
    simp only [List.foldr_cons, Nat.testBit_or, ih]

/-- If every bit below 128 of the forbidden mask is set, the coloring
iteration tries color 128 and panics on the `color_len[...]` access
(or earlier, on an out-of-range body offset). -/
theorem colorStep_none_of_allOnes (bodies : Nat → RBody) (ints : Nat → BodyPair)
    (st : CState) (idx : Nat) (hcl : st.colorLen.length = 128)
    (hall : ∀ j, j < 128 → (forbiddenMask bodies st (ints idx)).testBit j = true) :
    colorStep bodies ints st idx = none := by
  have hctz : ∀ M : Nat, (∀ j, j < 128 → M.testBit j = true) → ctz128 (not128 M) = 128 := by
    intro M hM
    rcases Nat.lt_or_ge (ctz128 (not128 M)) 128 with hlt | hge
    · have hbit := ctz128_testBit _ hlt
      rw [testBit_not128 _ _ hlt, hM _ hlt] at hbit
      cases hbit
    · exact Nat.le_antisymm (ctz128_le _) hge
  cases h1 : (bodies (ints idx).body1).isDynamic <;>
    cases h2 : (bodies (ints idx).body2).isDynamic <;>
    simp only [colorStep, h1, h2, Bool.not_true, Bool.not_false]
  · -- body1 static, body2 dynamic
    have hM : ∀ j, j < 128 →
        (st.bcolors.getD (bodies (ints idx).body2).activeSetOffset 0).testBit j = true := by
      intro j hj
      have := hall j hj
      rw [forbiddenMask_spec] at this
      simp [dynOffsets, h1, h2] at this
      exact (List.getD_eq_getElem?_getD _ _ _) ▸ this
    split_ifs with hb2 hc
    · rw [hctz _ hM, hcl] at hc
      omega
    · rfl
    · rfl
  · -- body1 dynamic, body2 static
    have hM : ∀ j, j < 128 →
        (st.bcolors.getD (bodies (ints idx).body1).activeSetOffset 0).testBit j = true := by
      intro j hj
      have := hall j hj
      rw [forbiddenMask_spec] at this
      simp [dynOffsets, h1, h2] at this
      exact (List.getD_eq_getElem?_getD _ _ _) ▸ this
    split_ifs with hb1 hc
    · rw [hctz _ hM, hcl] at hc
      omega
    · rfl
    · rfl
  · -- both dynamic
    have hM : ∀ j, j < 128 →
        (st.bcolors.getD (bodies (ints idx).body1).activeSetOffset 0 |||
          st.bcolors.getD (bodies (ints idx).body2).activeSetOffset 0).testBit j = true := by
      intro j hj
      have := hall j hj
      rw [forbiddenMask_spec] at this
      simp [dynOffsets, h1, h2] at this
      rw [Nat.testBit_or]
      rcases this with hx | hx <;> simp [hx]
    split_ifs with hb1 hb2 hc
    · rw [hctz _ hM, hcl] at hc
      omega
    · rfl
    · rfl
    · rfl

/-- C4 (amended): when the coloring pass reaches an interaction whose
forbidden color mask has all 128 bits set, the assigned color would be
128 (bit 128 does not exist) and the call does not complete: the
`color_len[color]` access is out of bounds and the call panics (`none`),
instead of silently wrapping. -/
theorem claim_C4 (bodies : Nat → RBody) (ints : Nat → BodyPair) (nib : Nat)
    (prev : PGroups) (pre post : List Nat) (i : Nat) (st : CState)
    (hpass : colorPass bodies ints
      ⟨List.replicate nib 0, List.replicate 128 0, []⟩ pre = some st)
    (hall : ∀ j, j < 128 → (forbiddenMask bodies st (ints i)).testBit j = true) :
    groupInteractions bodies ints nib prev (pre ++ i :: post) = none := by
  have hinv : ColorInv bodies ints pre st := by
    have := colorPass_inv bodies ints pre [] _ st (ColorInv_init bodies ints nib) hpass
    simpa using this
  have hstep := colorStep_none_of_allOnes bodies ints st i hinv.len_colorLen hall
  have hnone : colorPass bodies ints
      ⟨List.replicate nib 0, List.replicate 128 0, []⟩ (pre ++ i :: post) = none := by
    rw [colorPass, foldSteps_append]
    rw [colorPass] at hpass
    rw [hpass]
    unfold foldSteps
    rw [hstep]
  simp only [groupInteractions]
  rw [hnone]

/-- Full characterization of the offset scan: it walks a maximal run of
`m` consecutive non-empty colors starting at `i`, pushes one group start
per color, fills `sort_offsets` with the partial sums of `color_len`,
and accumulates the total length. -/
theorem scanLoop_spec (colorLen : List Nat) :
    ∀ (fuel i : Nat) (groups offs : List Nat) (last : Nat),
      i + fuel ≤ offs.length →
      ∃ m, m ≤ fuel ∧
        (∀ j, i ≤ j → j < i + m → colorLen.getD j 0 ≠ 0) ∧
        (m < fuel → colorLen.getD (i + m) 0 = 0) ∧
        (scanLoop colorLen fuel i groups offs last).1.length = groups.length + m ∧
        (scanLoop colorLen fuel i groups offs last).2.1.length = offs.length ∧
        (∀ c, (scanLoop colorLen fuel i groups offs last).2.1.getD c 0 =
          if i ≤ c ∧ c < i + m then last + ∑ t ∈ Finset.Ico i c, colorLen.getD t 0
          else offs.getD c 0) ∧
        (scanLoop colorLen fuel i groups offs last).2.2 =
          last + ∑ t ∈ Finset.Ico i (i + m), colorLen.getD t 0 := by
  intro fuel
  induction fuel with
  | zero =>
    intro i groups offs last hoff
    refine ⟨0, Nat.le_refl 0, ?_, ?_, ?_, ?_, ?_, ?_⟩
    · intro j h1 h2
      omega
    · intro hm
      omega
    · rfl
    · rfl
    · intro c
      rw [if_neg (by omega)]
      rfl
    · simp [scanLoop]
  | succ fuel ih =>
    intro i groups offs last hoff
    by_cases hz : colorLen.getD i 0 = 0
    · have hstep0 : scanLoop colorLen (fuel + 1) i groups offs last = (groups, offs, last) := by
        simp only [scanLoop]
        rw [if_pos hz]
      refine ⟨0, Nat.zero_le _, ?_, ?_, ?_, ?_, ?_, ?_⟩
      · intro j h1 h2
        omega
      · intro _
        simpa using hz
      · rw [hstep0]
        simp
      · rw [hstep0]
      · intro c
        rw [if_neg (by omega), hstep0]
      · rw [hstep0]
        simp
    · have hstep : scanLoop colorLen (fuel + 1) i groups offs last =
          scanLoop colorLen fuel (i + 1) (groups ++ [last]) (offs.set i last)
            (last + colorLen.getD i 0) := by
        simp only [scanLoop]
        rw [if_neg hz]
      obtain ⟨m, hm, hnz, hzero, hglen, holen, hoffs, hlast⟩ :=
        ih (i + 1) (groups ++ [last]) (offs.set i last) (last + colorLen.getD i 0)
          (by rw [List.length_set]; omega)
      have hsum : ∀ c, i < c →
          last + colorLen.getD i 0 + ∑ t ∈ Finset.Ico (i + 1) c, colorLen.getD t 0 =
            last + ∑ t ∈ Finset.Ico i c, colorLen.getD t 0 := by
        intro c hc
        rw [Finset.sum_eq_sum_Ico_succ_bot hc]
        omega
      refine ⟨m + 1, by omega, ?_, ?_, ?_, ?_, ?_, ?_⟩
      · intro j h1 h2
        rcases Nat.eq_or_lt_of_le h1 with rfl | hgt
        · exact hz
        · exact hnz j hgt (by omega)
      · intro hlt
        have := hzero (by omega)
        rw [show i + 1 + m = i + (m + 1) by omega] at this
        exact this
      · rw [hstep, hglen]
        simp
        omega
      · rw [hstep, holen, List.length_set]
      · intro c
        rw [hstep, hoffs c]
        by_cases hc1 : i + 1 ≤ c ∧ c < i + 1 + m
        · rw [if_pos hc1, if_pos (by omega)]
          exact hsum c (by omega)
        · rw [if_neg hc1]
          by_cases hc2 : i ≤ c ∧ c < i + (m + 1)
          · have hce : c = i := by omega
            subst hce
            rw [if_pos hc2, getD_set_self _ _ _ _ (by omega)]
            simp
          · rw [if_neg hc2, getD_set_ne _ _ _ _ _ (by omega)]
      · rw [hstep, hlast, show i + 1 + m = i + (m + 1) by omega]
        exact hsum (i + (m + 1)) (by omega)

/-- C5: after the coloring pass the used colors form the dense prefix
`[0, num_colors)`: the set of assigned colors is downward closed, a color
is assigned exactly when it lies below the number of emitted groups
(`out.groups` has one extra sentinel entry), and in particular every
interaction's assigned color has an emitted group. -/
theorem claim_C5 (bodies : Nat → RBody) (ints : Nat → BodyPair) (nib : Nat)
    (prev : PGroups) (idxs : List Nat) (out : PGroups)
    (h : groupInteractions bodies ints nib prev idxs = some out) :
    (∀ c ∈ out.colors, ∀ c', c' < c → c' ∈ out.colors) ∧
    (∀ c, c < 128 → (c + 1 < out.groups.length ↔ c ∈ out.colors)) ∧
    (∀ p, p < idxs.length → out.colors.getD p 0 + 1 < out.groups.length) := by
  obtain ⟨st, sorted, offs, hpass, _hscat, hout⟩ :=
    groupInteractions_spec bodies ints nib prev idxs out h
  have hinv : ColorInv bodies ints idxs st := by
    have := colorPass_inv bodies ints idxs [] _ st (ColorInv_init bodies ints nib) hpass
    simpa using this
  obtain ⟨m, hm, hnz, hzero, hglen, _holen, _hoffs, _hlast⟩ :=
    scanLoop_spec st.colorLen 128 0 [] (List.replicate 128 0) 0 (by simp)
  have hcolors : out.colors = st.colors := by rw [hout]
  have hmemlt : ∀ c ∈ st.colors, c < 128 := by
    intro c hc
    obtain ⟨p, hp, hpe⟩ := List.mem_iff_getElem.mp hc
    have hplt : p < idxs.length := by
      rw [← hinv.len_colors]
      exact hp
    have := hinv.colors_lt p hplt
    rw [List.getD_eq_getElem _ _ hp, hpe] at this
    exact this
  have hused_iff : ∀ c, c < 128 → (c < m ↔ c ∈ st.colors) := by
    intro c hc
    constructor
    · intro hcm
      have hnzc := hnz c (Nat.zero_le c) (by omega)
      rw [hinv.counts c hc] at hnzc
      exact List.count_pos_iff.mp (Nat.pos_of_ne_zero hnzc)
    · intro hmem
      by_contra hge
      have hmlt : m < 128 := by omega
      have hz := hzero (by omega)
      simp only [Nat.zero_add] at hz
      rw [hinv.counts m hmlt] at hz
      have hmnot : m ∉ st.colors := by
        intro hmm
        have := List.count_pos_iff.mpr hmm
        omega
      rcases Nat.eq_or_lt_of_le (Nat.le_of_not_lt hge) with hce | hlt
      · exact hmnot (hce ▸ hmem)
      · exact hmnot (hinv.dense c hmem m hlt)
  have hglen' : out.groups.length = m + 1 := by
    rw [hout]
    simp only [List.length_append, List.length_singleton]
    rw [hglen]
    simp
  refine ⟨?_, ?_, ?_⟩
  · intro c hc c' hc'
    rw [hcolors] at hc ⊢
    exact hinv.dense c hc c' hc'
  · intro c hc
    rw [hglen', hcolors]
    constructor
    · intro hlt
      exact (hused_iff c hc).mp (by omega)
    · intro hmem
      have := (hused_iff c hc).mpr hmem
      omega
  · intro p hp
    rw [hglen', hcolors]
    have hmem : st.colors.getD p 0 ∈ st.colors := by
      have hp' : p < st.colors.length := by rw [hinv.len_colors]; exact hp
      rw [List.getD_eq_getElem _ _ hp']
      exact List.getElem_mem _
    have hc128 := hmemlt _ hmem
    have := (hused_iff _ hc128).mpr hmem
    omega

theorem colorStart_mono (colors : List Nat) {c c' : Nat} (h : c ≤ c') :
    colorStart colors c ≤ colorStart colors c' := by
  unfold colorStart
  exact Finset.sum_le_sum_of_subset (Finset.range_subset.mpr h)

theorem colorStart_succ (colors : List Nat) (c : Nat) :
    colorStart colors (c + 1) = colorStart colors c + colors.count c := by
  unfold colorStart
  exact Finset.sum_range_succ _ _

/-- The counts of all values below a bound sum to the list length. -/
theorem sum_count_eq_length (l : List Nat) (n : Nat) (h : ∀ c ∈ l, c < n) :
    ∑ t ∈ Finset.range n, l.count t = l.length := by
  induction l with
  | nil => simp
  | cons a l ih =>
    have ha : a < n := h a (List.mem_cons_self _ _)
    have hsum := ih (fun c hc => h c (List.mem_cons_of_mem _ hc))
    have hcnt : ∀ t, List.count t (a :: l) = l.count t + if a = t then 1 else 0 := by
      intro t
      rw [List.count_cons]
      congr 1
      simp [beq_iff_eq]
    calc ∑ t ∈ Finset.range n, List.count t (a :: l)
        = ∑ t ∈ Finset.range n, (l.count t + if a = t then 1 else 0) := by
          refine Finset.sum_congr rfl ?_
          intro t _
          exact hcnt t
      _ = (∑ t ∈ Finset.range n, l.count t) + ∑ t ∈ Finset.range n, (if a = t then 1 else 0) :=
          Finset.sum_add_distrib
      _ = l.length + 1 := by
          rw [hsum]
          congr 1
          rw [Finset.sum_ite_eq (Finset.range n) a (fun _ => 1)]
          simp [ha]
      _ = (a :: l).length := by simp

theorem colorStart_le_length (colors : List Nat) (hmem : ∀ c ∈ colors, c < 128)
    {c : Nat} (hc : c ≤ 128) : colorStart colors c ≤ colors.length := by
  calc colorStart colors c ≤ colorStart colors 128 := colorStart_mono colors hc
    _ = colors.length := sum_count_eq_length colors 128 hmem

/-- Core correctness of the scatter pass: starting from cursors at the
color start offsets (advanced past the already-scattered prefix) and a
zero-filled output away from the already-written regions, the scatter
completes and fills the output with exactly the input indices (as a
multiset). -/
theorem scatterLoop_perm_aux (idxs colors : List Nat)
    (hlen : colors.length = idxs.length) (hmem : ∀ c ∈ colors, c < 128) :
    ∀ (rest done : List (Nat × Nat)) (sorted offs : List Nat),
      done ++ rest = idxs.zip colors →
      sorted.length = idxs.length →
      offs.length = 128 →
      (∀ c ∈ colors, offs.getD c 0 =
        colorStart colors c + (done.map Prod.snd).count c) →
      (↑sorted : Multiset Nat) =
        (↑(done.map Prod.fst) : Multiset Nat) +
          Multiset.replicate (idxs.length - done.length) 0 →
      (∀ pos, pos < idxs.length →
        (∀ c ∈ colors, ¬(colorStart colors c ≤ pos ∧
          pos < colorStart colors c + (done.map Prod.snd).count c)) →
        sorted.getD pos 0 = 0) →
      ∃ sorted' offs', scatterLoop rest sorted offs = some (sorted', offs') ∧
        (↑sorted' : Multiset Nat) = ↑idxs := by
  intro rest
  induction rest with
  | nil =>
    intro done sorted offs hsplit hslen holen hoffs hms hz
    refine ⟨sorted, offs, rfl, ?_⟩
    rw [List.append_nil] at hsplit
    have hdlen : done.length = idxs.length := by
      rw [hsplit, List.length_zip]
      omega
    have hfst : done.map Prod.fst = idxs := by
      rw [hsplit]
      exact List.map_fst_zip _ _ (by omega)
    rw [hms, hfst, hdlen]
    simp
  | cons pr rest ih =>
    intro done sorted offs hsplit hslen holen hoffs hms hz
    rcases pr with ⟨idx, c⟩
    -- snd decomposition facts
    have hsnd : done.map Prod.snd ++ c :: rest.map Prod.snd = colors := by
      have := congrArg (List.map Prod.snd) hsplit
      rw [List.map_append, List.map_snd_zip _ _ (by omega)] at this
      simpa using this
    have hcmem : c ∈ colors := by
      rw [← hsnd]
      exact List.mem_append_right _ (List.mem_cons_self _ _)
    have hccount : (done.map Prod.snd).count c < colors.count c := by
      rw [← hsnd, List.count_append]
      have : 0 < List.count c (c :: rest.map Prod.snd) := by
        rw [List.count_cons]
        simp
      omega
    have hdonelt : done.length < idxs.length := by
      have := congrArg List.length hsplit
      rw [List.length_append, List.length_zip] at this
      simp at this
      omega
    have hc128 : c < 128 := hmem c hcmem
    -- the write position
    have hpos : offs.getD c 0 = colorStart colors c + (done.map Prod.snd).count c :=
      hoffs c hcmem
    have hposlt : offs.getD c 0 < idxs.length := by
      rw [hpos]
      have h1 : colorStart colors c + (done.map Prod.snd).count c <
          colorStart colors (c + 1) := by
        rw [colorStart_succ]
        omega
      have h2 : colorStart colors (c + 1) ≤ colors.length :=
        colorStart_le_length colors hmem (by omega)
      omega
    -- region disjointness: position is outside every already-written region
    have hfresh : sorted.getD (offs.getD c 0) 0 = 0 := by
      refine hz _ hposlt ?_
      intro c' hc' ⟨hlo, hhi⟩
      by_cases hcc : c' = c
      · subst hcc
        rw [hpos] at hhi
        omega
      · rcases Nat.lt_or_ge c' c with hlt | hge
        · -- region of c' ends before colorStart c
          have hend : colorStart colors c' + colors.count c' ≤ colorStart colors c := by
            rw [← colorStart_succ]
            exact colorStart_mono colors (by omega)
          have hcnt' : (done.map Prod.snd).count c' ≤ colors.count c' := by
            rw [← hsnd, List.count_append]
            omega
          rw [hpos] at hlo hhi
          omega
        · have hgt : c < c' := by omega
          have hend : colorStart colors c + colors.count c ≤ colorStart colors c' := by
            rw [← colorStart_succ]
            exact colorStart_mono colors (by omega)
          rw [hpos] at hlo hhi
          have h1 : colorStart colors c + (done.map Prod.snd).count c <
              colorStart colors c + colors.count c := by omega
          omega
    -- take the scatter step
    have hstep : scatterLoop ((idx, c) :: rest) sorted offs =
        scatterLoop rest (sorted.set (offs.getD c 0) idx)
          (offs.set c (offs.getD c 0 + 1)) := by
      simp only [scatterLoop]
      rw [if_pos (by omega), if_pos (by rw [hslen]; exact hposlt)]
    rw [hstep]
    -- apply the induction hypothesis with the extended prefix
    refine ih (done ++ [(idx, c)]) _ _ ?_ ?_ ?_ ?_ ?_ ?_
    · rw [List.append_assoc]
      simpa using hsplit
    · rw [List.length_set]
      exact hslen
    · rw [List.length_set]
      exact holen
    · intro c' hc'
      rw [List.map_append, List.count_append]
      by_cases hcc : c = c'
      · subst hcc
        rw [getD_set_self _ _ _ _ (by omega), hpos]
        have hone : List.count c (List.map Prod.snd [(idx, c)]) = 1 := by simp
        rw [hone]
        omega
      · rw [getD_set_ne _ _ _ _ _ hcc, hoffs c' hc']
        have : List.count c' (List.map Prod.snd [(idx, c)]) = 0 := by
          simp [List.count_singleton]
          exact fun hh => hcc hh
        omega
    · -- multiset bookkeeping for the fresh write
      have hb : offs.getD c 0 < sorted.length := by omega
      have hgetElem : sorted[offs.getD c 0] = 0 := by
        rw [← List.getD_eq_getElem sorted 0 hb]
        exact hfresh
      have hset := coe_set_add sorted (offs.getD c 0) idx hb
      rw [hgetElem] at hset
      have hk : idxs.length - done.length = (idxs.length - done.length - 1) + 1 := by omega
      have hrep : Multiset.replicate (idxs.length - done.length) (0 : Nat) =
          {0} + Multiset.replicate (idxs.length - done.length - 1) 0 := by
        conv_lhs => rw [hk]
        rw [Multiset.replicate_succ, Multiset.singleton_add]
      have h1 : (↑((done ++ [(idx, c)]).map Prod.fst) : Multiset Nat) =
          (↑(done.map Prod.fst) : Multiset Nat) + {idx} := by
        rw [List.map_append]
        simp only [List.map_cons, List.map_nil]
        rw [← Multiset.coe_add]
        rfl
      have h2 : idxs.length - (done ++ [(idx, c)]).length =
          idxs.length - done.length - 1 := by
        simp only [List.length_append, List.length_singleton]
        omega
      have key : (↑(sorted.set (offs.getD c 0) idx) : Multiset Nat) + {0} =
          ((↑((done ++ [(idx, c)]).map Prod.fst) : Multiset Nat) +
            Multiset.replicate (idxs.length - (done ++ [(idx, c)]).length) 0) + {0} := by
        rw [hset, hms, hrep, h1, h2]
        abel
      exact add_right_cancel key
    · -- zero outside the enlarged regions
      intro pos hposn hout
      have hne : offs.getD c 0 ≠ pos := by
        intro he
        have := hout c hcmem
        rw [List.map_append, List.count_append, ← he, hpos] at this
        simp at this
      rw [getD_set_ne _ _ _ _ _ hne]
      refine hz pos hposn ?_
      intro c' hc' ⟨hlo, hhi⟩
      refine hout c' hc' ⟨hlo, ?_⟩
      rw [List.map_append, List.count_append]
      omega

/-- After the coloring pass, the scan seeds each used color's cursor
with its start offset (and every assigned color is below 128). -/
theorem parallel_scan_start (bodies : Nat → RBody) (ints : Nat → BodyPair) (nib : Nat)
    (idxs : List Nat) (st : CState)
    (hpass : colorPass bodies ints
      ⟨List.replicate nib 0, List.replicate 128 0, []⟩ idxs = some st) :
    st.colors.length = idxs.length ∧
    (∀ c ∈ st.colors, c < 128) ∧
    (∀ c ∈ st.colors,
      (scanLoop st.colorLen 128 0 [] (List.replicate 128 0) 0).2.1.getD c 0 =
        colorStart st.colors c) := by
  have hinv : ColorInv bodies ints idxs st := by
    have := colorPass_inv bodies ints idxs [] _ st (ColorInv_init bodies ints nib) hpass
    simpa using this
  obtain ⟨m, hm, hnz, hzero, _hglen, _holen, hoffs, _hlast⟩ :=
    scanLoop_spec st.colorLen 128 0 [] (List.replicate 128 0) 0 (by simp)
  have hmemlt : ∀ c ∈ st.colors, c < 128 := by
    intro c hc
    obtain ⟨p, hp, hpe⟩ := List.mem_iff_getElem.mp hc
    have hplt : p < idxs.length := by
      rw [← hinv.len_colors]
      exact hp
    have := hinv.colors_lt p hplt
    rw [List.getD_eq_getElem _ _ hp, hpe] at this
    exact this
  have hused : ∀ c ∈ st.colors, c < m := by
    intro c hc
    have hc128 := hmemlt c hc
    by_contra hge
    have hmlt : m < 128 := by omega
    have hz := hzero (by omega)
    simp only [Nat.zero_add] at hz
    rw [hinv.counts m hmlt] at hz
    have hmnot : m ∉ st.colors := by
      intro hmm
      have := List.count_pos_iff.mpr hmm
      omega
    rcases Nat.eq_or_lt_of_le (Nat.le_of_not_lt hge) with hce | hlt
    · exact hmnot (hce ▸ hc)
    · exact hmnot (hinv.dense c hc m hlt)
  refine ⟨hinv.len_colors, hmemlt, ?_⟩
  intro c hc
  have hcm := hused c hc
  rw [hoffs c, if_pos (by omega)]
  simp only [Nat.zero_add]
  unfold colorStart
  rw [← Finset.range_eq_Ico]
  refine Finset.sum_congr rfl ?_
  intro t ht
  rw [Finset.mem_range] at ht
  exact hinv.counts t (by omega)

/-- The parallel grouper's `sorted_interactions` output is a permutation
of the input index list. -/
theorem groupInteractions_perm (bodies : Nat → RBody) (ints : Nat → BodyPair)
    (nib : Nat) (prev : PGroups) (idxs : List Nat) (out : PGroups)
    (h : groupInteractions bodies ints nib prev idxs = some out) :
    List.Perm out.sortedInteractions idxs := by
  obtain ⟨st, sorted, offs, hpass, hscat, hout⟩ :=
    groupInteractions_spec bodies ints nib prev idxs out h
  obtain ⟨hlen, hmem, hstart⟩ := parallel_scan_start bodies ints nib idxs st hpass
  obtain ⟨_holen2, _, _, _, holen, _, _⟩ :=
    scanLoop_spec st.colorLen 128 0 [] (List.replicate 128 0) 0 (by simp)
  obtain ⟨sorted', offs', hrun, hms⟩ :=
    scatterLoop_perm_aux idxs st.colors hlen hmem
      (idxs.zip st.colors) [] (List.replicate idxs.length 0)
      (scanLoop st.colorLen 128 0 [] (List.replicate 128 0) 0).2.1
      (by simp) (by simp) (by
        obtain ⟨m, _, _, _, _, holen', _, _⟩ :=
          scanLoop_spec st.colorLen 128 0 [] (List.replicate 128 0) 0 (by simp)
        rw [holen']
        simp)
      (by
        intro c hc
        simp only [List.map_nil, List.count_nil, Nat.add_zero]
        exact hstart c hc)
      (by simp [Multiset.coe_replicate])
      (by
        intro pos hpos _
        exact getD_replicate_zero _ _)
  rw [hrun] at hscat
  have hs : sorted = sorted' := (congrArg Prod.fst (Option.some.inj hscat)).symm
  have hos : out.sortedInteractions = sorted' := by rw [hout, hs]
  rw [hos, ← Multiset.coe_eq_coe]
  exact hms

/-! ## SIMD packer: placement lemmas -/

/-- The selected target bucket, when not the overflow sentinel, is below
128 and free of conflicts whenever it is occupied. -/
theorem selectTarget_spec (conflicts occupied : Nat) (hocc : occupied < 2 ^ 128)
    (ht : selectTarget conflicts occupied ≠ 128) :
    selectTarget conflicts occupied < 128 ∧
    (occupied.testBit (selectTarget conflicts occupied) = true →
      conflicts.testBit (selectTarget conflicts occupied) = false) := by
  unfold selectTarget at ht ⊢
  by_cases hcfo : not128 (conflicts &&& occupied) &&& occupied ≠ 0
  · rw [if_pos hcfo] at ht ⊢
    have hlt : ctz128 (not128 (conflicts &&& occupied) &&& occupied) < 128 := by
      have hex : ∃ j, j < 128 ∧
          (not128 (conflicts &&& occupied) &&& occupied).testBit j = true := by
        by_contra hno
        push_neg at hno
        refine hcfo (Nat.eq_of_testBit_eq ?_)
        intro j
        rw [Nat.zero_testBit]
        rcases Nat.lt_or_ge j 128 with hj | hj
        · exact Bool.not_eq_true _ ▸ (by
            have := hno j hj
            simpa using this)
        · have hle : not128 (conflicts &&& occupied) &&& occupied ≤ occupied :=
            Nat.and_le_right
          exact Nat.testBit_eq_false_of_lt
            (lt_of_le_of_lt hle (lt_of_lt_of_le hocc (Nat.pow_le_pow_right (by omega) hj)))
      obtain ⟨j, hj, hbit⟩ := hex
      exact ctz128_lt_of_testBit _ j hj hbit
    refine ⟨hlt, ?_⟩
    intro _
    have hbit := ctz128_testBit _ hlt
    rw [Nat.testBit_and, Bool.and_eq_true] at hbit
    obtain ⟨hfree, hocc'⟩ := hbit
    rw [testBit_not128 _ _ hlt, Bool.not_eq_true', Nat.testBit_and] at hfree
    rw [Bool.and_eq_false_iff] at hfree
    rcases hfree with hc | ho
    · exact hc
    · rw [ho] at hocc'
      cases hocc'
  · rw [if_neg hcfo] at ht ⊢
    have hlt : ctz128 (not128 (conflicts &&& occupied)) < 128 := by
      have := ctz128_le (not128 (conflicts &&& occupied))
      omega
    refine ⟨hlt, ?_⟩
    intro hob
    have hbit := ctz128_testBit _ hlt
    rw [testBit_not128 _ _ hlt, Bool.not_eq_true', Nat.testBit_and,
      Bool.and_eq_false_iff] at hbit
    rcases hbit with hc | ho
    · exact hc
    · rw [ho] at hob
      cases hob

/-- Characterization of the `body_masks` update after a placement:
exactly the dynamic participants' masks gain the target bit. -/
theorem markMasks_spec (bit : Nat) (bodies : Nat → RBody) (p : BodyPair)
    (masks : List Nat)
    (h1 : (bodies p.body1).activeSetOffset < masks.length)
    (h2 : (bodies p.body2).activeSetOffset < masks.length) :
    (∀ o ∈ dynOffsets bodies p,
      (markMasks bit (bodies p.body1).activeSetOffset (bodies p.body2).activeSetOffset
        (!(bodies p.body1).isDynamic) (!(bodies p.body2).isDynamic) masks).getD o 0 =
        masks.getD o 0 ||| bit) ∧
    (∀ o, o ∉ dynOffsets bodies p →
      (markMasks bit (bodies p.body1).activeSetOffset (bodies p.body2).activeSetOffset
        (!(bodies p.body1).isDynamic) (!(bodies p.body2).isDynamic) masks).getD o 0 =
        masks.getD o 0) ∧
    (markMasks bit (bodies p.body1).activeSetOffset (bodies p.body2).activeSetOffset
      (!(bodies p.body1).isDynamic) (!(bodies p.body2).isDynamic) masks).length =
      masks.length := by
  cases hd1 : (bodies p.body1).isDynamic <;> cases hd2 : (bodies p.body2).isDynamic <;>
    simp only [markMasks, hd1, hd2, Bool.not_true, Bool.not_false, if_true, if_false,
      Bool.not_true, ite_true, ite_false]
  · -- both static
    refine ⟨?_, ?_, rfl⟩
    · intro o ho
      simp [dynOffsets, hd1, hd2] at ho
    · intro o _
      rfl
  · -- body2 dynamic only
    refine ⟨?_, ?_, by simp⟩
    · intro o ho
      simp [dynOffsets, hd1, hd2] at ho
      subst ho
      exact getD_set_self _ _ _ _ h2
    · intro o ho
      simp [dynOffsets, hd1, hd2] at ho
      exact getD_set_ne _ _ _ _ _ (fun hh => ho hh.symm)
  · -- body1 dynamic only
    refine ⟨?_, ?_, by simp⟩
    · intro o ho
      simp [dynOffsets, hd1, hd2] at ho
      subst ho
      exact getD_set_self _ _ _ _ h1
    · intro o ho
      simp [dynOffsets, hd1, hd2] at ho
      exact getD_set_ne _ _ _ _ _ (fun hh => ho hh.symm)
  · -- both dynamic
    have hdyn : dynOffsets bodies p =
        [(bodies p.body1).activeSetOffset, (bodies p.body2).activeSetOffset] := by
      simp [dynOffsets, hd1, hd2]
    refine ⟨?_, ?_, by simp⟩
    · intro o ho
      rw [hdyn] at ho
      by_cases h12 : (bodies p.body1).activeSetOffset = (bodies p.body2).activeSetOffset
      · rcases List.mem_pair.mp ho with rfl | hh
        · rw [← h12, getD_set_self _ _ _ _ (by simpa using h1),
            getD_set_self _ _ _ _ h1, Nat.or_assoc, Nat.or_self]
        · subst hh
          rw [getD_set_self _ _ _ _ (by simpa using h2), ← h12,
            getD_set_self _ _ _ _ h1, h12, Nat.or_assoc, Nat.or_self]
      · rcases List.mem_pair.mp ho with rfl | hh
        · rw [getD_set_ne _ _ _ _ _ (fun hh => h12 hh.symm),
            getD_set_self _ _ _ _ h1]
        · subst hh
          rw [getD_set_self _ _ _ _ (by simpa using h2),
            getD_set_ne _ _ _ _ _ h12]
    · intro o ho
      rw [hdyn] at ho
      have hne1 : (bodies p.body1).activeSetOffset ≠ o := fun hh =>
        ho (hh ▸ List.mem_cons_self _ _)
      have hne2 : (bodies p.body2).activeSetOffset ≠ o := fun hh =>
        ho (hh ▸ List.mem_cons_of_mem _ (List.mem_singleton.mpr rfl))
      rw [getD_set_ne _ _ _ _ _ hne2, getD_set_ne _ _ _ _ _ hne1]

theorem entriesOf_set_self (W : Nat) (buckets : List (List Nat × Nat)) (c : Nat)
    (e : List Nat × Nat) (hc : c < buckets.length) :
    entriesOf W (buckets.set c e) c = e.1.take e.2 := by
  unfold entriesOf
  rw [getD_set_self _ _ _ _ hc]

theorem entriesOf_set_ne (W : Nat) (buckets : List (List Nat × Nat)) (c c' : Nat)
    (e : List Nat × Nat) (h : c ≠ c') :
    entriesOf W (buckets.set c e) c' = entriesOf W buckets c' := by
  unfold entriesOf
  rw [getD_set_ne _ _ _ _ _ h]

/-- Multiset effect of replacing one bucket on the pending contents. -/
theorem bucketPending_set_ms (buckets : List (List Nat × Nat)) (c : Nat)
    (e : List Nat × Nat) (hc : c < buckets.length) :
    (↑(bucketPending (buckets.set c e)) : Multiset Nat) +
      ↑(buckets[c].1.take buckets[c].2) =
      ↑(bucketPending buckets) + ↑(e.1.take e.2) := by
  rw [set_decompose buckets c e hc]
  conv_rhs => rw [list_decompose buckets c hc]
  unfold bucketPending
  rw [List.flatMap_append, List.flatMap_cons, List.flatMap_append, List.flatMap_cons]
  simp only [← Multiset.coe_add]
  abel

/-- Everything one placement does to the shared packer state: the
workspace invariant is preserved, the target bucket either completes
(emitting its entries plus `i` as a new full block) or grows by `i`,
other buckets are untouched, and the pending contents trade exactly `i`
against the emitted block. -/
theorem pack_insert_spec (W : Nat) (hW : 0 < W) (bodies : Nat → RBody)
    (pair : Nat → BodyPair) (L : Nat) (buckets : List (List Nat × Nat))
    (bodyMasks masks' : List Nat) (occupied : Nat) (newGrouped : List Nat)
    (i target : Nat)
    (hinv : PackInv W bodies pair L buckets bodyMasks occupied)
    (htlt : target < 128)
    (hfree : occupied.testBit target = true →
      ∀ o ∈ dynOffsets bodies (pair i), (bodyMasks.getD o 0).testBit target = false)
    (hm_in : ∀ o ∈ dynOffsets bodies (pair i),
      masks'.getD o 0 = bodyMasks.getD o 0 ||| 2 ^ target)
    (hm_out : ∀ o, o ∉ dynOffsets bodies (pair i) → masks'.getD o 0 = bodyMasks.getD o 0)
    (hm_len : masks'.length = bodyMasks.length) :
    PackInv W bodies pair L (placeCore W i target buckets occupied newGrouped).1 masks'
      (placeCore W i target buckets occupied newGrouped).2.1 ∧
    ((placeCore W i target buckets occupied newGrouped).2.2.2 = true ↔
      (buckets.getD target (List.replicate W 0, 0)).2 = W - 1) ∧
    (entriesOf W (placeCore W i target buckets occupied newGrouped).1 target =
      if (buckets.getD target (List.replicate W 0, 0)).2 = W - 1 then []
      else entriesOf W buckets target ++ [i]) ∧
    (∀ c, c ≠ target →
      entriesOf W (placeCore W i target buckets occupied newGrouped).1 c =
        entriesOf W buckets c) ∧
    ((placeCore W i target buckets occupied newGrouped).2.2.1 = newGrouped ++
      (if (buckets.getD target (List.replicate W 0, 0)).2 = W - 1 then
        entriesOf W buckets target ++ [i] else [])) ∧
    ((↑(bucketPending (placeCore W i target buckets occupied newGrouped).1) :
        Multiset Nat) +
      ↑(if (buckets.getD target (List.replicate W 0, 0)).2 = W - 1 then
        entriesOf W buckets target ++ [i] else ([] : List Nat)) =
      ↑(bucketPending buckets) + ({i} : Multiset Nat)) ∧
    PairwiseDisjoint bodies pair (entriesOf W buckets target ++ [i]) ∧
    ((buckets.getD target (List.replicate W 0, 0)).2 = W - 1 →
      (entriesOf W buckets target ++ [i]).length = W) := by
  have hblt : target < buckets.length := by rw [hinv.buckets_len]; exact htlt
  have hgetE : buckets.getD target (List.replicate W 0, 0) = buckets[target] :=
    List.getD_eq_getElem _ _ hblt
  have hlanes := hinv.lanes_len target htlt
  have hfill := hinv.fill_lt target htlt
  have hmono : ∀ o c'', (bodyMasks.getD o 0).testBit c'' = true →
      (masks'.getD o 0).testBit c'' = true := by
    intro o c'' hb
    by_cases ho : o ∈ dynOffsets bodies (pair i)
    · rw [hm_in o ho, Nat.testBit_or, hb]
      rfl
    · rw [hm_out o ho]
      exact hb
  have hcross : ∀ e ∈ entriesOf W buckets target,
      ∀ o ∈ dynOffsets bodies (pair e), o ∉ dynOffsets bodies (pair i) := by
    intro e he o hoe hoi
    have hne : (buckets.getD target (List.replicate W 0, 0)).2 ≠ 0 := by
      intro hz
      unfold entriesOf at he
      rw [hz] at he
      simp at he
    have hob : occupied.testBit target = true := (hinv.occ_iff target htlt).mpr hne
    have h1 := hinv.marked target htlt e he o hoe
    have h2 := hfree hob o hoi
    rw [h1] at h2
    cases h2
  have hpd : PairwiseDisjoint bodies pair (entriesOf W buckets target ++ [i]) := by
    unfold PairwiseDisjoint
    rw [List.pairwise_append]
    refine ⟨hinv.disj target htlt, List.pairwise_singleton _ _, ?_⟩
    intro a ha b hb
    rcases List.mem_singleton.mp hb with rfl
    exact hcross a ha
  have hentlen : (entriesOf W buckets target).length =
      (buckets.getD target (List.replicate W 0, 0)).2 := by
    unfold entriesOf
    rw [List.length_take, hlanes]
    omega
  by_cases hfe : (buckets.getD target (List.replicate W 0, 0)).2 = W - 1
  · -- completion
    have hplace : placeCore W i target buckets occupied newGrouped =
        (buckets.set target
          ((buckets.getD target (List.replicate W 0, 0)).1.set (W - 1) i, 0),
         occupied &&& not128 (2 ^ target),
         newGrouped ++ (buckets.getD target (List.replicate W 0, 0)).1.set (W - 1) i,
         true) := by
      simp only [placeCore]
      rw [if_pos hfe]
    have hsetblock : (buckets.getD target (List.replicate W 0, 0)).1.set (W - 1) i =
        entriesOf W buckets target ++ [i] := by
      rw [set_decompose _ _ _ (by rw [hlanes]; omega)]
      unfold entriesOf
      rw [hfe]
      congr 1
      have : (buckets.getD target (List.replicate W 0, 0)).1.drop (W - 1 + 1) = [] := by
        apply List.drop_eq_nil_of_le
        rw [hlanes]
        omega
      rw [this]
    rw [hplace]
    have hocc' : ∀ c, c < 128 →
        (occupied &&& not128 (2 ^ target)).testBit c =
          if c = target then false else occupied.testBit c := by
      intro c hc
      rw [Nat.testBit_and, testBit_not128 _ _ hc, Nat.testBit_two_pow]
      by_cases hct : c = target
      · subst hct
        simp
      · rw [if_neg hct]
        rw [decide_eq_false (fun hh => hct hh.symm)]
        simp
    refine ⟨?_, by exact iff_of_true rfl hfe, ?_, ?_, by rw [hsetblock, if_pos hfe], ?_,
      hpd, ?_⟩
    · constructor
      · simp [hinv.buckets_len]
      · intro c hc
        by_cases hct : c = target
        · subst hct
          rw [getD_set_self _ _ _ _ hblt]
          show ((buckets.getD c (List.replicate W 0, 0)).1.set (W - 1) i).length = W
          rw [List.length_set]
          exact hlanes
        · rw [getD_set_ne _ _ _ _ _ (fun hh => hct hh.symm)]
          exact hinv.lanes_len c hc
      · intro c hc
        by_cases hct : c = target
        · subst hct
          rw [getD_set_self _ _ _ _ hblt]
          exact hW
        · rw [getD_set_ne _ _ _ _ _ (fun hh => hct hh.symm)]
          exact hinv.fill_lt c hc
      · intro c hc
        rw [hocc' c hc]
        by_cases hct : c = target
        · subst hct
          rw [if_pos rfl, getD_set_self _ _ _ _ hblt]
          simp
        · rw [if_neg hct, getD_set_ne _ _ _ _ _ (fun hh => hct hh.symm)]
          exact hinv.occ_iff c hc
      · exact land_lt_128_left _ hinv.occ_lt
      · rw [hm_len]
        exact hinv.masks_len
      · intro c hc e he o hoe
        by_cases hct : c = target
        · subst hct
          rw [entriesOf_set_self _ _ _ _ hblt] at he
          simp at he
        · rw [entriesOf_set_ne _ _ _ _ _ (fun hh => hct hh.symm)] at he
          exact hmono o c (hinv.marked c hc e he o hoe)
      · intro c hc
        by_cases hct : c = target
        · subst hct
          rw [entriesOf_set_self _ _ _ _ hblt]
          simp [PairwiseDisjoint]
        · rw [entriesOf_set_ne _ _ _ _ _ (fun hh => hct hh.symm)]
          exact hinv.disj c hc
    · rw [if_pos hfe]
      exact entriesOf_set_self _ _ _ _ hblt
    · intro c hct
      exact entriesOf_set_ne _ _ _ _ _ (fun hh => hct hh.symm)
    · rw [if_pos hfe]
      have hms := bucketPending_set_ms buckets target
        ((buckets.getD target (List.replicate W 0, 0)).1.set (W - 1) i, 0) hblt
      simp only [List.take_zero] at hms
      rw [← hgetE] at hms
      have htake : (buckets.getD target (List.replicate W 0, 0)).1.take
          (buckets.getD target (List.replicate W 0, 0)).2 = entriesOf W buckets target :=
        rfl
      rw [htake] at hms
      have hApp : (↑(entriesOf W buckets target ++ [i]) : Multiset Nat) =
          (↑(entriesOf W buckets target) : Multiset Nat) + {i} := by
        rw [← Multiset.coe_add]
        rfl
      rw [hApp]
      calc (↑(bucketPending (buckets.set target
              ((buckets.getD target (List.replicate W 0, 0)).1.set (W - 1) i, 0))) :
            Multiset Nat) + ((↑(entriesOf W buckets target) : Multiset Nat) + {i})
          = ((↑(bucketPending (buckets.set target
              ((buckets.getD target (List.replicate W 0, 0)).1.set (W - 1) i, 0))) :
            Multiset Nat) + ↑(entriesOf W buckets target)) + {i} := by
            rw [add_assoc]
        _ = (↑(bucketPending buckets) + (↑([] : List Nat) : Multiset Nat)) + {i} := by
            rw [hms]
        _ = ↑(bucketPending buckets) + ({i} : Multiset Nat) := by
            simp
    · intro _
      rw [List.length_append, hentlen, hfe]
      simp
      omega
  · -- plain insertion
    have hplace : placeCore W i target buckets occupied newGrouped =
        (buckets.set target
          ((buckets.getD target (List.replicate W 0, 0)).1.set
            (buckets.getD target (List.replicate W 0, 0)).2 i,
           (buckets.getD target (List.replicate W 0, 0)).2 + 1),
         occupied ||| 2 ^ target,
         newGrouped,
         false) := by
      simp only [placeCore]
      rw [if_neg hfe]
    have htake1 : ((buckets.getD target (List.replicate W 0, 0)).1.set
        (buckets.getD target (List.replicate W 0, 0)).2 i).take
        ((buckets.getD target (List.replicate W 0, 0)).2 + 1) =
        entriesOf W buckets target ++ [i] := by
      rw [take_succ_set _ _ _ (by rw [hlanes]; omega)]
      rfl
    rw [hplace]
    have hocc' : ∀ c, c < 128 →
        (occupied ||| 2 ^ target).testBit c =
          if c = target then true else occupied.testBit c := by
      intro c hc
      rw [Nat.testBit_or, Nat.testBit_two_pow]
      by_cases hct : c = target
      · subst hct
        simp
      · rw [if_neg hct]
        rw [decide_eq_false (fun hh => hct hh.symm)]
        simp
    refine ⟨?_, by exact iff_of_false (by simp) hfe, ?_, ?_, by rw [if_neg hfe]; simp,
      ?_, hpd, ?_⟩
    · constructor
      · simp [hinv.buckets_len]
      · intro c hc
        by_cases hct : c = target
        · subst hct
          rw [getD_set_self _ _ _ _ hblt]
          show ((buckets.getD c (List.replicate W 0, 0)).1.set
            (buckets.getD c (List.replicate W 0, 0)).2 i).length = W
          rw [List.length_set]
          exact hlanes
        · rw [getD_set_ne _ _ _ _ _ (fun hh => hct hh.symm)]
          exact hinv.lanes_len c hc
      · intro c hc
        by_cases hct : c = target
        · subst hct
          rw [getD_set_self _ _ _ _ hblt]
          show (buckets.getD c (List.replicate W 0, 0)).2 + 1 < W
          omega
        · rw [getD_set_ne _ _ _ _ _ (fun hh => hct hh.symm)]
          exact hinv.fill_lt c hc
      · intro c hc
        rw [hocc' c hc]
        by_cases hct : c = target
        · subst hct
          rw [if_pos rfl, getD_set_self _ _ _ _ hblt]
          simp
        · rw [if_neg hct, getD_set_ne _ _ _ _ _ (fun hh => hct hh.symm)]
          exact hinv.occ_iff c hc
      · exact lor_lt_128 hinv.occ_lt (two_pow_lt_128 htlt)
      · rw [hm_len]
        exact hinv.masks_len
      · intro c hc e he o hoe
        by_cases hct : c = target
        · subst hct
          rw [entriesOf_set_self _ _ _ _ hblt, htake1] at he
          rcases List.mem_append.mp he with hold | hnew
          · exact hmono o _ (hinv.marked _ htlt e hold o hoe)
          · rcases List.mem_singleton.mp hnew with rfl
            rw [hm_in o hoe, Nat.testBit_or, Nat.testBit_two_pow]
            simp
        · rw [entriesOf_set_ne _ _ _ _ _ (fun hh => hct hh.symm)] at he
          exact hmono o c (hinv.marked c hc e he o hoe)
      · intro c hc
        by_cases hct : c = target
        · subst hct
          rw [entriesOf_set_self _ _ _ _ hblt, htake1]
          exact hpd
        · rw [entriesOf_set_ne _ _ _ _ _ (fun hh => hct hh.symm)]
          exact hinv.disj c hc
    · rw [if_neg hfe, entriesOf_set_self _ _ _ _ hblt]
      exact htake1
    · intro c hct
      exact entriesOf_set_ne _ _ _ _ _ (fun hh => hct hh.symm)
    · rw [if_neg hfe]
      have hms := bucketPending_set_ms buckets target
        ((buckets.getD target (List.replicate W 0, 0)).1.set
          (buckets.getD target (List.replicate W 0, 0)).2 i,
         (buckets.getD target (List.replicate W 0, 0)).2 + 1) hblt
      rw [← hgetE] at hms
      have htake : (buckets.getD target (List.replicate W 0, 0)).1.take
          (buckets.getD target (List.replicate W 0, 0)).2 = entriesOf W buckets target :=
        rfl
      rw [htake] at hms
      simp only at hms
      rw [htake1] at hms
      have hApp : (↑(entriesOf W buckets target ++ [i]) : Multiset Nat) =
          (↑(entriesOf W buckets target) : Multiset Nat) + {i} := by
        rw [← Multiset.coe_add]
        rfl
      rw [hApp] at hms
      have := congrArg (fun s => s - (↑(entriesOf W buckets target) : Multiset Nat)) hms
      simp at this
      calc (↑(bucketPending (buckets.set target
            ((buckets.getD target (List.replicate W 0, 0)).1.set
              (buckets.getD target (List.replicate W 0, 0)).2 i,
             (buckets.getD target (List.replicate W 0, 0)).2 + 1))) : Multiset Nat) +
            (↑([] : List Nat) : Multiset Nat)
          = ↑(bucketPending (buckets.set target
            ((buckets.getD target (List.replicate W 0, 0)).1.set
              (buckets.getD target (List.replicate W 0, 0)).2 i,
             (buckets.getD target (List.replicate W 0, 0)).2 + 1))) := by simp
        _ = ↑(bucketPending buckets) + ({i} : Multiset Nat) := by
            have hA := hms
            -- rearrange: X + E = P + (E + {i})  ⇒  X = P + {i}
            have : (↑(bucketPending (buckets.set target
                ((buckets.getD target (List.replicate W 0, 0)).1.set
                  (buckets.getD target (List.replicate W 0, 0)).2 i,
                 (buckets.getD target (List.replicate W 0, 0)).2 + 1))) : Multiset Nat) +
                ↑(entriesOf W buckets target) =
                (↑(bucketPending buckets) + {i}) + ↑(entriesOf W buckets target) := by
              rw [hA]
              abel
            exact add_right_cancel this
    · intro hfe'
      exact absurd hfe' hfe

theorem getD_map_zero (f : Nat → Nat) (l : List Nat) (t : Nat) (ht : t < l.length) :
    (l.map f).getD t 0 = f (l.getD t 0) := by
  rw [List.getD_eq_getElem _ _ (by simpa using ht), List.getD_eq_getElem _ _ ht]
  simp

theorem getD_mapIdx_zero (f : Nat → Nat → Nat) (l : List Nat) (t : Nat)
    (ht : t < l.length) : (l.mapIdx f).getD t 0 = f t (l.getD t 0) := by
  rw [List.getD_eq_getElem _ _ (by simpa using ht), List.getD_eq_getElem _ _ ht]
  simp [List.getElem_mapIdx]

theorem dynOffsets_sub (bodies : Nat → RBody) (p : BodyPair) :
    ∀ o ∈ dynOffsets bodies p,
      o = (bodies p.body1).activeSetOffset ∨ o = (bodies p.body2).activeSetOffset := by
  intro o ho
  unfold dynOffsets at ho
  rcases List.mem_append.mp ho with h | h <;>
    [(by_cases hd : (bodies p.body1).isDynamic); (by_cases hd : (bodies p.body2).isDynamic)]
  · rw [if_pos hd] at h
    exact Or.inl (List.mem_singleton.mp h)
  · rw [if_neg hd] at h
    cases h
  · rw [if_pos hd] at h
    exact Or.inr (List.mem_singleton.mp h)
  · rw [if_neg hd] at h
    cases h

/-- Splitting a `filter` over an appended singleton. -/
theorem filter_append_singleton (p : Nat → Bool) (l : List Nat) (i : Nat) :
    (l ++ [i]).filter p = l.filter p ++ (if p i then [i] else []) := by
  rw [List.filter_append]
  congr 1
  by_cases hp : p i
  · simp [hp]
  · simp [hp]

theorem jointPair_body1 (j : JointData) : j.pair.body1 = j.body1 := rfl

theorem jointPair_body2 (j : JointData) : j.pair.body2 = j.body2 := rfl

theorem manifoldPair_body1 (m : ManifoldData) : m.pair.body1 = m.body1 := rfl

theorem manifoldPair_body2 (m : ManifoldData) : m.pair.body2 = m.body2 := rfl

/-- The insertion case of one `group_joints` iteration: a SIMD-capable,
not-both-static joint is placed into the selected bucket, and the loop
invariant carries over. -/
theorem JInv_insert (W T : Nat) (hW : 0 < W) (bodies : Nat → RBody)
    (ints : Nat → JointData) (L : Nat) (processed : List Nat) (st st' : JLoopState)
    (i target conflicts : Nat)
    (hinv : JInv W T bodies ints L processed st)
    (hbs : bothStatic bodies (ints i).pair = false)
    (hsi : (ints i).supportsSimd = true)
    (hb1 : (bodies (ints i).body1).activeSetOffset < st.bodyMasks.length)
    (hb2 : (bodies (ints i).body2).activeSetOffset < st.bodyMasks.length)
    (hj : (ints i).typeId < st.jtc.length)
    (hconf : conflicts = st.bodyMasks.getD (bodies (ints i).body1).activeSetOffset 0 |||
      st.bodyMasks.getD (bodies (ints i).body2).activeSetOffset 0 |||
      st.jtc.getD (ints i).typeId 0)
    (htdef : target = selectTarget conflicts st.occupied)
    (ht128 : target ≠ 128)
    (hbuck : st'.buckets = (placeCore W i target st.buckets st.occupied st.newGrouped).1)
    (hmasks : st'.bodyMasks = markMasks (2 ^ target)
      (bodies (ints i).body1).activeSetOffset (bodies (ints i).body2).activeSetOffset
      (!(bodies (ints i).body1).isDynamic) (!(bodies (ints i).body2).isDynamic)
      st.bodyMasks)
    (hocc : st'.occupied = (placeCore W i target st.buckets st.occupied st.newGrouped).2.1)
    (hgrp : st'.newGrouped =
      (placeCore W i target st.buckets st.occupied st.newGrouped).2.2.1)
    (hng : st'.newNongrouped = st.newNongrouped)
    (hjtcT : (placeCore W i target st.buckets st.occupied st.newGrouped).2.2.2 = true →
      st'.jtc = st.jtc.map (fun m => m &&& not128 (2 ^ target)))
    (hjtcF : (placeCore W i target st.buckets st.occupied st.newGrouped).2.2.2 = false →
      st'.jtc = st.jtc.mapIdx
        (fun k m => if k = (ints i).typeId then m else m ||| 2 ^ target)) :
    JInv W T bodies ints L (processed ++ [i]) st' := by
  have hocclt := hinv.pack.occ_lt
  obtain ⟨htlt, hfreeT⟩ := selectTarget_spec conflicts st.occupied hocclt (htdef ▸ ht128)
  rw [← htdef] at htlt hfreeT
  have hjT : (ints i).typeId < T := by
    rw [← hinv.jtc_len]
    exact hj
  -- conflict-freedom on an occupied target, componentwise
  have hcompfree : st.occupied.testBit target = true →
      (st.bodyMasks.getD (bodies (ints i).body1).activeSetOffset 0).testBit target =
        false ∧
      (st.bodyMasks.getD (bodies (ints i).body2).activeSetOffset 0).testBit target =
        false ∧
      (st.jtc.getD (ints i).typeId 0).testBit target = false := by
    intro hob
    have := hfreeT hob
    rw [hconf, Nat.testBit_or, Nat.testBit_or] at this
    rw [Bool.or_eq_false_iff] at this
    obtain ⟨h12, h3⟩ := this
    rw [Bool.or_eq_false_iff] at h12
    exact ⟨h12.1, h12.2, h3⟩
  have hfree : st.occupied.testBit target = true →
      ∀ o ∈ dynOffsets bodies (ints i).pair,
        (st.bodyMasks.getD o 0).testBit target = false := by
    intro hob o ho
    obtain ⟨hf1, hf2, _⟩ := hcompfree hob
    rcases dynOffsets_sub bodies (ints i).pair o ho with rfl | rfl
    · rw [jointPair_body1]
      exact hf1
    · rw [jointPair_body2]
      exact hf2
  obtain ⟨hm_in, hm_out, hm_len⟩ := markMasks_spec (2 ^ target) bodies (ints i).pair
    st.bodyMasks (by rw [jointPair_body1]; exact hb1)
    (by rw [jointPair_body2]; exact hb2)
  rw [jointPair_body1, jointPair_body2] at hm_in hm_out hm_len
  rw [← hmasks] at hm_in hm_out hm_len
  obtain ⟨hpack, hflag, hetarget, heother, hgrew, hpend, hpd, hblocklen⟩ :=
    pack_insert_spec W hW bodies (fun k => (ints k).pair) L st.buckets st.bodyMasks
      st'.bodyMasks st.occupied st.newGrouped i target hinv.pack htlt hfree hm_in hm_out
      (hm_len.trans rfl)
  -- uniform subtype of the target bucket's current entries and `i`
  have huni : ∀ e ∈ entriesOf W st.buckets target, (ints e).typeId = (ints i).typeId := by
    intro e he
    by_cases hfz : (st.buckets.getD target (List.replicate W 0, 0)).2 = 0
    · exfalso
      unfold entriesOf at he
      rw [hfz] at he
      simp at he
    · have hob := (hinv.pack.occ_iff target htlt).mpr hfz
      obtain ⟨_, _, hjb⟩ := hcompfree hob
      by_contra hne
      have := hinv.type_conflicts target htlt e he (ints i).typeId hjT
        (fun hh => hne hh.symm)
      rw [hjb] at this
      cases this
  have hdd : st'.newGrouped = st.newGrouped ++
      (if (st.buckets.getD target (List.replicate W 0, 0)).2 = W - 1 then
        entriesOf W st.buckets target ++ [i] else []) := by
    rw [hgrp]
    exact hgrew
  constructor
  · -- pack invariant
    rw [hbuck, hocc]
    exact hpack
  · -- jtc length
    by_cases hcomp : (placeCore W i target st.buckets st.occupied st.newGrouped).2.2.2 = true
    · rw [hjtcT hcomp, List.length_map]
      exact hinv.jtc_len
    · rw [hjtcF (Bool.not_eq_true _ ▸ hcomp), List.length_mapIdx]
      exact hinv.jtc_len
  · -- uniform subtype per bucket
    intro c hc e1 he1 e2 he2
    rw [hbuck] at he1 he2
    by_cases hct : c = target
    · subst hct
      rw [hetarget] at he1 he2
      by_cases hfe : (st.buckets.getD c (List.replicate W 0, 0)).2 = W - 1
      · rw [if_pos hfe] at he1
        simp at he1
      · rw [if_neg hfe] at he1 he2
        have hx1 : (ints e1).typeId = (ints i).typeId := by
          rcases List.mem_append.mp he1 with hold | hnew
          · exact huni e1 hold
          · rcases List.mem_singleton.mp hnew with rfl
            rfl
        have hx2 : (ints e2).typeId = (ints i).typeId := by
          rcases List.mem_append.mp he2 with hold | hnew
          · exact huni e2 hold
          · rcases List.mem_singleton.mp hnew with rfl
            rfl
        rw [hx1, hx2]
    · rw [heother c hct] at he1 he2
      exact hinv.type_uniform c hc e1 he1 e2 he2
  · -- joint-type conflict bits
    intro c hc e he t ht htne
    rw [hbuck] at he
    by_cases hcomp : (placeCore W i target st.buckets st.occupied st.newGrouped).2.2.2 = true
    · -- the bucket completed: its slot is cleared in every conflict word
      rw [hjtcT hcomp, getD_map_zero _ _ _ (by rw [hinv.jtc_len]; exact ht)]
      have hfe : (st.buckets.getD target (List.replicate W 0, 0)).2 = W - 1 :=
        hflag.mp hcomp
      by_cases hct : c = target
      · subst hct
        rw [hetarget, if_pos hfe] at he
        simp at he
      · rw [heother c hct] at he
        rw [Nat.testBit_and, testBit_not128 _ _ hc, Nat.testBit_two_pow]
        rw [hinv.type_conflicts c hc e he t ht htne]
        rw [decide_eq_false (fun hh => hct hh.symm)]
        rfl
    · have hcompf : (placeCore W i target st.buckets st.occupied st.newGrouped).2.2.2 =
          false := Bool.not_eq_true _ ▸ hcomp
      rw [hjtcF hcompf, getD_mapIdx_zero _ _ _ (by rw [hinv.jtc_len]; exact ht)]
      have hfe : (st.buckets.getD target (List.replicate W 0, 0)).2 ≠ W - 1 := by
        intro hh
        rw [hflag.mpr hh] at hcompf
        cases hcompf
      by_cases hct : c = target
      · subst hct
        rw [hetarget, if_neg hfe] at he
        have hte : (ints e).typeId = (ints i).typeId := by
          rcases List.mem_append.mp he with hold | hnew
          · exact huni e hold
          · rcases List.mem_singleton.mp hnew with rfl
            rfl
        have htni : t ≠ (ints i).typeId := by
          rw [← hte]
          exact htne
        rw [if_neg htni, Nat.testBit_or, Nat.testBit_two_pow]
        simp
      · rw [heother c hct] at he
        have hold := hinv.type_conflicts c hc e he t ht htne
        by_cases hti : t = (ints i).typeId
        · rw [if_pos hti]
          exact hold
        · rw [if_neg hti, Nat.testBit_or, hold]
          rfl
  · -- entries are SIMD-capable
    intro c hc e he
    rw [hbuck] at he
    by_cases hct : c = target
    · subst hct
      rw [hetarget] at he
      by_cases hfe : (st.buckets.getD c (List.replicate W 0, 0)).2 = W - 1
      · rw [if_pos hfe] at he
        simp at he
      · rw [if_neg hfe] at he
        rcases List.mem_append.mp he with hold | hnew
        · exact hinv.entries_simd c hc e hold
        · rcases List.mem_singleton.mp hnew with rfl
          exact hsi
    · rw [heother c hct] at he
      exact hinv.entries_simd c hc e he
  · -- block structure of the grouped output
    rw [hdd]
    by_cases hfe : (st.buckets.getD target (List.replicate W 0, 0)).2 = W - 1
    · rw [if_pos hfe]
      obtain ⟨bl, hfl, hblk⟩ := hinv.blocks
      refine ⟨bl ++ [entriesOf W st.buckets target ++ [i]], ?_, ?_⟩
      · rw [List.flatten_append, hfl]
        simp
      · intro blk hblkm
        rcases List.mem_append.mp hblkm with hbo | hbn
        · exact hblk blk hbo
        · rcases List.mem_singleton.mp hbn with rfl
          refine ⟨hblocklen hfe, hpd, ?_, ?_⟩
          · intro e1 he1 e2 he2
            have hx1 : (ints e1).typeId = (ints i).typeId := by
              rcases List.mem_append.mp he1 with hold | hnew
              · exact huni e1 hold
              · rcases List.mem_singleton.mp hnew with rfl
                rfl
            have hx2 : (ints e2).typeId = (ints i).typeId := by
              rcases List.mem_append.mp he2 with hold | hnew
              · exact huni e2 hold
              · rcases List.mem_singleton.mp hnew with rfl
                rfl
            rw [hx1, hx2]
          · intro e he
            rcases List.mem_append.mp he with hold | hnew
            · exact hinv.entries_simd target htlt e hold
            · rcases List.mem_singleton.mp hnew with rfl
              exact hsi
    · rw [if_neg hfe, List.append_nil]
      exact hinv.blocks
  · -- multiset accounting
    rw [hdd, hng, hbuck, filter_append_singleton]
    have hp : (!(bothStatic bodies (ints i).pair)) = true := by rw [hbs]; rfl
    rw [hp, if_pos rfl]
    have hsplitG : (↑(st.newGrouped ++
        (if (st.buckets.getD target (List.replicate W 0, 0)).2 = W - 1 then
          entriesOf W st.buckets target ++ [i] else [])) : Multiset Nat) =
        (↑st.newGrouped : Multiset Nat) +
        ↑(if (st.buckets.getD target (List.replicate W 0, 0)).2 = W - 1 then
          entriesOf W st.buckets target ++ [i] else ([] : List Nat)) :=
      (Multiset.coe_add _ _).symm
    have hsplitF : (↑(processed.filter (fun k => !(bothStatic bodies (ints k).pair)) ++
        [i]) : Multiset Nat) =
        (↑(processed.filter (fun k => !(bothStatic bodies (ints k).pair))) :
          Multiset Nat) + {i} :=
      (Multiset.coe_add _ _).symm
    rw [hsplitG, hsplitF, ← hinv.ms]
    have := hpend
    calc (↑st.newGrouped : Multiset Nat) +
          ↑(if (st.buckets.getD target (List.replicate W 0, 0)).2 = W - 1 then
            entriesOf W st.buckets target ++ [i] else ([] : List Nat)) +
          ↑st.newNongrouped +
          ↑(bucketPending (placeCore W i target st.buckets st.occupied st.newGrouped).1)
        = (↑st.newGrouped : Multiset Nat) + ↑st.newNongrouped +
          ((↑(bucketPending (placeCore W i target st.buckets st.occupied
            st.newGrouped).1) : Multiset Nat) +
          ↑(if (st.buckets.getD target (List.replicate W 0, 0)).2 = W - 1 then
            entriesOf W st.buckets target ++ [i] else ([] : List Nat))) := by abel
      _ = (↑st.newGrouped : Multiset Nat) + ↑st.newNongrouped +
          (↑(bucketPending st.buckets) + ({i} : Multiset Nat)) := by rw [hpend]
      _ = (↑st.newGrouped : Multiset Nat) + ↑st.newNongrouped +
          ↑(bucketPending st.buckets) + {i} := by abel
  · -- membership of SIMD-incapable joints in the nongrouped output
    intro j hjm hbs' hsi'
    rw [hng]
    rcases List.mem_append.mp hjm with hjo | hjn
    · exact hinv.ng_mem j hjo hbs' hsi'
    · rcases List.mem_singleton.mp hjn with rfl
      rw [hsi] at hsi'
      cases hsi'

/-- The spill/bypass case shared by several `group_joints` branches: the
index goes straight to the nongrouped list. -/
theorem JInv_spill (W T : Nat) (bodies : Nat → RBody) (ints : Nat → JointData)
    (L : Nat) (processed : List Nat) (st : JLoopState) (i : Nat)
    (hinv : JInv W T bodies ints L processed st)
    (hbs : bothStatic bodies (ints i).pair = false) :
    JInv W T bodies ints L (processed ++ [i])
      { st with newNongrouped := st.newNongrouped ++ [i] } := by
  refine ⟨hinv.pack, hinv.jtc_len, hinv.type_uniform, hinv.type_conflicts,
    hinv.entries_simd, hinv.blocks, ?_, ?_⟩
  · rw [filter_append_singleton]
    have hp : (!(bothStatic bodies (ints i).pair)) = true := by rw [hbs]; rfl
    rw [hp, if_pos rfl]
    show (↑st.newGrouped : Multiset Nat) + ↑(st.newNongrouped ++ [i]) +
      ↑(bucketPending st.buckets) = _
    have h1 : (↑(st.newNongrouped ++ [i]) : Multiset Nat) = ↑st.newNongrouped + {i} :=
      (Multiset.coe_add _ _).symm
    have h2 : (↑(processed.filter (fun k => !(bothStatic bodies (ints k).pair)) ++ [i]) :
        Multiset Nat) =
        ↑(processed.filter (fun k => !(bothStatic bodies (ints k).pair))) + {i} :=
      (Multiset.coe_add _ _).symm
    rw [h1, h2, ← hinv.ms]
    abel
  · intro j hjm hbs' hsi'
    show j ∈ st.newNongrouped ++ [i]
    rcases List.mem_append.mp hjm with hjo | hjn
    · exact List.mem_append_left _ (hinv.ng_mem j hjo hbs' hsi')
    · rcases List.mem_singleton.mp hjn with rfl
      exact List.mem_append_right _ (List.mem_singleton.mpr rfl)

/-- One `group_joints` iteration preserves the loop invariant. -/
theorem JInv_step (W T : Nat) (hW : 0 < W) (bodies : Nat → RBody)
    (ints : Nat → JointData) (L : Nat) (processed : List Nat) (st st' : JLoopState)
    (i : Nat) (hinv : JInv W T bodies ints L processed st)
    (h : groupJointsStep W bodies ints st i = some st') :
    JInv W T bodies ints L (processed ++ [i]) st' := by
  simp only [groupJointsStep] at h
  split_ifs at h with hss hsimd hb1 hb2 hj ht128 hcomp
  · -- static–static: skipped
    have hbs : bothStatic bodies (ints i).pair = true := hss
    rcases Option.some.inj h with rfl
    refine ⟨hinv.pack, hinv.jtc_len, hinv.type_uniform, hinv.type_conflicts,
      hinv.entries_simd, hinv.blocks, ?_, ?_⟩
    · rw [filter_append_singleton]
      have hp : (!(bothStatic bodies (ints i).pair)) = false := by rw [hbs]; rfl
      rw [hp, if_neg (by simp), List.append_nil]
      exact hinv.ms
    · intro j hjm hbs' hsi'
      rcases List.mem_append.mp hjm with hjo | hjn
      · exact hinv.ng_mem j hjo hbs' hsi'
      · rcases List.mem_singleton.mp hjn with rfl
        rw [hbs] at hbs'
        cases hbs'
  · -- SIMD-incapable: bypass
    have hbs : bothStatic bodies (ints i).pair = false := by
      rw [← Bool.not_eq_true]
      exact hss
    rcases Option.some.inj h with rfl
    exact JInv_spill W T bodies ints L processed st i hinv hbs
  · -- overflow spill
    have hbs : bothStatic bodies (ints i).pair = false := by
      rw [← Bool.not_eq_true]
      exact hss
    rcases Option.some.inj h with rfl
    exact JInv_spill W T bodies ints L processed st i hinv hbs
  · -- placement, bucket completed
    have hbs : bothStatic bodies (ints i).pair = false := by
      rw [← Bool.not_eq_true]
      exact hss
    have hsi : (ints i).supportsSimd = true := by
      have hx : (!(ints i).supportsSimd) = false := (Bool.not_eq_true _) ▸ hsimd
      exact (Bool.not_eq_false' _) ▸ hx
    rcases Option.some.inj h with rfl
    refine JInv_insert W T hW bodies ints L processed st _ i _ _ hinv hbs hsi hb1 hb2 hj
      rfl rfl ht128 rfl rfl rfl rfl rfl (fun _ => rfl) (fun hf => ?_)
    rw [hf] at hcomp
    cases hcomp
  · -- placement, bucket still partial
    have hbs : bothStatic bodies (ints i).pair = false := by
      rw [← Bool.not_eq_true]
      exact hss
    have hsi : (ints i).supportsSimd = true := by
      have hx : (!(ints i).supportsSimd) = false := (Bool.not_eq_true _) ▸ hsimd
      exact (Bool.not_eq_false' _) ▸ hx
    rcases Option.some.inj h with rfl
    refine JInv_insert W T hW bodies ints L processed st _ i _ _ hinv hbs hsi hb1 hb2 hj
      rfl rfl ht128 rfl rfl rfl rfl rfl (fun ht => absurd ht hcomp) (fun _ => rfl)

theorem bucketPending_replicate (W n : Nat) :
    bucketPending (List.replicate n (List.replicate W 0, 0)) = [] := by
  induction n with
  | zero => rfl
  | succ n ih =>
    rw [List.replicate_succ]
    unfold bucketPending at ih ⊢
    rw [List.flatMap_cons, ih]
    rfl

/-- The `group_joints` loop preserves the invariant across any index
list. -/
theorem JInv_fold (W T : Nat) (hW : 0 < W) (bodies : Nat → RBody)
    (ints : Nat → JointData) (L : Nat) :
    ∀ (idxs processed : List Nat) (st st' : JLoopState),
      JInv W T bodies ints L processed st →
      foldSteps (groupJointsStep W bodies ints) st idxs = some st' →
      JInv W T bodies ints L (processed ++ idxs) st' := by
  intro idxs
  induction idxs with
  | nil =>
    intro processed st st' hinv h
    simp only [foldSteps] at h
    rcases Option.some.inj h with rfl
    simpa using hinv
  | cons i rest ih =>
    intro processed st st' hinv h
    unfold foldSteps at h
    cases hstep : groupJointsStep W bodies ints st i with
    | none =>
      rw [hstep] at h
      cases h
    | some stm =>
      rw [hstep] at h
      have hmid := JInv_step W T hW bodies ints L processed st stm i hinv hstep
      have := ih (processed ++ [i]) stm st' hmid h
      simpa using this

/-- The invariant holds for the loop's entry state, given fresh
workspaces. -/
theorem JInv_init (W T : Nat) (hW : 0 < W) (bodies : Nat → RBody)
    (ints : Nat → JointData) (nib : Nat) (g : InteractionGroups)
    (hfresh : g.freshWorkspaces W) :
    JInv W T bodies ints nib []
      { buckets := g.buckets,
        bodyMasks := resizeList g.bodyMasks nib,
        occupied := 0,
        jtc := List.replicate T 0,
        newGrouped := [],
        newNongrouped := [] } := by
  obtain ⟨hb, hm⟩ := hfresh
  have hmasks : resizeList g.bodyMasks nib = List.replicate nib 0 :=
    resizeList_of_all_zero _ _ hm
  have hent : ∀ c, entriesOf W g.buckets c = [] := by
    intro c
    unfold entriesOf
    rw [hb, getD_replicate]
    by_cases hc : c < 128 <;> simp [hc]
  refine ⟨⟨?_, ?_, ?_, ?_, ?_, ?_, ?_, ?_⟩, ?_, ?_, ?_, ?_, ?_, ?_, ?_⟩
  · rw [hb]
    simp
  · intro c hc
    rw [hb, getD_replicate, if_pos hc]
    simp
  · intro c hc
    rw [hb, getD_replicate, if_pos hc]
    exact hW
  · intro c hc
    rw [hb, getD_replicate, if_pos hc]
    simp [Nat.zero_testBit]
  · exact Nat.pos_pow_of_pos 128 (by omega)
  · show (resizeList g.bodyMasks nib).length = nib
    exact resizeList_length _ _
  · intro c hc e he
    rw [hent c] at he
    cases he
  · intro c hc
    rw [hent c]
    exact List.Pairwise.nil
  · simp
  · intro c hc e1 he1
    rw [hent c] at he1
    cases he1
  · intro c hc e he
    rw [hent c] at he
    cases he
  · intro c hc e he
    rw [hent c] at he
    cases he
  · exact ⟨[], rfl, by simp⟩
  · show (↑([] : List Nat) : Multiset Nat) + ↑([] : List Nat) +
      ↑(bucketPending g.buckets) =
      ↑(List.filter (fun i => !bothStatic bodies (ints i).pair) [])
    rw [hb, bucketPending_replicate]
    rfl
  · intro j hjm
    cases hjm

/-- Full characterization of a successful `group_joints` call starting
from fresh workspaces: the output arrays grow by suffixes satisfying the
grouping invariants, and the workspaces are fresh again afterwards. -/
theorem groupJoints_spec (W T : Nat) (hW : 0 < W) (bodies : Nat → RBody)
    (ints : Nat → JointData) (nib : Nat) (g g' : InteractionGroups) (idxs : List Nat)
    (hfresh : g.freshWorkspaces W)
    (h : InteractionGroups.groupJoints W T bodies ints nib g idxs = some g') :
    g'.grouped = g.grouped ++ g'.grouped.drop g.grouped.length ∧
    g'.nongrouped = g.nongrouped ++ g'.nongrouped.drop g.nongrouped.length ∧
    GoodBlocksJ W bodies ints (g'.grouped.drop g.grouped.length) ∧
    ((↑(g'.grouped.drop g.grouped.length) : Multiset Nat) +
      ↑(g'.nongrouped.drop g.nongrouped.length) =
      ↑(idxs.filter (fun i => !(bothStatic bodies (ints i).pair)))) ∧
    (∀ i ∈ idxs, bothStatic bodies (ints i).pair = false →
      (ints i).supportsSimd = false → i ∈ g'.nongrouped.drop g.nongrouped.length) ∧
    (∀ e ∈ g'.grouped.drop g.grouped.length, (ints e).supportsSimd = true) ∧
    g'.freshWorkspaces W ∧
    g'.grouped.length % W = 0 := by
  simp only [InteractionGroups.groupJoints] at h
  cases hfold : foldSteps (groupJointsStep W bodies ints)
      { buckets := g.buckets,
        bodyMasks := resizeList g.bodyMasks nib,
        occupied := 0,
        jtc := List.replicate T 0,
        newGrouped := [],
        newNongrouped := [] } idxs with
  | none =>
    rw [hfold] at h
    exact Option.noConfusion h
  | some st =>
    rw [hfold] at h
    replace h : (if (g.grouped.length + st.newGrouped.length) % W = 0 then
        some (InteractionGroups.mk (List.replicate 128 (List.replicate W 0, 0))
          (st.bodyMasks.map (fun _ => 0))
          (g.grouped ++ st.newGrouped)
          (g.nongrouped ++ st.newNongrouped ++ bucketPending st.buckets))
      else none) = some g' := h
    split_ifs at h with hmod
    rcases Option.some.inj h with rfl
    have hinv : JInv W T bodies ints nib idxs st := by
      have := JInv_fold W T hW bodies ints nib idxs [] _ st
        (JInv_init W T hW bodies ints nib g hfresh) hfold
      simpa using this
    have hgd : (g.grouped ++ st.newGrouped).drop g.grouped.length = st.newGrouped :=
      List.drop_left _ _
    have hnd : (g.nongrouped ++ (st.newNongrouped ++ bucketPending st.buckets)).drop
        g.nongrouped.length = st.newNongrouped ++ bucketPending st.buckets :=
      List.drop_left _ _
    have hng_assoc : g.nongrouped ++ st.newNongrouped ++ bucketPending st.buckets =
        g.nongrouped ++ (st.newNongrouped ++ bucketPending st.buckets) := by
      rw [List.append_assoc]
    refine ⟨?_, ?_, ?_, ?_, ?_, ?_, ?_, ?_⟩
    · show g.grouped ++ st.newGrouped = _ ++ (g.grouped ++ st.newGrouped).drop _
      rw [hgd]
    · show g.nongrouped ++ st.newNongrouped ++ bucketPending st.buckets = _
      rw [hng_assoc, hnd]
    · show GoodBlocksJ W bodies ints ((g.grouped ++ st.newGrouped).drop g.grouped.length)
      rw [hgd]
      exact hinv.blocks
    · show (↑((g.grouped ++ st.newGrouped).drop g.grouped.length) : Multiset Nat) +
        ↑((g.nongrouped ++ st.newNongrouped ++ bucketPending st.buckets).drop
          g.nongrouped.length) = _
      rw [hgd, hng_assoc, hnd]
      have hsplit : (↑(st.newNongrouped ++ bucketPending st.buckets) : Multiset Nat) =
          ↑st.newNongrouped + ↑(bucketPending st.buckets) :=
        (Multiset.coe_add _ _).symm
      rw [hsplit, ← hinv.ms]
      abel
    · intro i hi hbs hsi
      show i ∈ (g.nongrouped ++ st.newNongrouped ++ bucketPending st.buckets).drop
        g.nongrouped.length
      rw [hng_assoc, hnd]
      exact List.mem_append_left _ (hinv.ng_mem i hi hbs hsi)
    · intro e he
      rw [show (InteractionGroups.mk _ _ (g.grouped ++ st.newGrouped)
        (g.nongrouped ++ st.newNongrouped ++ bucketPending st.buckets)).grouped =
        g.grouped ++ st.newGrouped from rfl, hgd] at he
      obtain ⟨bl, hfl, hblk⟩ := hinv.blocks
      rw [hfl] at he
      obtain ⟨blk, hblm, hbem⟩ := List.mem_flatten.mp he
      exact (hblk blk hblm).2.2.2 e hbem
    · refine ⟨rfl, ?_⟩
      intro x hx
      have hx' : x ∈ st.bodyMasks.map (fun _ => 0) := hx
      obtain ⟨y, _, hy⟩ := List.mem_map.mp hx'
      exact hy.symm
    · show (g.grouped ++ st.newGrouped).length % W = 0
      rw [List.length_append]
      exact hmod

/-- The placement case of one `group_manifolds` iteration: a manifold of
the current stratum with a free target slot is inserted into the packer,
preserving the pass invariant. -/
theorem MInv_insert (W : Nat) (hW : 0 < W) (bodies : Nat → RBody)
    (ints : Nat → ManifoldData) (L k : Nat) (g0 : MLoopState) (processed : List Nat)
    (st st' : MLoopState) (i target conflicts : Nat)
    (hinv : MInv W bodies ints L k g0 processed st)
    (hbs : bothStatic bodies (ints i).pair = false)
    (hkc : (ints i).numActiveContacts = k)
    (hb1 : (bodies (ints i).body1).activeSetOffset < st.bodyMasks.length)
    (hb2 : (bodies (ints i).body2).activeSetOffset < st.bodyMasks.length)
    (hconf : conflicts = st.bodyMasks.getD (bodies (ints i).body1).activeSetOffset 0 |||
      st.bodyMasks.getD (bodies (ints i).body2).activeSetOffset 0)
    (htdef : target = selectTarget conflicts st.occupied)
    (ht128 : target ≠ 128)
    (hbuck : st'.buckets = (placeCore W i target st.buckets st.occupied st.newGrouped).1)
    (hmasks : st'.bodyMasks = markMasks (2 ^ target)
      (bodies (ints i).body1).activeSetOffset (bodies (ints i).body2).activeSetOffset
      (!(bodies (ints i).body1).isDynamic) (!(bodies (ints i).body2).isDynamic)
      st.bodyMasks)
    (hocc : st'.occupied = (placeCore W i target st.buckets st.occupied st.newGrouped).2.1)
    (hgrp : st'.newGrouped =
      (placeCore W i target st.buckets st.occupied st.newGrouped).2.2.1)
    (hng : st'.newNongrouped = st.newNongrouped) :
    MInv W bodies ints L k g0 (processed ++ [i]) st' := by
  have hocclt := hinv.pack.occ_lt
  obtain ⟨htlt, hfreeT⟩ := selectTarget_spec conflicts st.occupied hocclt (htdef ▸ ht128)
  rw [← htdef] at htlt hfreeT
  have hcompfree : st.occupied.testBit target = true →
      (st.bodyMasks.getD (bodies (ints i).body1).activeSetOffset 0).testBit target =
        false ∧
      (st.bodyMasks.getD (bodies (ints i).body2).activeSetOffset 0).testBit target =
        false := by
    intro hob
    have := hfreeT hob
    rw [hconf, Nat.testBit_or] at this
    rw [Bool.or_eq_false_iff] at this
    exact this
  have hfree : st.occupied.testBit target = true →
      ∀ o ∈ dynOffsets bodies (ints i).pair,
        (st.bodyMasks.getD o 0).testBit target = false := by
    intro hob o ho
    obtain ⟨hf1, hf2⟩ := hcompfree hob
    rcases dynOffsets_sub bodies (ints i).pair o ho with rfl | rfl
    · rw [manifoldPair_body1]
      exact hf1
    · rw [manifoldPair_body2]
      exact hf2
  obtain ⟨hm_in, hm_out, hm_len⟩ := markMasks_spec (2 ^ target) bodies (ints i).pair
    st.bodyMasks (by rw [manifoldPair_body1]; exact hb1)
    (by rw [manifoldPair_body2]; exact hb2)
  rw [manifoldPair_body1, manifoldPair_body2] at hm_in hm_out hm_len
  rw [← hmasks] at hm_in hm_out hm_len
  obtain ⟨hpack, hflag, hetarget, heother, hgrew, hpend, hpd, hblocklen⟩ :=
    pack_insert_spec W hW bodies (fun j => (ints j).pair) L st.buckets st.bodyMasks
      st'.bodyMasks st.occupied st.newGrouped i target hinv.pack htlt hfree hm_in hm_out
      (hm_len.trans rfl)
  have hdd : st'.newGrouped = st.newGrouped ++
      (if (st.buckets.getD target (List.replicate W 0, 0)).2 = W - 1 then
        entriesOf W st.buckets target ++ [i] else []) := by
    rw [hgrp]
    exact hgrew
  obtain ⟨dG, hdG, hgb⟩ := hinv.grouped_grow
  have hdrop0 : st.newGrouped.drop g0.newGrouped.length = dG := by
    rw [hdG]
    exact List.drop_left _ _
  have hdrop1 : st'.newGrouped = g0.newGrouped ++ (dG ++
      (if (st.buckets.getD target (List.replicate W 0, 0)).2 = W - 1 then
        entriesOf W st.buckets target ++ [i] else [])) := by
    rw [hdd, hdG, List.append_assoc]
  constructor
  · -- pack invariant
    rw [hbuck, hocc]
    exact hpack
  · -- every bucket entry has the stratum's contact count
    intro c hc e he
    rw [hbuck] at he
    by_cases hct : c = target
    · subst hct
      rw [hetarget] at he
      by_cases hfe : (st.buckets.getD c (List.replicate W 0, 0)).2 = W - 1
      · rw [if_pos hfe] at he
        simp at he
      · rw [if_neg hfe] at he
        rcases List.mem_append.mp he with hold | hnew
        · exact hinv.entries_count c hc e hold
        · rcases List.mem_singleton.mp hnew with rfl
          exact hkc
    · rw [heother c hct] at he
      exact hinv.entries_count c hc e he
  · -- block structure of the grouped output
    refine ⟨dG ++ (if (st.buckets.getD target (List.replicate W 0, 0)).2 = W - 1 then
      entriesOf W st.buckets target ++ [i] else []), hdrop1, ?_⟩
    by_cases hfe : (st.buckets.getD target (List.replicate W 0, 0)).2 = W - 1
    · rw [if_pos hfe]
      obtain ⟨bl, hfl, hblk⟩ := hgb
      refine ⟨bl ++ [entriesOf W st.buckets target ++ [i]], ?_, ?_⟩
      · rw [List.flatten_append, hfl]
        simp
      · intro blk hblkm
        rcases List.mem_append.mp hblkm with hbo | hbn
        · exact hblk blk hbo
        · rcases List.mem_singleton.mp hbn with rfl
          refine ⟨hblocklen hfe, hpd, k, ?_⟩
          intro e he
          rcases List.mem_append.mp he with hold | hnew
          · exact hinv.entries_count target htlt e hold
          · rcases List.mem_singleton.mp hnew with rfl
            exact hkc
    · rw [if_neg hfe, List.append_nil]
      exact hgb
  · -- multiset accounting
    obtain ⟨dN, hdN, hms⟩ := hinv.ng_grow
    refine ⟨dN, by rw [hng]; exact hdN, ?_⟩
    rw [hdrop0] at hms
    have hdrop2 : st'.newGrouped.drop g0.newGrouped.length = dG ++
        (if (st.buckets.getD target (List.replicate W 0, 0)).2 = W - 1 then
          entriesOf W st.buckets target ++ [i] else []) := by
      rw [hdrop1]
      exact List.drop_left _ _
    rw [hdrop2, hbuck, filter_append_singleton]
    have hp : (!(bothStatic bodies (ints i).pair) &&
        ((ints i).numActiveContacts == k)) = true := by
      rw [hbs, hkc]
      simp
    rw [hp, if_pos rfl]
    have hsplitG : (↑(dG ++
        (if (st.buckets.getD target (List.replicate W 0, 0)).2 = W - 1 then
          entriesOf W st.buckets target ++ [i] else [])) : Multiset Nat) =
        (↑dG : Multiset Nat) +
        ↑(if (st.buckets.getD target (List.replicate W 0, 0)).2 = W - 1 then
          entriesOf W st.buckets target ++ [i] else ([] : List Nat)) :=
      (Multiset.coe_add _ _).symm
    have hsplitF : (↑(processed.filter (fun j => !(bothStatic bodies (ints j).pair) &&
        ((ints j).numActiveContacts == k)) ++ [i]) : Multiset Nat) =
        (↑(processed.filter (fun j => !(bothStatic bodies (ints j).pair) &&
          ((ints j).numActiveContacts == k))) : Multiset Nat) + {i} :=
      (Multiset.coe_add _ _).symm
    rw [hsplitG, hsplitF, ← hms]
    calc (↑dG : Multiset Nat) +
          ↑(if (st.buckets.getD target (List.replicate W 0, 0)).2 = W - 1 then
            entriesOf W st.buckets target ++ [i] else ([] : List Nat)) +
          ↑dN +
          ↑(bucketPending (placeCore W i target st.buckets st.occupied st.newGrouped).1)
        = (↑dG : Multiset Nat) + ↑dN +
          ((↑(bucketPending (placeCore W i target st.buckets st.occupied
            st.newGrouped).1) : Multiset Nat) +
          ↑(if (st.buckets.getD target (List.replicate W 0, 0)).2 = W - 1 then
            entriesOf W st.buckets target ++ [i] else ([] : List Nat))) := by abel
      _ = (↑dG : Multiset Nat) + ↑dN +
          (↑(bucketPending st.buckets) + ({i} : Multiset Nat)) := by rw [hpend]
      _ = (↑dG : Multiset Nat) + ↑dN + ↑(bucketPending st.buckets) + {i} := by abel

/-- The spill case of one `group_manifolds` iteration: a manifold of the
current stratum with no free slot goes straight to the nongrouped
list. -/
theorem MInv_spill (W : Nat) (bodies : Nat → RBody) (ints : Nat → ManifoldData)
    (L k : Nat) (g0 : MLoopState) (processed : List Nat) (st : MLoopState) (i : Nat)
    (hinv : MInv W bodies ints L k g0 processed st)
    (hbs : bothStatic bodies (ints i).pair = false)
    (hkc : (ints i).numActiveContacts = k) :
    MInv W bodies ints L k g0 (processed ++ [i])
      { st with newNongrouped := st.newNongrouped ++ [i] } := by
  refine ⟨hinv.pack, hinv.entries_count, hinv.grouped_grow, ?_⟩
  obtain ⟨dN, hdN, hms⟩ := hinv.ng_grow
  refine ⟨dN ++ [i], ?_, ?_⟩
  · show st.newNongrouped ++ [i] = g0.newNongrouped ++ (dN ++ [i])
    rw [hdN, List.append_assoc]
  · rw [filter_append_singleton]
    have hp : (!(bothStatic bodies (ints i).pair) &&
        ((ints i).numActiveContacts == k)) = true := by
      rw [hbs, hkc]
      simp
    rw [hp, if_pos rfl]
    have h1 : (↑(dN ++ [i]) : Multiset Nat) = ↑dN + {i} :=
      (Multiset.coe_add _ _).symm
    have h2 : (↑(processed.filter (fun j => !(bothStatic bodies (ints j).pair) &&
        ((ints j).numActiveContacts == k)) ++ [i]) : Multiset Nat) =
        ↑(processed.filter (fun j => !(bothStatic bodies (ints j).pair) &&
          ((ints j).numActiveContacts == k))) + {i} :=
      (Multiset.coe_add _ _).symm
    rw [h1, h2, ← hms]
    abel

/-- One `group_manifolds` iteration (within one stratum pass) preserves
the pass invariant. -/
theorem MInv_step (W : Nat) (hW : 0 < W) (bodies : Nat → RBody)
    (ints : Nat → ManifoldData) (L k : Nat) (g0 : MLoopState) (processed : List Nat)
    (st st' : MLoopState) (i : Nat)
    (hinv : MInv W bodies ints L k g0 processed st)
    (h : groupManifoldsStep W bodies ints k st i = some st') :
    MInv W bodies ints L k g0 (processed ++ [i]) st' := by
  simp only [groupManifoldsStep] at h
  split_ifs at h with hkc hss hb1 hb2 ht
  · -- wrong stratum: skipped in this pass
    rcases Option.some.inj h with rfl
    refine ⟨hinv.pack, hinv.entries_count, hinv.grouped_grow, ?_⟩
    obtain ⟨dN, hdN, hms⟩ := hinv.ng_grow
    refine ⟨dN, hdN, ?_⟩
    rw [filter_append_singleton]
    have hp : (!(bothStatic bodies (ints i).pair) &&
        ((ints i).numActiveContacts == k)) = false := by
      have hbk : ((ints i).numActiveContacts == k) = false := by
        rw [beq_eq_false_iff_ne]
        exact hkc
      rw [hbk, Bool.and_false]
    rw [hp, if_neg (by simp), List.append_nil]
    exact hms
  · -- static–static: skipped
    have hbs : bothStatic bodies (ints i).pair = true := hss
    rcases Option.some.inj h with rfl
    refine ⟨hinv.pack, hinv.entries_count, hinv.grouped_grow, ?_⟩
    obtain ⟨dN, hdN, hms⟩ := hinv.ng_grow
    refine ⟨dN, hdN, ?_⟩
    rw [filter_append_singleton]
    have hp : (!(bothStatic bodies (ints i).pair) &&
        ((ints i).numActiveContacts == k)) = false := by
      rw [hbs]
      simp
    rw [hp, if_neg (by simp), List.append_nil]
    exact hms
  · -- overflow spill
    have hbs : bothStatic bodies (ints i).pair = false := by
      rw [← Bool.not_eq_true]
      exact hss
    have hkc2 : (ints i).numActiveContacts = k := by omega
    rcases Option.some.inj h with rfl
    exact MInv_spill W bodies ints L k g0 processed st i hinv hbs hkc2
  · -- placement
    have hbs : bothStatic bodies (ints i).pair = false := by
      rw [← Bool.not_eq_true]
      exact hss
    have hkc2 : (ints i).numActiveContacts = k := by omega
    rcases Option.some.inj h with rfl
    exact MInv_insert W hW bodies ints L k g0 processed st _ i _ _ hinv hbs hkc2 hb1 hb2
      rfl rfl ht rfl rfl rfl rfl rfl
  all_goals exact Option.noConfusion h

/-- The inner `group_manifolds` loop preserves the pass invariant across
any index list. -/
theorem MInv_fold (W : Nat) (hW : 0 < W) (bodies : Nat → RBody)
    (ints : Nat → ManifoldData) (L k : Nat) (g0 : MLoopState) :
    ∀ (idxs processed : List Nat) (st st' : MLoopState),
      MInv W bodies ints L k g0 processed st →
      foldSteps (groupManifoldsStep W bodies ints k) st idxs = some st' →
      MInv W bodies ints L k g0 (processed ++ idxs) st' := by
  intro idxs
  induction idxs with
  | nil =>
    intro processed st st' hinv h
    simp only [foldSteps] at h
    rcases Option.some.inj h with rfl
    simpa using hinv
  | cons i rest ih =>
    intro processed st st' hinv h
    unfold foldSteps at h
    cases hstep : groupManifoldsStep W bodies ints k st i with
    | none =>
      rw [hstep] at h
      cases h
    | some stm =>
      rw [hstep] at h
      have hmid := MInv_step W hW bodies ints L k g0 processed st stm i hinv hstep
      have := ih (processed ++ [i]) stm st' hmid h
      simpa using this

/-- The pass invariant holds at the start of a stratum pass whose entry
state has fresh workspaces. -/
theorem MInv_init (W : Nat) (hW : 0 < W) (bodies : Nat → RBody)
    (ints : Nat → ManifoldData) (k : Nat) (st : MLoopState)
    (hb : st.buckets = List.replicate 128 (List.replicate W 0, 0))
    (hm : ∀ x ∈ st.bodyMasks, x = 0)
    (ho : st.occupied = 0) :
    MInv W bodies ints st.bodyMasks.length k st [] st := by
  have hent : ∀ c, entriesOf W st.buckets c = [] := by
    intro c
    unfold entriesOf
    rw [hb, getD_replicate]
    by_cases hc : c < 128 <;> simp [hc]
  refine ⟨⟨?_, ?_, ?_, ?_, ?_, ?_, ?_, ?_⟩, ?_, ?_, ?_⟩
  · rw [hb]
    simp
  · intro c hc
    rw [hb, getD_replicate, if_pos hc]
    simp
  · intro c hc
    rw [hb, getD_replicate, if_pos hc]
    exact hW
  · intro c hc
    rw [hb, ho, getD_replicate, if_pos hc]
    simp [Nat.zero_testBit]
  · rw [ho]
    exact Nat.pos_pow_of_pos 128 (by omega)
  · rfl
  · intro c hc e he
    rw [hent c] at he
    cases he
  · intro c hc
    rw [hent c]
    exact List.Pairwise.nil
  · intro c hc e he
    rw [hent c] at he
    cases he
  · exact ⟨[], by simp, [], rfl, by simp⟩
  · refine ⟨[], by simp, ?_⟩
    rw [List.drop_length, hb, bucketPending_replicate]
    rfl

/-- One stratum pass of `group_manifolds`, starting from fresh
workspaces, restores fresh workspaces and extends the two output streams
by a good suffix: the grouped suffix is made of full blocks, and
together with the nongrouped suffix it is exactly the stratum's eligible
input (as a multiset). -/
theorem groupManifoldsPass_spec (W : Nat) (hW : 0 < W) (bodies : Nat → RBody)
    (ints : Nat → ManifoldData) (idxs : List Nat) (st st' : MLoopState) (k : Nat)
    (hb : st.buckets = List.replicate 128 (List.replicate W 0, 0))
    (hm : ∀ x ∈ st.bodyMasks, x = 0)
    (ho : st.occupied = 0)
    (h : groupManifoldsPass W bodies ints idxs st k = some st') :
    st'.buckets = List.replicate 128 (List.replicate W 0, 0) ∧
    (∀ x ∈ st'.bodyMasks, x = 0) ∧
    st'.occupied = 0 ∧
    st'.bodyMasks.length = st.bodyMasks.length ∧
    (∃ dG, st'.newGrouped = st.newGrouped ++ dG ∧ GoodBlocksM W bodies ints dG) ∧
    (∃ dN, st'.newNongrouped = st.newNongrouped ++ dN ∧
      (↑(st'.newGrouped.drop st.newGrouped.length) : Multiset Nat) + ↑dN =
        ↑(idxs.filter (fun i => !(bothStatic bodies (ints i).pair) &&
          ((ints i).numActiveContacts == k)))) := by
  simp only [groupManifoldsPass] at h
  cases hfold : foldSteps (groupManifoldsStep W bodies ints k) st idxs with
  | none =>
    rw [hfold] at h
    exact Option.noConfusion h
  | some stf =>
    rw [hfold] at h
    rcases Option.some.inj h with rfl
    have hinv : MInv W bodies ints st.bodyMasks.length k st idxs stf := by
      have := MInv_fold W hW bodies ints st.bodyMasks.length k st idxs [] st stf
        (MInv_init W hW bodies ints k st hb hm ho) hfold
      simpa using this
    obtain ⟨dG, hdG, hgb⟩ := hinv.grouped_grow
    obtain ⟨dN, hdN, hms⟩ := hinv.ng_grow
    have hmlen : stf.bodyMasks.length = st.bodyMasks.length := hinv.pack.masks_len
    refine ⟨rfl, ?_, rfl, ?_, ⟨dG, hdG, hgb⟩, ?_⟩
    · intro x hx
      have hx' : x ∈ stf.bodyMasks.map (fun _ => 0) := hx
      obtain ⟨y, _, hy⟩ := List.mem_map.mp hx'
      exact hy.symm
    · show (stf.bodyMasks.map (fun _ => 0)).length = st.bodyMasks.length
      rw [List.length_map]
      exact hmlen
    · refine ⟨dN ++ bucketPending stf.buckets, ?_, ?_⟩
      · show stf.newNongrouped ++ bucketPending stf.buckets =
          st.newNongrouped ++ (dN ++ bucketPending stf.buckets)
        rw [hdN, List.append_assoc]
      · have hsplit : (↑(dN ++ bucketPending stf.buckets) : Multiset Nat) =
            ↑dN + ↑(bucketPending stf.buckets) :=
          (Multiset.coe_add _ _).symm
        rw [hsplit, ← hms]
        abel

/-- Blocks of `W`-block lists concatenate. -/
theorem GoodBlocksM_append (W : Nat) (bodies : Nat → RBody) (ints : Nat → ManifoldData)
    (g1 g2 : List Nat) (h1 : GoodBlocksM W bodies ints g1)
    (h2 : GoodBlocksM W bodies ints g2) :
    GoodBlocksM W bodies ints (g1 ++ g2) := by
  obtain ⟨bl1, hf1, hb1⟩ := h1
  obtain ⟨bl2, hf2, hb2⟩ := h2
  refine ⟨bl1 ++ bl2, ?_, ?_⟩
  · rw [List.flatten_append, hf1, hf2]
  · intro blk hblk
    rcases List.mem_append.mp hblk with hl | hr
    · exact hb1 blk hl
    · exact hb2 blk hr

/-- The outer stratum loop of `group_manifolds`: starting from fresh
workspaces, running the passes for `k = 1, …, n` restores fresh
workspaces, appends only full good blocks to the grouped stream, and the
two suffixes together collect exactly the eligible inputs of the covered
strata. -/
theorem manifoldPasses_spec (W : Nat) (hW : 0 < W) (bodies : Nat → RBody)
    (ints : Nat → ManifoldData) (idxs : List Nat) :
    ∀ (n : Nat) (st0 st : MLoopState),
      st0.buckets = List.replicate 128 (List.replicate W 0, 0) →
      (∀ x ∈ st0.bodyMasks, x = 0) →
      st0.occupied = 0 →
      foldSteps (groupManifoldsPass W bodies ints idxs) st0 (List.range' 1 n) = some st →
      st.buckets = List.replicate 128 (List.replicate W 0, 0) ∧
      (∀ x ∈ st.bodyMasks, x = 0) ∧
      st.occupied = 0 ∧
      st.bodyMasks.length = st0.bodyMasks.length ∧
      (∃ dG, st.newGrouped = st0.newGrouped ++ dG ∧ GoodBlocksM W bodies ints dG) ∧
      (∃ dN, st.newNongrouped = st0.newNongrouped ++ dN ∧
        (↑(st.newGrouped.drop st0.newGrouped.length) : Multiset Nat) + ↑dN =
          ((List.range' 1 n).map (fun k => (↑(idxs.filter
            (fun i => !(bothStatic bodies (ints i).pair) &&
              ((ints i).numActiveContacts == k))) : Multiset Nat))).sum) := by
  intro n
  induction n with
  | zero =>
    intro st0 st hb hm ho h
    simp only [List.range', foldSteps] at h
    rcases Option.some.inj h with rfl
    refine ⟨hb, hm, ho, rfl, ⟨[], by simp, ⟨[], rfl, by simp⟩⟩, ⟨[], by simp, ?_⟩⟩
    rw [List.drop_length]
    rfl
  | succ n ih =>
    intro st0 st hb hm ho h
    rw [List.range'_1_concat, foldSteps_append] at h
    cases hmid : foldSteps (groupManifoldsPass W bodies ints idxs) st0
        (List.range' 1 n) with
    | none =>
      rw [hmid] at h
      exact Option.noConfusion h
    | some stm =>
      rw [hmid] at h
      obtain ⟨hb1, hm1, ho1, hlen1, ⟨dG1, hdG1, hgb1⟩, ⟨dN1, hdN1, hms1⟩⟩ :=
        ih st0 stm hb hm ho hmid
      have hpass : groupManifoldsPass W bodies ints idxs stm (1 + n) = some st := by
        simp only [foldSteps] at h
        cases hp : groupManifoldsPass W bodies ints idxs stm (1 + n) with
        | none =>
          rw [hp] at h
          exact Option.noConfusion h
        | some stx =>
          rw [hp] at h
          simp only [foldSteps] at h
          rcases Option.some.inj h with rfl
          rfl
      obtain ⟨hb2, hm2, ho2, hlen2, ⟨dG2, hdG2, hgb2⟩, ⟨dN2, hdN2, hms2⟩⟩ :=
        groupManifoldsPass_spec W hW bodies ints idxs stm st (1 + n) hb1 hm1 ho1 hpass
      have hdrop1 : stm.newGrouped.drop st0.newGrouped.length = dG1 := by
        rw [hdG1]
        exact List.drop_left _ _
      have hdrop2 : st.newGrouped.drop stm.newGrouped.length = dG2 := by
        rw [hdG2]
        exact List.drop_left _ _
      rw [hdrop1] at hms1
      rw [hdrop2] at hms2
      refine ⟨hb2, hm2, ho2, hlen2.trans hlen1, ?_, ?_⟩
      · refine ⟨dG1 ++ dG2, ?_, GoodBlocksM_append W bodies ints dG1 dG2 hgb1 hgb2⟩
        rw [hdG2, hdG1, List.append_assoc]
      · refine ⟨dN1 ++ dN2, ?_, ?_⟩
        · rw [hdN2, hdN1, List.append_assoc]
        · have hdrop3 : st.newGrouped.drop st0.newGrouped.length = dG1 ++ dG2 := by
            rw [hdG2, hdG1, List.append_assoc]
            exact List.drop_left _ _
          rw [hdrop3, List.range'_1_concat, List.map_append, List.sum_append]
          have hsg : (↑(dG1 ++ dG2) : Multiset Nat) = ↑dG1 + ↑dG2 :=
            (Multiset.coe_add _ _).symm
          have hsn : (↑(dN1 ++ dN2) : Multiset Nat) = ↑dN1 + ↑dN2 :=
            (Multiset.coe_add _ _).symm
          rw [hsg, hsn, ← hms1]
          simp only [List.map_cons, List.map_nil, List.sum_cons, List.sum_nil,
            add_zero]
          rw [← hms2]
          abel

theorem sum_map_add_multiset (f g : Nat → Multiset Nat) :
    ∀ l : List Nat, (l.map (fun k => f k + g k)).sum = (l.map f).sum + (l.map g).sum := by
  intro l
  induction l with
  | nil => simp
  | cons x xs ih =>
    simp only [List.map_cons, List.sum_cons, ih]
    abel

theorem sum_indicator_strata (x : Multiset Nat) (m : Nat) :
    ∀ n, ((List.range' 1 n).map (fun k => if m = k then x else 0)).sum =
      if 1 ≤ m ∧ m ≤ n then x else 0 := by
  intro n
  induction n with
  | zero =>
    rw [if_neg (by omega)]
    rfl
  | succ n ih =>
    rw [List.range'_1_concat, List.map_append, List.sum_append, ih]
    simp only [List.map_cons, List.map_nil, List.sum_cons, List.sum_nil, add_zero]
    by_cases hm : m = 1 + n
    · rw [if_pos hm, if_neg (by omega), if_pos (by omega), zero_add]
    · rw [if_neg hm, add_zero]
      by_cases hc : 1 ≤ m ∧ m ≤ n
      · rw [if_pos hc, if_pos (by omega)]
      · rw [if_neg hc, if_neg (by omega)]

/-- Summing each stratum's filtered inputs over all covered strata gives
the filter by eligibility alone, provided the strata cover every contact
count that occurs. -/
theorem strata_filter_sum (bodies : Nat → RBody) (ints : Nat → ManifoldData) (n : Nat) :
    ∀ idxs : List Nat, (∀ i ∈ idxs, (ints i).numActiveContacts ≤ n) →
      ((List.range' 1 n).map (fun k => (↑(idxs.filter
        (fun i => !(bothStatic bodies (ints i).pair) &&
          ((ints i).numActiveContacts == k))) : Multiset Nat))).sum =
      ↑(idxs.filter (fun i => !(bothStatic bodies (ints i).pair) &&
        decide (1 ≤ (ints i).numActiveContacts))) := by
  intro idxs
  induction idxs with
  | nil =>
    intro _
    simp
  | cons j l ih =>
    intro hle
    have hjle : (ints j).numActiveContacts ≤ n := hle j (List.mem_cons_self _ _)
    have hrest := ih (fun i hi => hle i (List.mem_cons_of_mem _ hi))
    simp only [List.filter_cons]
    by_cases hpred : (!(bothStatic bodies (ints j).pair)) = true
    · simp only [hpred, Bool.true_and, beq_iff_eq, decide_eq_true_eq]
      have hsplit : (fun k => (↑(if (ints j).numActiveContacts = k then
          j :: l.filter (fun i => !(bothStatic bodies (ints i).pair) &&
            ((ints i).numActiveContacts == k)) else
          l.filter (fun i => !(bothStatic bodies (ints i).pair) &&
            ((ints i).numActiveContacts == k))) : Multiset Nat)) =
          (fun k => (if (ints j).numActiveContacts = k then ({j} : Multiset Nat)
            else 0) +
          ↑(l.filter (fun i => !(bothStatic bodies (ints i).pair) &&
            ((ints i).numActiveContacts == k)))) := by
        funext k
        split_ifs with hc
        · rw [← Multiset.cons_coe, ← Multiset.singleton_add]
        · rw [zero_add]
      rw [hsplit, sum_map_add_multiset, sum_indicator_strata, hrest]
      by_cases h1 : 1 ≤ (ints j).numActiveContacts
      · rw [if_pos (by omega), if_pos h1, ← Multiset.cons_coe,
          ← Multiset.singleton_add]
      · rw [if_neg (by omega), if_neg h1, zero_add]
    · have hpf : (!(bothStatic bodies (ints j).pair)) = false := by
        rw [← Bool.not_eq_true]
        exact hpred
      simp only [hpf, Bool.false_and]
      simp only [if_neg (by simp : ¬ (false = true))]
      exact hrest

/-- Full characterization of a successful `group_manifolds` call
starting from fresh workspaces: the output arrays grow by suffixes
satisfying the grouping invariants (a manifold is eligible when it is
not static–static and has at least one active contact), and the
workspaces are fresh again afterwards. -/
theorem groupManifolds_spec (W : Nat) (hW : 0 < W) (bodies : Nat → RBody)
    (ints : Nat → ManifoldData) (nib : Nat) (g g' : InteractionGroups) (idxs : List Nat)
    (hfresh : g.freshWorkspaces W)
    (h : InteractionGroups.groupManifolds W bodies ints nib g idxs = some g') :
    g'.grouped = g.grouped ++ g'.grouped.drop g.grouped.length ∧
    g'.nongrouped = g.nongrouped ++ g'.nongrouped.drop g.nongrouped.length ∧
    GoodBlocksM W bodies ints (g'.grouped.drop g.grouped.length) ∧
    ((↑(g'.grouped.drop g.grouped.length) : Multiset Nat) +
      ↑(g'.nongrouped.drop g.nongrouped.length) =
      ↑(idxs.filter (fun i => !(bothStatic bodies (ints i).pair) &&
        decide (1 ≤ (ints i).numActiveContacts)))) ∧
    g'.freshWorkspaces W ∧
    g'.grouped.length % W = 0 := by
  obtain ⟨hb, hm⟩ := hfresh
  have hmasks0 : ∀ x ∈ resizeList g.bodyMasks nib, x = 0 := by
    rw [resizeList_of_all_zero _ _ hm]
    intro x hx
    exact List.eq_of_mem_replicate hx
  simp only [InteractionGroups.groupManifolds] at h
  cases hfold : foldSteps (groupManifoldsPass W bodies ints idxs)
      { buckets := g.buckets,
        bodyMasks := resizeList g.bodyMasks nib,
        occupied := 0,
        newGrouped := [],
        newNongrouped := [] }
      (List.range' 1 (((idxs.map (fun i => (ints i).numActiveContacts)).max?).getD 1)) with
  | none =>
    rw [hfold] at h
    exact Option.noConfusion h
  | some st =>
    rw [hfold] at h
    replace h : (if (g.grouped.length + st.newGrouped.length) % W = 0 then
        some (InteractionGroups.mk st.buckets st.bodyMasks
          (g.grouped ++ st.newGrouped)
          (g.nongrouped ++ st.newNongrouped))
      else none) = some g' := h
    split_ifs at h with hmod
    rcases Option.some.inj h with rfl
    obtain ⟨hb2, hm2, _, _, ⟨dG, hdG, hgb⟩, ⟨dN, hdN, hms⟩⟩ :=
      manifoldPasses_spec W hW bodies ints idxs _ _ st hb hmasks0 rfl hfold
    have hcov : ∀ i ∈ idxs, (ints i).numActiveContacts ≤
        ((idxs.map (fun i => (ints i).numActiveContacts)).max?).getD 1 := by
      intro i hi
      cases hmax : (idxs.map (fun i => (ints i).numActiveContacts)).max? with
      | none =>
        rw [List.max?_eq_none_iff] at hmax
        rw [List.map_eq_nil_iff] at hmax
        rw [hmax] at hi
        cases hi
      | some m =>
        exact le_of_max?_eq _ m hmax _ (List.mem_map.mpr ⟨i, hi, rfl⟩)
    have hsum := strata_filter_sum bodies ints
      (((idxs.map (fun i => (ints i).numActiveContacts)).max?).getD 1) idxs hcov
    have hdG0 : st.newGrouped = dG := by simpa using hdG
    have hdN0 : st.newNongrouped = dN := by simpa using hdN
    have hms0 : (↑st.newGrouped : Multiset Nat) + ↑dN =
        ↑(idxs.filter (fun i => !(bothStatic bodies (ints i).pair) &&
          decide (1 ≤ (ints i).numActiveContacts))) := by
      rw [← hsum, ← hms]
      rfl
    have hgd : (g.grouped ++ st.newGrouped).drop g.grouped.length = st.newGrouped :=
      List.drop_left _ _
    have hnd : (g.nongrouped ++ st.newNongrouped).drop g.nongrouped.length =
        st.newNongrouped :=
      List.drop_left _ _
    refine ⟨?_, ?_, ?_, ?_, ?_, ?_⟩
    · show g.grouped ++ st.newGrouped = _ ++ (g.grouped ++ st.newGrouped).drop _
      rw [hgd]
    · show g.nongrouped ++ st.newNongrouped = _ ++
        (g.nongrouped ++ st.newNongrouped).drop _
      rw [hnd]
    · show GoodBlocksM W bodies ints ((g.grouped ++ st.newGrouped).drop g.grouped.length)
      rw [hgd, hdG0]
      exact hgb
    · show (↑((g.grouped ++ st.newGrouped).drop g.grouped.length) : Multiset Nat) +
        ↑((g.nongrouped ++ st.newNongrouped).drop g.nongrouped.length) = _
      rw [hgd, hnd, hdN0]
      exact hms0
    · exact ⟨hb2, hm2⟩
    · show (g.grouped ++ st.newGrouped).length % W = 0
      rw [List.length_append]
      exact hmod

set_option maxRecDepth 1000000

/-- In a flat concatenation of `W`-long blocks, every aligned contiguous
`W`-slice is one of the blocks. -/
theorem flatten_block_slice (W : Nat) (hW : 0 < W) :
    ∀ (bl : List (List Nat)) (b : Nat), (∀ blk ∈ bl, blk.length = W) →
      W * (b + 1) ≤ bl.flatten.length →
      ∃ blk ∈ bl, (bl.flatten.drop (W * b)).take W = blk := by
  intro bl
  induction bl with
  | nil =>
    intro b _ hle
    exfalso
    simp only [List.flatten_nil, List.length_nil, Nat.le_zero] at hle
    rcases Nat.mul_eq_zero.mp hle with h | h <;> omega
  | cons blk0 rest ih =>
    intro b hlen hle
    have hb0 : blk0.length = W := hlen blk0 (List.mem_cons_self _ _)
    cases b with
    | zero =>
      refine ⟨blk0, List.mem_cons_self _ _, ?_⟩
      rw [List.flatten_cons, Nat.mul_zero, List.drop_zero, ← hb0, List.take_left]
    | succ b' =>
      have hsplit : W * (b' + 1) = blk0.length + W * b' := by
        rw [hb0]
        ring
      have hlef : W * (b' + 1) ≤ rest.flatten.length := by
        rw [List.flatten_cons, List.length_append, hb0] at hle
        have : W * (b' + 1 + 1) = W * (b' + 1) + W := by ring
        omega
      obtain ⟨blk, hmem, heq⟩ := ih b' (fun bb hbb => hlen bb
        (List.mem_cons_of_mem _ hbb)) hlef
      refine ⟨blk, List.mem_cons_of_mem _ hmem, ?_⟩
      rw [List.flatten_cons, hsplit, List.drop_append]
      exact heq

/-- C2: every aligned contiguous `W`-block of the `grouped_interactions`
stream produced by a `group_joints` or `group_manifolds` call (SIMD
build, from fresh workspaces) has pairwise-disjoint dynamic-body sets
across its `W` interactions; for joints the `W` entries share one joint
subtype, for contacts one `num_active_contacts`. -/
theorem claim_C2 (W T : Nat) (hW : 0 < W) (bodies : Nat → RBody)
    (jints : Nat → JointData) (mints : Nat → ManifoldData) (nib : Nat)
    (gj gj' gm gm' : InteractionGroups) (jidxs midxs : List Nat)
    (hfj : gj.freshWorkspaces W) (hfm : gm.freshWorkspaces W)
    (hj : InteractionGroups.groupJoints W T bodies jints nib gj jidxs = some gj')
    (hm : InteractionGroups.groupManifolds W bodies mints nib gm midxs = some gm') :
    (∀ b, W * (b + 1) ≤ (gj'.grouped.drop gj.grouped.length).length →
      PairwiseDisjoint bodies (fun i => (jints i).pair)
        (((gj'.grouped.drop gj.grouped.length).drop (W * b)).take W) ∧
      (∀ e1 ∈ ((gj'.grouped.drop gj.grouped.length).drop (W * b)).take W,
       ∀ e2 ∈ ((gj'.grouped.drop gj.grouped.length).drop (W * b)).take W,
        (jints e1).typeId = (jints e2).typeId)) ∧
    (∀ b, W * (b + 1) ≤ (gm'.grouped.drop gm.grouped.length).length →
      PairwiseDisjoint bodies (fun i => (mints i).pair)
        (((gm'.grouped.drop gm.grouped.length).drop (W * b)).take W) ∧
      (∃ kb, ∀ e ∈ ((gm'.grouped.drop gm.grouped.length).drop (W * b)).take W,
        (mints e).numActiveContacts = kb)) := by
  obtain ⟨_, _, hgbj, _, _, _, _, _⟩ :=
    groupJoints_spec W T hW bodies jints nib gj gj' jidxs hfj hj
  obtain ⟨_, _, hgbm, _, _, _⟩ :=
    groupManifolds_spec W hW bodies mints nib gm gm' midxs hfm hm
  constructor
  · intro b hble
    obtain ⟨bl, hfl, hblk⟩ := hgbj
    rw [hfl] at hble ⊢
    obtain ⟨blk, hmem, heq⟩ := flatten_block_slice W hW bl b
      (fun bb hbb => (hblk bb hbb).1) hble
    rw [heq]
    obtain ⟨_, hpd, huni, _⟩ := hblk blk hmem
    exact ⟨hpd, huni⟩
  · intro b hble
    obtain ⟨bl, hfl, hblk⟩ := hgbm
    rw [hfl] at hble ⊢
    obtain ⟨blk, hmem, heq⟩ := flatten_block_slice W hW bl b
      (fun bb hbb => (hblk bb hbb).1) hble
    rw [heq]
    obtain ⟨_, hpd, hkb⟩ := hblk blk hmem
    exact ⟨hpd, hkb⟩

theorem claim_C2_witness :
    PairwiseDisjoint bodiesAllDyn (fun i => (jointsDisjoint i).pair)
      (((outPacked1.grouped.drop (InteractionGroups.new 1).grouped.length).drop
        (1 * 0)).take 1) ∧
    PairwiseDisjoint bodiesAllDyn (fun i => (manifoldsDisjoint i).pair)
      (((outPacked1.grouped.drop (InteractionGroups.new 1).grouped.length).drop
        (1 * 0)).take 1) :=
  ⟨((claim_C2 1 1 (by decide) bodiesAllDyn jointsDisjoint manifoldsDisjoint 2
      (InteractionGroups.new 1) outPacked1 (InteractionGroups.new 1) outPacked1 [0] [0]
      ⟨rfl, fun x hx => absurd hx (List.not_mem_nil x)⟩
      ⟨rfl, fun x hx => absurd hx (List.not_mem_nil x)⟩
      (by decide) (by decide)).1 0 (by decide)).1,
   ((claim_C2 1 1 (by decide) bodiesAllDyn jointsDisjoint manifoldsDisjoint 2
      (InteractionGroups.new 1) outPacked1 (InteractionGroups.new 1) outPacked1 [0] [0]
      ⟨rfl, fun x hx => absurd hx (List.not_mem_nil x)⟩
      ⟨rfl, fun x hx => absurd hx (List.not_mem_nil x)⟩
      (by decide) (by decide)).2 0 (by decide)).1⟩

/-- C3 (amended): for the parallel grouper, a successful call's
`sorted_interactions` is exactly the input index multiset; for the SIMD
packer (fresh workspaces), the union of the per-call
`grouped_interactions` and `nongrouped_interactions` suffixes equals the
input multiset minus the skipped static–static pairs — and, for
`group_manifolds`, additionally minus the manifolds with zero active
contacts, which the stratified outer pass never visits. -/
theorem claim_C3 (W T : Nat) (hW : 0 < W) (bodies : Nat → RBody) :
    (∀ (pints : Nat → BodyPair) (nib : Nat) (prev : PGroups) (idxs : List Nat)
      (out : PGroups), groupInteractions bodies pints nib prev idxs = some out →
      (↑out.sortedInteractions : Multiset Nat) = ↑idxs) ∧
    (∀ (jints : Nat → JointData) (nib : Nat) (g g' : InteractionGroups)
      (idxs : List Nat), g.freshWorkspaces W →
      InteractionGroups.groupJoints W T bodies jints nib g idxs = some g' →
      (↑(g'.grouped.drop g.grouped.length) : Multiset Nat) +
        ↑(g'.nongrouped.drop g.nongrouped.length) =
        ↑(idxs.filter (fun i => !(bothStatic bodies (jints i).pair)))) ∧
    (∀ (mints : Nat → ManifoldData) (nib : Nat) (g g' : InteractionGroups)
      (idxs : List Nat), g.freshWorkspaces W →
      InteractionGroups.groupManifolds W bodies mints nib g idxs = some g' →
      (↑(g'.grouped.drop g.grouped.length) : Multiset Nat) +
        ↑(g'.nongrouped.drop g.nongrouped.length) =
        ↑(idxs.filter (fun i => !(bothStatic bodies (mints i).pair) &&
          decide (1 ≤ (mints i).numActiveContacts)))) := by
  refine ⟨?_, ?_, ?_⟩
  · intro pints nib prev idxs out h
    exact Multiset.coe_eq_coe.mpr (groupInteractions_perm bodies pints nib prev idxs out h)
  · intro jints nib g g' idxs hfresh h
    obtain ⟨_, _, _, hms, _, _, _, _⟩ :=
      groupJoints_spec W T hW bodies jints nib g g' idxs hfresh h
    exact hms
  · intro mints nib g g' idxs hfresh h
    obtain ⟨_, _, _, hms, _, _⟩ :=
      groupManifolds_spec W hW bodies mints nib g g' idxs hfresh h
    exact hms

/-- A successful `group_manifolds` call can emit strictly less than the
input minus its static–static pairs: a dynamic zero-contact manifold is
dropped entirely, so the original multiset claim fails. -/
theorem claim_C3_counterexample :
    (InteractionGroups.groupManifolds 4 bodiesAllDyn manifoldZero 2
      (InteractionGroups.new 4) [0]).map (fun g => (g.grouped, g.nongrouped)) =
      some ([], []) ∧
    [0].filter (fun i => !(bothStatic bodiesAllDyn (manifoldZero i).pair)) = [0] ∧
    (↑([] : List Nat) : Multiset Nat) + ↑([] : List Nat) ≠ (↑[0] : Multiset Nat) := by
  refine ⟨by decide, by decide, by decide⟩

theorem claim_C3_witness :
    (↑outS1.sortedInteractions : Multiset Nat) = ↑[0, 1, 2, 3] ∧
    (↑(outPacked1.grouped.drop (InteractionGroups.new 1).grouped.length) :
        Multiset Nat) +
      ↑(outPacked1.nongrouped.drop (InteractionGroups.new 1).nongrouped.length) =
      ↑([0].filter (fun i => !(bothStatic bodiesAllDyn (jointsDisjoint i).pair))) ∧
    (↑(c9out.grouped.drop (InteractionGroups.new 4).grouped.length) : Multiset Nat) +
      ↑(c9out.nongrouped.drop (InteractionGroups.new 4).nongrouped.length) =
      ↑([0].filter (fun i => !(bothStatic bodiesAllDyn (manifoldZero i).pair) &&
        decide (1 ≤ (manifoldZero i).numActiveContacts))) :=
  ⟨(claim_C3 1 1 (by decide) bodiesAllDyn).1 intsChain 5
      { sortedInteractions := [], groups := [], colors := [] } [0, 1, 2, 3] outS1
      (by decide),
   (claim_C3 1 1 (by decide) bodiesAllDyn).2.1 jointsDisjoint 2
      (InteractionGroups.new 1) outPacked1 [0]
      ⟨rfl, fun x hx => absurd hx (List.not_mem_nil x)⟩ (by decide),
   (claim_C3 4 1 (by decide) bodiesAllDyn).2.2 manifoldZero 2
      (InteractionGroups.new 4) c9out [0]
      ⟨rfl, fun x hx => absurd hx (List.not_mem_nil x)⟩ (by decide)⟩

/-- C8: on five dynamic bodies with the chain
`[(b0,b1), (b1,b2), (b2,b3), (b3,b4)]` in input order, the parallel
grouper assigns the colors `[0, 1, 0, 1]` and emits
`groups = [0, 2, 4]`, `sorted_interactions = [0, 2, 1, 3]`. -/
theorem claim_C8 :
    groupInteractions bodiesAllDyn intsChain 5
      { sortedInteractions := [], groups := [], colors := [] } [0, 1, 2, 3] =
      some outS1 := by
  decide

theorem claim_C1_witness :
    ¬ memPair 1 (intsChain ([0, 1, 2, 3].getD 2 0)) :=
  claim_C1 bodiesAllDyn intsChain 5
    { sortedInteractions := [], groups := [], colors := [] } [0, 1, 2, 3] outS1
    (by decide) (by decide) 0 2 (by decide) (by decide) (by decide) (by decide)
    1 (by decide) (by decide)

theorem claim_C5_witness :
    outS1.colors.getD 0 0 + 1 < outS1.groups.length :=
  (claim_C5 bodiesAllDyn intsChain 5
    { sortedInteractions := [], groups := [], colors := [] } [0, 1, 2, 3] outS1
    (by decide)).2.2 0 (by decide)

theorem claim_C10_witness :
    groupInteractions bodiesAllStatic intsChain 2
      { sortedInteractions := [], groups := [], colors := [] } [0] = none :=
  claim_C10 bodiesAllStatic intsChain 2
    { sortedInteractions := [], groups := [], colors := [] } [0]
    ⟨0, by decide, by decide⟩

theorem claim_C4_witness :
    groupInteractions bodiesHub intsSame 1
      { sortedInteractions := [], groups := [], colors := [] }
      (List.replicate 128 0 ++ 0 :: []) = none :=
  claim_C4 bodiesHub intsSame 1
    { sortedInteractions := [], groups := [], colors := [] }
    (List.replicate 128 0) [] 0 cstC4 (by decide)
    (by
      have hmask : forbiddenMask bodiesHub cstC4 (intsSame 0) = 2 ^ 128 - 1 := by decide
      intro j hj
      rw [hmask, Nat.testBit_two_pow_sub_one]
      simpa using hj)

/-- With one island body of degree 129, the 129th interaction's forbidden
mask is all-ones, and the call panics (`none`) instead of completing with
a wrapped color assignment: the original claim's "completes without
fault" fails. -/
theorem claim_C4_counterexample :
    (∀ j, j < 128 → (forbiddenMask bodiesHub cstC4 (intsSame 128)).testBit j = true) ∧
    groupInteractions bodiesHub intsSame 1
      { sortedInteractions := [], groups := [], colors := [] }
      (List.replicate 129 0) = none := by
  constructor
  · have hmask : forbiddenMask bodiesHub cstC4 (intsSame 128) = 2 ^ 128 - 1 := by decide
    intro j hj
    rw [hmask, Nat.testBit_two_pow_sub_one]
    simpa using hj
  · decide

/-- C6 (amended): the parallel grouper's outputs are rebuilt from scratch
on every call, so they are independent of any state left by earlier
calls; the SIMD packer's output arrays are NOT cleared per call — each
call appends to them, so only the per-call suffix (not the array
contents) is a function of that call's inputs, and only given fresh
workspaces. -/
theorem claim_C6 (W T : Nat) (hW : 0 < W) :
    (∀ (bodies : Nat → RBody) (pints : Nat → BodyPair) (nib : Nat)
      (prev1 prev2 : PGroups) (idxs : List Nat),
      groupInteractions bodies pints nib prev1 idxs =
        groupInteractions bodies pints nib prev2 idxs) ∧
    (∀ (bodies : Nat → RBody) (jints : Nat → JointData) (nib : Nat)
      (g1 g2 g1' g2' : InteractionGroups) (idxs : List Nat),
      g1.freshWorkspaces W → g2.freshWorkspaces W →
      InteractionGroups.groupJoints W T bodies jints nib g1 idxs = some g1' →
      InteractionGroups.groupJoints W T bodies jints nib g2 idxs = some g2' →
      g1'.grouped.drop g1.grouped.length = g2'.grouped.drop g2.grouped.length ∧
      g1'.nongrouped.drop g1.nongrouped.length =
        g2'.nongrouped.drop g2.nongrouped.length) ∧
    (∀ (bodies : Nat → RBody) (mints : Nat → ManifoldData) (nib : Nat)
      (g1 g2 g1' g2' : InteractionGroups) (idxs : List Nat),
      g1.freshWorkspaces W → g2.freshWorkspaces W →
      InteractionGroups.groupManifolds W bodies mints nib g1 idxs = some g1' →
      InteractionGroups.groupManifolds W bodies mints nib g2 idxs = some g2' →
      g1'.grouped.drop g1.grouped.length = g2'.grouped.drop g2.grouped.length ∧
      g1'.nongrouped.drop g1.nongrouped.length =
        g2'.nongrouped.drop g2.nongrouped.length) := by
  refine ⟨fun _ _ _ _ _ _ => rfl, ?_, ?_⟩
  · intro bodies jints nib g1 g2 g1' g2' idxs hf1 hf2 h1 h2
    obtain ⟨hb1, hm1⟩ := hf1
    obtain ⟨hb2, hm2⟩ := hf2
    have hbeq : g2.buckets = g1.buckets := by rw [hb2, hb1]
    have hmeq : resizeList g2.bodyMasks nib = resizeList g1.bodyMasks nib := by
      rw [resizeList_of_all_zero _ _ hm2, resizeList_of_all_zero _ _ hm1]
    simp only [InteractionGroups.groupJoints] at h1 h2
    rw [hbeq, hmeq] at h2
    cases hfold : foldSteps (groupJointsStep W bodies jints)
        { buckets := g1.buckets,
          bodyMasks := resizeList g1.bodyMasks nib,
          occupied := 0,
          jtc := List.replicate T 0,
          newGrouped := [],
          newNongrouped := [] } idxs with
    | none =>
      rw [hfold] at h1
      exact Option.noConfusion h1
    | some st =>
      rw [hfold] at h1 h2
      replace h1 : (if (g1.grouped.length + st.newGrouped.length) % W = 0 then
          some (InteractionGroups.mk (List.replicate 128 (List.replicate W 0, 0))
            (st.bodyMasks.map (fun _ => 0))
            (g1.grouped ++ st.newGrouped)
            (g1.nongrouped ++ st.newNongrouped ++ bucketPending st.buckets))
        else none) = some g1' := h1
      replace h2 : (if (g2.grouped.length + st.newGrouped.length) % W = 0 then
          some (InteractionGroups.mk (List.replicate 128 (List.replicate W 0, 0))
            (st.bodyMasks.map (fun _ => 0))
            (g2.grouped ++ st.newGrouped)
            (g2.nongrouped ++ st.newNongrouped ++ bucketPending st.buckets))
        else none) = some g2' := h2
      split_ifs at h1 h2
      rcases Option.some.inj h1 with rfl
      rcases Option.some.inj h2 with rfl
      constructor
      · show (g1.grouped ++ st.newGrouped).drop g1.grouped.length =
          (g2.grouped ++ st.newGrouped).drop g2.grouped.length
        rw [List.drop_left, List.drop_left]
      · show (g1.nongrouped ++ st.newNongrouped ++ bucketPending st.buckets).drop
            g1.nongrouped.length =
          (g2.nongrouped ++ st.newNongrouped ++ bucketPending st.buckets).drop
            g2.nongrouped.length
        rw [List.append_assoc, List.append_assoc, List.drop_left, List.drop_left]
  · intro bodies mints nib g1 g2 g1' g2' idxs hf1 hf2 h1 h2
    obtain ⟨hb1, hm1⟩ := hf1
    obtain ⟨hb2, hm2⟩ := hf2
    have hbeq : g2.buckets = g1.buckets := by rw [hb2, hb1]
    have hmeq : resizeList g2.bodyMasks nib = resizeList g1.bodyMasks nib := by
      rw [resizeList_of_all_zero _ _ hm2, resizeList_of_all_zero _ _ hm1]
    simp only [InteractionGroups.groupManifolds] at h1 h2
    rw [hbeq, hmeq] at h2
    cases hfold : foldSteps (groupManifoldsPass W bodies mints idxs)
        { buckets := g1.buckets,
          bodyMasks := resizeList g1.bodyMasks nib,
          occupied := 0,
          newGrouped := [],
          newNongrouped := [] }
        (List.range' 1
          (((idxs.map (fun i => (mints i).numActiveContacts)).max?).getD 1)) with
    | none =>
      rw [hfold] at h1
      exact Option.noConfusion h1
    | some st =>
      rw [hfold] at h1 h2
      replace h1 : (if (g1.grouped.length + st.newGrouped.length) % W = 0 then
          some (InteractionGroups.mk st.buckets st.bodyMasks
            (g1.grouped ++ st.newGrouped)
            (g1.nongrouped ++ st.newNongrouped))
        else none) = some g1' := h1
      replace h2 : (if (g2.grouped.length + st.newGrouped.length) % W = 0 then
          some (InteractionGroups.mk st.buckets st.bodyMasks
            (g2.grouped ++ st.newGrouped)
            (g2.nongrouped ++ st.newNongrouped))
        else none) = some g2' := h2
      split_ifs at h1 h2
      rcases Option.some.inj h1 with rfl
      rcases Option.some.inj h2 with rfl
      constructor
      · show (g1.grouped ++ st.newGrouped).drop g1.grouped.length =
          (g2.grouped ++ st.newGrouped).drop g2.grouped.length
        rw [List.drop_left, List.drop_left]
      · show (g1.nongrouped ++ st.newNongrouped).drop g1.nongrouped.length =
          (g2.nongrouped ++ st.newNongrouped).drop g2.nongrouped.length
        rw [List.drop_left, List.drop_left]

/-- Two identical `group_joints` calls on one packer instance observe
different output arrays: the second call's `nongrouped_interactions`
still holds the first call's entry, so the arrays are not produced fresh
per call. -/
theorem claim_C6_counterexample :
    (InteractionGroups.groupJoints 4 1 bodiesAllDyn jointNoSimd 2
      (InteractionGroups.new 4) [0]).map InteractionGroups.nongrouped = some [0] ∧
    ((InteractionGroups.groupJoints 4 1 bodiesAllDyn jointNoSimd 2
      (InteractionGroups.new 4) [0]).bind
      (fun g1 => InteractionGroups.groupJoints 4 1 bodiesAllDyn jointNoSimd 2 g1
        [0])).map InteractionGroups.nongrouped = some [0, 0] := by
  exact ⟨by decide, by decide⟩

theorem claim_C6_witness :
    groupInteractions bodiesAllDyn intsChain 5 outS1 [0, 1, 2, 3] =
      groupInteractions bodiesAllDyn intsChain 5
        { sortedInteractions := [], groups := [], colors := [] } [0, 1, 2, 3] ∧
    c6g2out.grouped.drop c6g2.grouped.length =
      outPacked1.grouped.drop (InteractionGroups.new 1).grouped.length :=
  ⟨(claim_C6 1 1 (by decide)).1 bodiesAllDyn intsChain 5 outS1
      { sortedInteractions := [], groups := [], colors := [] } [0, 1, 2, 3],
   ((claim_C6 1 1 (by decide)).2.1 bodiesAllDyn jointsDisjoint 2 c6g2
      (InteractionGroups.new 1) c6g2out outPacked1 [0]
      ⟨rfl, fun x hx => absurd hx (List.not_mem_nil x)⟩
      ⟨rfl, fun x hx => absurd hx (List.not_mem_nil x)⟩
      (by decide) (by decide)).1⟩

/-- C7 (amended): a SIMD-incapable joint with at least one dynamic body
is appended to the call's `nongrouped_interactions` and never to its
`grouped_interactions`; a static–static joint, however, is skipped
before the `supports_simd` test and appears in neither output. -/
theorem claim_C7 (W T : Nat) (hW : 0 < W) (bodies : Nat → RBody)
    (ints : Nat → JointData) (nib : Nat) (g g' : InteractionGroups) (idxs : List Nat)
    (hfresh : g.freshWorkspaces W)
    (h : InteractionGroups.groupJoints W T bodies ints nib g idxs = some g')
    (i : Nat) (hi : i ∈ idxs) (hns : (ints i).supportsSimd = false) :
    (bothStatic bodies (ints i).pair = false →
      i ∈ g'.nongrouped.drop g.nongrouped.length) ∧
    (bothStatic bodies (ints i).pair = true →
      i ∉ g'.nongrouped.drop g.nongrouped.length) ∧
    i ∉ g'.grouped.drop g.grouped.length := by
  obtain ⟨_, _, _, hms, hngm, hsimd, _, _⟩ :=
    groupJoints_spec W T hW bodies ints nib g g' idxs hfresh h
  refine ⟨?_, ?_, ?_⟩
  · intro hbs
    exact hngm i hi hbs hns
  · intro hbs hmem
    have hin : (i : Nat) ∈ ((↑(g'.grouped.drop g.grouped.length) : Multiset Nat) +
        ↑(g'.nongrouped.drop g.nongrouped.length)) :=
      Multiset.mem_add.mpr (Or.inr (Multiset.mem_coe.mpr hmem))
    rw [hms] at hin
    have := (List.mem_filter.mp (Multiset.mem_coe.mp hin)).2
    rw [hbs] at this
    cases this
  · intro hmem
    have := hsimd i hmem
    rw [hns] at this
    cases this

/-- A static–static SIMD-incapable joint's index appears in neither
output of `group_joints`: the original claim's "appears in
`nongrouped_interactions`" fails for it. -/
theorem claim_C7_counterexample :
    (jointNoSimd 0).supportsSimd = false ∧
    bothStatic bodiesAllStatic (jointNoSimd 0).pair = true ∧
    (InteractionGroups.groupJoints 4 1 bodiesAllStatic jointNoSimd 2
      (InteractionGroups.new 4) [0]).map (fun g => (g.grouped, g.nongrouped)) =
      some ([], []) := by
  exact ⟨rfl, by decide, by decide⟩

theorem claim_C7_witness :
    (bothStatic bodiesAllDyn (jointNoSimd 0).pair = false →
      0 ∈ c7out.nongrouped.drop (InteractionGroups.new 4).nongrouped.length) ∧
    (bothStatic bodiesAllDyn (jointNoSimd 0).pair = true →
      0 ∉ c7out.nongrouped.drop (InteractionGroups.new 4).nongrouped.length) ∧
    0 ∉ c7out.grouped.drop (InteractionGroups.new 4).grouped.length :=
  claim_C7 4 1 (by decide) bodiesAllDyn jointNoSimd 2 (InteractionGroups.new 4) c7out
    [0] ⟨rfl, fun x hx => absurd hx (List.not_mem_nil x)⟩ (by decide) 0
    (by decide) (by decide)

/-- C9: `group_manifolds` silently discards every manifold with zero
active contacts: the stratified outer pass iterates `k` only from 1, so
such a manifold's index enters neither the grouped nor the nongrouped
output of the call. -/
theorem claim_C9 (W : Nat) (hW : 0 < W) (bodies : Nat → RBody)
    (ints : Nat → ManifoldData) (nib : Nat) (g g' : InteractionGroups)
    (idxs : List Nat) (hfresh : g.freshWorkspaces W)
    (h : InteractionGroups.groupManifolds W bodies ints nib g idxs = some g')
    (i : Nat)
    (_hdyn : (bodies (ints i).body1).isDynamic = true ∨
      (bodies (ints i).body2).isDynamic = true)
    (hzero : (ints i).numActiveContacts = 0) :
    i ∉ g'.grouped.drop g.grouped.length ∧
    i ∉ g'.nongrouped.drop g.nongrouped.length := by
  obtain ⟨_, _, _, hms, _, _⟩ :=
    groupManifolds_spec W hW bodies ints nib g g' idxs hfresh h
  have hnotin : (i : Nat) ∉ ((↑(g'.grouped.drop g.grouped.length) : Multiset Nat) +
      ↑(g'.nongrouped.drop g.nongrouped.length)) := by
    rw [hms]
    intro hin
    have := (List.mem_filter.mp (Multiset.mem_coe.mp hin)).2
    rw [Bool.and_eq_true] at this
    have h1 := this.2
    rw [hzero] at h1
    cases h1
  constructor
  · intro hmem
    exact hnotin (Multiset.mem_add.mpr (Or.inl (Multiset.mem_coe.mpr hmem)))
  · intro hmem
    exact hnotin (Multiset.mem_add.mpr (Or.inr (Multiset.mem_coe.mpr hmem)))

theorem claim_C9_witness :
    0 ∉ c9out.grouped.drop (InteractionGroups.new 4).grouped.length ∧
    0 ∉ c9out.nongrouped.drop (InteractionGroups.new 4).nongrouped.length :=
  claim_C9 4 (by decide) bodiesAllDyn manifoldZero 2 (InteractionGroups.new 4) c9out
    [0] ⟨rfl, fun x hx => absurd hx (List.not_mem_nil x)⟩ (by decide) 0
    (Or.inl rfl) rfl

end InteractionGrouping
